import Mathlib

/-!
# EbsdLib: a shallow embedding of `EbsdDataArray<T>` and of the cubic-low Laue class

Sources embedded here:

* `Source/EbsdLib/Core/EbsdDataArray.hpp` / `.cpp` : the typed tuple buffer,
* `Source/EbsdLib/LaueOps/CubicLowOps.cpp` : symmetry tables, `getMDFFZRod`,
  `GenerateSphereCoordsImpl::generate`.

Modelling conventions.

* A `size_t` is a `Nat`; a subtraction is `szSub`, which wraps below zero exactly as the
  64-bit unsigned subtraction does.  The definitions `copyFromArray`, `eraseTuples`,
  `resizeTuples` and `construct` take the sums and products of sizes as the mathematical
  ones; they agree with the code as long as no sum or product reaches `2 ^ 64`.  The
  definitions `copyFromArray_sizet`, `eraseTuples_sizet`, `resizeTuples_sizet` and
  `construct_sizet` carry the same sums and products out modulo `2 ^ 64`, as the code does,
  and every statement that depends on large arguments is about them.
* A heap block is a `List T`; the pointer `m_Array` is `none` for `nullptr` and
  `some block` otherwise.
* A function whose C++ body would read or write outside a block, dereference
  `nullptr`, or whose `new[]` cannot succeed, returns `none`; every other return is
  `some`.
* `double` / `float` values are rationals: comparisons, negation, `fabs` and the table
  constants are exact there; the rounding of sums and products is not modelled, so that a
  statement that involves sums or products of such values is about exact arithmetic.
-/

namespace EbsdLib

/-! ## `size_t` and raw memory -/

/-- Unsigned 64-bit subtraction `a - b` of two `size_t` values: when `b` exceeds `a`
the result wraps around `2 ^ 64`. -/
def szSub (a b : Nat) : Nat :=
  if b ≤ a then a - b else a + 2 ^ 64 - b

/-- Largest request `new T[n]` can be asked for (`PTRDIFF_MAX` bytes is the limit of every
allocator; the element count alone already has to stay below it). -/
def maxAllocElements : Nat := 2 ^ 63 - 1

/-- The element type of an array: the value `T()` written by `new T[n]()` and the value
whose bytes are all `0xAB` (written by `memset(p, 0xAB, ...)`). -/
class ElementType (T : Type) where
  /-- Value-initialised element, `static_cast<T>(0)`. -/
  zero : T
  /-- Element with every byte equal to `0xAB`. -/
  splatAB : T

/-- Elements `int32_t`, carried as integers: `0xABABABAB` read as a signed 32-bit value. -/
instance instElementTypeInt : ElementType Int where
  zero := 0
  splatAB := -1414812757

/-- Expression `new T[n]()`: a fresh block of `n` value-initialised elements, or `none`
when the request cannot be met (`std::bad_alloc` / `std::bad_array_new_length`). -/
def newArray (T : Type) [ElementType T] (n : Nat) : Option (List T) :=
  if n ≤ maxAllocElements then some (List.replicate n ElementType.zero) else none

/-- Call `std::memcpy(dest + dOff, src + sOff, count * sizeof(T))`: the block `dest`
afterwards, or `none` when one of the two ranges leaves its block. -/
def memcpy {T : Type} (dest : List T) (dOff : Nat) (src : List T) (sOff count : Nat) :
    Option (List T) :=
  if dOff + count ≤ dest.length ∧ sOff + count ≤ src.length then
    some (dest.take dOff ++ (src.drop sOff).take count ++ dest.drop (dOff + count))
  else none

/-- Assignment `p[i] = v` into the block `p`: `none` when `i` is outside the block. -/
def store {T : Type} (block : List T) (i : Nat) (v : T) : Option (List T) :=
  if i < block.length then some (block.set i v) else none

/-- Loop `for(k = 0; k < count; k++) p[i + k] = v;`. -/
def fillLoop {T : Type} (v : T) : Nat → Nat → List T → Option (List T)
  | _, 0, block => some block
  | i, count + 1, block =>
    match store block i v with
    | some block1 => fillLoop v (i + 1) count block1
    | none => none

/-! ## The array object -/

/-- Data members of `EbsdDataArray<T>` (EbsdDataArray.hpp, private section). -/
structure EbsdDataArray (T : Type) where
  /-- Member `QString m_Name`. -/
  m_Name : String
  /-- Member `T* m_Array`: `none` is `nullptr`. -/
  m_Array : Option (List T)
  /-- Member `size_t m_Size`. -/
  m_Size : Nat
  /-- Member `size_t m_MaxId`. -/
  m_MaxId : Nat
  /-- Member `size_t m_NumTuples`. -/
  m_NumTuples : Nat
  /-- Member `size_t m_NumComponents`. -/
  m_NumComponents : Nat
  /-- Member `T m_InitValue`. -/
  m_InitValue : T
  /-- Member `comp_dims_type m_CompDims`. -/
  m_CompDims : List Nat
  /-- Member `bool m_IsAllocated`. -/
  m_IsAllocated : Bool
  /-- Member `bool m_OwnsData`. -/
  m_OwnsData : Bool
deriving DecidableEq, Repr

namespace EbsdDataArray

variable {T : Type}

/-- Method `getNumberOfTuples()`. -/
def getNumberOfTuples (s : EbsdDataArray T) : Nat := s.m_NumTuples

/-- Method `getSize()`. -/
def getSize (s : EbsdDataArray T) : Nat := s.m_Size

/-- Method `getNumberOfComponents()`, before the cast of the returned value to `int32_t`
(which changes nothing below `2 ^ 31`). -/
def getNumberOfComponents (s : EbsdDataArray T) : Nat := s.m_NumComponents

/-- Method `isAllocated()`. -/
def isAllocated (s : EbsdDataArray T) : Bool := s.m_IsAllocated

/-- Method `getInitValue()` (the stored `m_InitValue`). -/
def getInitValue (s : EbsdDataArray T) : T := s.m_InitValue

/-- Method `getValue(i)`: `m_Array[i]`, `none` when the read is outside the block. -/
def getValue (s : EbsdDataArray T) (i : Nat) : Option T :=
  match s.m_Array with
  | some block => block[i]?
  | none => none

/-- Method `deallocate()`: `delete[] m_Array; m_Array = nullptr; m_IsAllocated = false`. -/
def deallocate (s : EbsdDataArray T) : EbsdDataArray T :=
  { s with m_Array := none, m_IsAllocated := false }

/-- Method `clear()`. -/
def clear (s : EbsdDataArray T) : EbsdDataArray T :=
  let s1 := if s.m_Array.isSome && s.m_OwnsData then s.deallocate else s
  { s1 with m_Array := none, m_Size := 0, m_OwnsData := true, m_MaxId := 0,
            m_IsAllocated := false, m_NumTuples := 0 }

/-- Method `initializeWithValue(initValue, offset)`. -/
def initializeWithValue (s : EbsdDataArray T) (initValue : T) (offset : Nat) :
    Option (EbsdDataArray T) :=
  if !s.m_IsAllocated then some s
  else
    match s.m_Array with
    | none => some s
    | some block =>
      match fillLoop initValue offset (s.m_Size - offset) block with
      | some block1 => some { s with m_Array := some block1 }
      | none => none

/-- Method `resizeAndExtend(size)`; the returned pointer is the `m_Array` of the result. -/
def resizeAndExtend [ElementType T] (s : EbsdDataArray T) (size : Nat) :
    Option (EbsdDataArray T) :=
  if size = s.m_Size then some s
  else if size = 0 then some s.clear
  else
    match newArray T size with
    | none => none
    | some fresh =>
      let copied : Option (List T) :=
        match s.m_Array with
        | some old => memcpy fresh 0 old 0 (if size < s.m_Size then size else s.m_Size)
        | none => some fresh
      match copied with
      | none => none
      | some block =>
        let s1 := if s.m_Array.isSome && s.m_OwnsData then s.deallocate else s
        let s2 : EbsdDataArray T :=
          { s1 with m_Size := size, m_Array := some block, m_OwnsData := true,
                    m_MaxId := szSub size 1, m_IsAllocated := true }
        if size > s.m_Size then s2.initializeWithValue s2.m_InitValue s.m_Size else some s2

/-- Method `resizeTuples(numTuples)`. -/
def resizeTuples [ElementType T] (s : EbsdDataArray T) (numTuples : Nat) :
    Option (EbsdDataArray T) :=
  match s.resizeAndExtend (numTuples * s.m_NumComponents) with
  | none => none
  | some s1 => if s1.m_Array.isSome then some { s1 with m_NumTuples := numTuples } else some s1

/-- Method `setValue(i, value)`: `m_Array[i] = value`. -/
def setValue (s : EbsdDataArray T) (i : Nat) (value : T) : Option (EbsdDataArray T) :=
  match s.m_Array with
  | none => none
  | some block =>
    match store block i value with
    | some block1 => some { s with m_Array := some block1 }
    | none => none

/-- Method `setComponent(i, j, c)`: `m_Array[i * m_NumComponents + j] = c`. -/
def setComponent (s : EbsdDataArray T) (i j : Nat) (c : T) : Option (EbsdDataArray T) :=
  match s.m_Array with
  | none => none
  | some block =>
    match store block (i * s.m_NumComponents + j) c with
    | some block1 => some { s with m_Array := some block1 }
    | none => none

/-- Method `setTuple(tupleIndex, data)`:
`memcpy(m_Array + tupleIndex * m_NumComponents, data, m_NumComponents * sizeof(T))`. -/
def setTuple (s : EbsdDataArray T) (tupleIndex : Nat) (data : List T) :
    Option (EbsdDataArray T) :=
  match s.m_Array with
  | none => none
  | some block =>
    match memcpy block (tupleIndex * s.m_NumComponents) data 0 s.m_NumComponents with
    | some block1 => some { s with m_Array := some block1 }
    | none => none

/-- Method `copyTuple(currentPos, newPos)`: the returned code and the array afterwards. The
division by `m_NumComponents` has no result when that member is zero. -/
def copyTuple (s : EbsdDataArray T) (currentPos newPos : Nat) :
    Option (Int × EbsdDataArray T) :=
  if s.m_NumComponents = 0 then none
  else
    let max := (s.m_MaxId + 1) / s.m_NumComponents
    if currentPos ≥ max ∨ newPos ≥ max then some (-1, s)
    else
      match s.m_Array with
      | none => none
      | some block =>
        match memcpy block (newPos * s.m_NumComponents) block
            (currentPos * s.m_NumComponents) s.m_NumComponents with
        | some block1 => some (0, { s with m_Array := some block1 })
        | none => none

/-- Method `copyFromArray(destTupleOffset, sourceArray, srcTupleOffset, totalSrcTuples)` with
`sourceArray` an object other than `this`: the returned flag and the destination afterwards. -/
def copyFromArray (s : EbsdDataArray T) (destTupleOffset : Nat) (sourceArray : EbsdDataArray T)
    (srcTupleOffset totalSrcTuples : Nat) : Option (Bool × EbsdDataArray T) :=
  if !s.m_IsAllocated then some (false, s)
  else
    match s.m_Array with
    | none => some (false, s)
    | some block =>
      if destTupleOffset > s.m_MaxId then some (false, s)
      else if !sourceArray.isAllocated then some (false, s)
      else
        match sourceArray.m_Array with
        | none => some (false, s)
        | some srcBlock =>
          if sourceArray.getNumberOfComponents ≠ s.getNumberOfComponents then some (false, s)
          else if srcTupleOffset + totalSrcTuples > sourceArray.getNumberOfTuples then
            some (false, s)
          else if totalSrcTuples * sourceArray.getNumberOfComponents
              + destTupleOffset * s.getNumberOfComponents > s.m_Size then some (false, s)
          else
            let elementStart := destTupleOffset * s.getNumberOfComponents
            let total := totalSrcTuples * sourceArray.getNumberOfComponents
            match memcpy block elementStart srcBlock
                (srcTupleOffset * sourceArray.getNumberOfComponents) total with
            | some block1 => some (true, { s with m_Array := some block1 })
            | none => none

/-- First loop of `eraseTuples`: walk `idxs` from position `k` while `j == idxs[k]`; the
values of `j` and `k` when the loop is left. -/
def leadingRun : List Nat → Nat → Nat → Nat × Nat
  | [], j, k => (j, k)
  | idx :: rest, j, k => if j = idx then leadingRun rest (j + 1) (k + 1) else (j, k)

/-- Body of the loop `for(size_t i = 1; i < srcIdx.size(); ++i)` of `eraseTuples`, on the
vectors `(srcIdx, destIdx, copyElements)`. -/
def eraseTablesStep (idxs : List Nat) (numTuples numComponents : Nat)
    (t : List Nat × List Nat × List Nat) (i : Nat) : List Nat × List Nat × List Nat :=
  let size := idxs.length + 1
  let srcIdx1 := t.1.set i ((idxs.getD (i - 1) 0 + 1) * numComponents)
  let copyElements1 :=
    if i < size - 1 then
      t.2.2.set i (szSub (szSub (idxs.getD i 0) (idxs.getD (i - 1) 0)) 1 * numComponents)
    else
      t.2.2.set i (szSub (szSub numTuples (idxs.getD (i - 1) 0)) 1 * numComponents)
  let destIdx1 := t.2.1.set i (copyElements1.getD (i - 1) 0 + t.2.1.getD (i - 1) 0)
  (srcIdx1, destIdx1, copyElements1)

/-- Vectors `srcIdx`, `destIdx`, `copyElements` of `eraseTuples` before its copy loop: each is
created with `idxs.size() + 1` zeros, entry `0` is assigned, and the loop
`for(size_t i = 1; i < srcIdx.size(); ++i)` fills the rest. -/
def eraseTables (idxs : List Nat) (numTuples numComponents : Nat) :
    List Nat × List Nat × List Nat :=
  let size := idxs.length + 1
  let srcIdx := (List.replicate size 0).set 0 0
  let destIdx := (List.replicate size 0).set 0 0
  let copyElements := (List.replicate size 0).set 0 (szSub (idxs.getD 0 0) 0 * numComponents)
  (List.range' 1 (size - 1)).foldl (eraseTablesStep idxs numTuples numComponents)
    (srcIdx, destIdx, copyElements)

/-- Loop `for(size_t i = 0; i < srcIdx.size(); ++i)` of `eraseTuples` that copies chunk `i`
of the old block `old` into the new block. -/
def eraseCopy (old : List T) (srcIdx destIdx copyElements : List Nat) (fresh : List T) :
    Option (List T) :=
  (List.range srcIdx.length).foldlM
    (fun acc i => memcpy acc (destIdx.getD i 0) old (srcIdx.getD i 0) (copyElements.getD i 0))
    fresh

/-- Method `eraseTuples(idxs)`: the returned code and the array afterwards. -/
def eraseTuples [ElementType T] (s : EbsdDataArray T) (idxs : List Nat) :
    Option (Int × EbsdDataArray T) :=
  if idxs.isEmpty then some (0, s)
  else if idxs.length ≥ s.getNumberOfTuples then
    match s.resizeTuples 0 with
    | some s1 => some (0, s1)
    | none => none
  else if idxs.any (fun idx => decide (idx * s.m_NumComponents > s.m_MaxId)) then some (-100, s)
  else
    let newSize := szSub s.getNumberOfTuples idxs.length * s.m_NumComponents
    match newArray T newSize with
    | none => none
    | some zeroed =>
      let fresh : List T := zeroed.map (fun _ => ElementType.splatAB)
      let jk := leadingRun idxs 0 0
      match s.m_Array with
      | none => none
      | some old =>
        let copied : Option (List T) :=
          if jk.2 = idxs.length then
            memcpy fresh 0 old (jk.1 * s.m_NumComponents)
              (szSub s.getNumberOfTuples idxs.length * s.m_NumComponents)
          else
            let t := eraseTables idxs s.getNumberOfTuples s.m_NumComponents
            eraseCopy old t.1 t.2.1 t.2.2 fresh
        match copied with
        | none => none
        | some block =>
          some (0, { s.deallocate with m_Size := newSize, m_Array := some block,
                                       m_OwnsData := true, m_MaxId := szSub newSize 1,
                                       m_IsAllocated := true })

/-- Template method `assign(first, last)` on a range holding the values `vals`. The index
`idx` is declared as `0` and is not changed by the loop body. -/
def assign [ElementType T] (s : EbsdDataArray T) (vals : List T) : Option (EbsdDataArray T) :=
  match s.resizeAndExtend vals.length with
  | none => none
  | some s1 =>
    let idx := 0
    vals.foldlM (fun (acc : EbsdDataArray T) v => acc.setValue idx v) s1

/-- Method `assign(n, val)` (the fill version). -/
def assignFill [ElementType T] (s : EbsdDataArray T) (n : Nat) (val : T) :
    Option (EbsdDataArray T) :=
  match s.resizeAndExtend n with
  | none => none
  | some s1 =>
    match s1.m_Array with
    | none => if n = 0 then some s1 else none
    | some block =>
      match fillLoop val 0 n block with
      | some block1 => some { s1 with m_Array := some block1 }
      | none => none

/-- Method `assign(std::initializer_list<T> il)`: `assign(il.begin(), il.end())`. -/
def assignList [ElementType T] (s : EbsdDataArray T) (il : List T) : Option (EbsdDataArray T) :=
  s.assign il

/-- Method `push_back(val)`: `resizeAndExtend(m_Size + 1); m_Array[m_MaxId] = val;`. -/
def push_back [ElementType T] (s : EbsdDataArray T) (val : T) : Option (EbsdDataArray T) :=
  match s.resizeAndExtend (s.m_Size + 1) with
  | none => none
  | some s1 => s1.setValue s1.m_MaxId val

/-- Method `pop_back()`: `resizeAndExtend(m_Size - 1)`. -/
def pop_back [ElementType T] (s : EbsdDataArray T) : Option (EbsdDataArray T) :=
  s.resizeAndExtend (szSub s.m_Size 1)

end EbsdDataArray

/-! ## Construction, copies, list access and byte order (EbsdDataArray.cpp) -/

namespace EbsdDataArray

variable {T : Type}

/-- Method `getName()`. -/
def getName (s : EbsdDataArray T) : String := s.m_Name

/-- Method `getComponentDimensions()`. -/
def getComponentDimensions (s : EbsdDataArray T) : List Nat := s.m_CompDims

/-- Constructor `EbsdDataArray()`: the default member initialisers of the class
(EbsdDataArray.hpp, private section). -/
def constructDefault [ElementType T] : EbsdDataArray T :=
  { m_Name := "", m_Array := none, m_Size := 0, m_MaxId := 0, m_NumTuples := 0,
    m_NumComponents := 1, m_InitValue := ElementType.zero, m_CompDims := [1],
    m_IsAllocated := false, m_OwnsData := true }

/-- Expression `std::accumulate(dims.begin(), dims.end(), static_cast<size_t>(1),
std::multiplies<>())`. -/
def accumulate (dims : List Nat) : Nat := dims.foldl (fun a b => a * b) 1

/-- Constructor `EbsdDataArray(numTuples, name, initValue)`. -/
def constructScalar [ElementType T] (numTuples : Nat) (name : String) (initValue : T) :
    Option (EbsdDataArray T) :=
  let s0 : EbsdDataArray T := { constructDefault with m_Name := name, m_InitValue := initValue }
  s0.resizeTuples numTuples

/-- Constructor `EbsdDataArray(numTuples, name, compDims, initValue)`. The pointer that
`resizeAndExtend` returns is the `m_Array` it has set, so the assignment `m_Array = ...`
changes nothing. -/
def construct [ElementType T] (numTuples : Nat) (name : String) (compDims : List Nat)
    (initValue : T) : Option (EbsdDataArray T) :=
  let s0 : EbsdDataArray T :=
    { constructDefault with m_Name := name, m_NumTuples := numTuples, m_CompDims := compDims }
  let s1 := { s0 with m_NumComponents := accumulate s0.m_CompDims }
  let s2 := { s1 with m_InitValue := initValue }
  s2.resizeAndExtend (s2.m_NumTuples * s2.m_NumComponents)

/-- Protected constructor `EbsdDataArray(numTuples, name, compDims, initValue, allocate)`. -/
def constructProtected [ElementType T] (numTuples : Nat) (name : String) (compDims : List Nat)
    (initValue : T) (allocate : Bool) : Option (EbsdDataArray T) :=
  let s0 : EbsdDataArray T :=
    { constructDefault with m_Name := name, m_NumTuples := numTuples, m_CompDims := compDims }
  let s1 := { s0 with m_NumComponents := accumulate s0.m_CompDims }
  let s2 := { s1 with m_InitValue := initValue }
  if allocate then s2.resizeTuples numTuples
  else
    let s3 := { s2 with m_Size := s2.m_NumTuples * s2.m_NumComponents }
    some { s3 with m_MaxId := if s3.m_Size > 0 then s3.m_Size - 1 else s3.m_Size }

/-- Method `allocate()`: the returned code and the array afterwards. The branch
`if(!m_Array) return -1;` is never taken, because `new T[newSize]()` throws when it
fails. -/
def allocate [ElementType T] (s : EbsdDataArray T) : Option (Int × EbsdDataArray T) :=
  let s1 := if s.m_Array.isSome && s.m_OwnsData then s.deallocate else s
  let s2 := { s1 with m_Array := none, m_OwnsData := true, m_IsAllocated := false }
  if s2.m_Size = 0 then some (1, s2.clear)
  else
    let newSize := s2.m_Size
    match newArray T newSize with
    | none => none
    | some fresh =>
      some (1, { s2 with m_Array := some fresh, m_Size := newSize, m_IsAllocated := true })

/-- Static method `CreateArray(numTuples, compDims, name, allocate)`: the returned pointer
(`some none` is the null pointer). -/
def CreateArray [ElementType T] (numTuples : Nat) (compDims : List Nat) (name : String)
    (allocate : Bool) : Option (Option (EbsdDataArray T)) :=
  if name = "" then some none
  else
    match constructProtected numTuples name compDims (ElementType.zero : T) allocate with
    | none => none
    | some d =>
      if allocate then
        match d.allocate with
        | none => none
        | some r => if r.1 < 0 then some none else some (some r.2)
      else some (some d)

/-- Method `createNewArray(numTuples, compDims, name, allocate)`. -/
def createNewArray [ElementType T] (_s : EbsdDataArray T) (numTuples : Nat)
    (compDims : List Nat) (name : String) (allocate : Bool) :
    Option (Option (EbsdDataArray T)) :=
  CreateArray numTuples compDims name allocate

/-- Method `deepCopy(forceNoAllocate)`: the returned pointer. `daCopy->getVoidPointer(0)` has
no result for a null `daCopy` and is the null pointer when `daCopy` has size `0`; a
`memcpy` of zero bytes is taken to do nothing. -/
def deepCopy [ElementType T] (s : EbsdDataArray T) (forceNoAllocate : Bool) :
    Option (Option (EbsdDataArray T)) :=
  let allocate := if forceNoAllocate then false else s.m_IsAllocated
  match s.createNewArray s.getNumberOfTuples s.getComponentDimensions s.getName allocate with
  | none => none
  | some daCopy =>
    if s.m_IsAllocated && !forceNoAllocate then
      match daCopy with
      | none => none
      | some d =>
        let src := s.m_Array
        let dest := if 0 ≥ d.m_Size then none else d.m_Array
        let total := s.getNumberOfTuples * s.getNumberOfComponents
        match dest, src with
        | some destBlock, some srcBlock =>
          match memcpy destBlock 0 srcBlock 0 total with
          | some block1 => some (some { d with m_Array := some block1 })
          | none => none
        | _, _ => if total = 0 then some (some d) else none
    else some daCopy

/-- Method `getArray()`: the list built from the range
`[m_Array, m_Array + (m_Size * sizeof(T)) / sizeof(T))`, the product being a `size_t`. -/
def getArray (sizeofT : Nat) (s : EbsdDataArray T) : Option (List T) :=
  let count := (s.m_Size * sizeofT % 2 ^ 64) / sizeofT
  if count = 0 then some []
  else
    match s.m_Array with
    | none => none
    | some block => if count ≤ block.length then some (block.take count) else none

/-- Loop `for(auto elem : newArray) { m_Array[i++] = elem; }` of `setArray` with the `int`
counter at `i`: the increment of `i = INT_MAX` has no result. -/
def setArrayLoop : List T → Nat → List T → Option (List T)
  | [], _, block => some block
  | elem :: rest, i, block =>
    if i ≥ 2 ^ 31 - 1 then none
    else
      match store block i elem with
      | some block1 => setArrayLoop rest (i + 1) block1
      | none => none

/-- Method `setArray(newArray)`. -/
def setArray (s : EbsdDataArray T) (newArray : List T) : Option (EbsdDataArray T) :=
  if newArray.length ≠ s.m_Size then some s
  else
    match s.m_Array with
    | some block =>
      match setArrayLoop newArray 0 block with
      | some block1 => some { s with m_Array := some block1 }
      | none => none
    | none => if newArray.isEmpty then some s else none

end EbsdDataArray

/-- Macro `EBSDLIB_ENDIAN_INTRINSIC_BYTE_SWAP_2(x)` (`__builtin_bswap16`, `_byteswap_ushort`,
`bswap_16`) on the 16-bit pattern `x`. -/
def EBSDLIB_ENDIAN_INTRINSIC_BYTE_SWAP_2 (x : Nat) : Nat := x % 256 * 256 + x / 256 % 256

/-- Macro `EBSDLIB_ENDIAN_INTRINSIC_BYTE_SWAP_4(x)` (`__builtin_bswap32`, `_byteswap_ulong`,
`bswap_32`) on the 32-bit pattern `x`. -/
def EBSDLIB_ENDIAN_INTRINSIC_BYTE_SWAP_4 (x : Nat) : Nat :=
  x % 256 * 16777216 + x / 256 % 256 * 65536 + x / 65536 % 256 * 256 + x / 16777216 % 256

/-- Macro `EBSDLIB_ENDIAN_INTRINSIC_BYTE_SWAP_8(x)` (`__builtin_bswap64`, `_byteswap_uint64`,
`bswap_64`) on the 64-bit pattern `x`. -/
def EBSDLIB_ENDIAN_INTRINSIC_BYTE_SWAP_8 (x : Nat) : Nat :=
  x % 256 * 72057594037927936 + x / 256 % 256 * 281474976710656
    + x / 65536 % 256 * 1099511627776 + x / 16777216 % 256 * 4294967296
    + x / 4294967296 % 256 * 16777216 + x / 1099511627776 % 256 * 65536
    + x / 281474976710656 % 256 * 256 + x / 72057594037927936 % 256

namespace EbsdDataArray

/-- Body of the loop of `byteSwapElements` for the elements `i, i + 1, ..., i + count - 1`.
An element is carried as its object representation, the unsigned number its `sizeof(T)`
bytes spell; for a width other than 2, 4 or 8 the body touches nothing. -/
def byteSwapLoop (sizeofT : Nat) : Nat → Nat → List Nat → Option (List Nat)
  | _, 0, block => some block
  | i, count + 1, block =>
    if sizeofT = 2 then
      match block[i]? with
      | none => none
      | some v =>
        match store block i (EBSDLIB_ENDIAN_INTRINSIC_BYTE_SWAP_2 v) with
        | some block1 => byteSwapLoop sizeofT (i + 1) count block1
        | none => none
    else if sizeofT = 4 then
      match block[i]? with
      | none => none
      | some v =>
        match store block i (EBSDLIB_ENDIAN_INTRINSIC_BYTE_SWAP_4 v) with
        | some block1 => byteSwapLoop sizeofT (i + 1) count block1
        | none => none
    else if sizeofT = 8 then
      match block[i]? with
      | none => none
      | some v =>
        match store block i (EBSDLIB_ENDIAN_INTRINSIC_BYTE_SWAP_8 v) with
        | some block1 => byteSwapLoop sizeofT (i + 1) count block1
        | none => none
    else byteSwapLoop sizeofT (i + 1) count block

/-- Method `byteSwapElements()` (the version that is compiled, with the intrinsics) for an
element type of `sizeofT` bytes. -/
def byteSwapElements (sizeofT : Nat) (s : EbsdDataArray Nat) : Option (EbsdDataArray Nat) :=
  match s.m_Array with
  | some block =>
    match byteSwapLoop sizeofT 0 s.m_Size block with
    | some block1 => some { s with m_Array := some block1 }
    | none => none
  | none =>
    if s.m_Size = 0 ∨ ¬ (sizeofT = 2 ∨ sizeofT = 4 ∨ sizeofT = 8) then some s else none

end EbsdDataArray

/-! ## Cubic-low Laue class: constant tables (CubicLowOps.cpp, namespace `CubicLow`) -/

/-- A `QuatType(x, y, z, w)`: vector part first, scalar part last. -/
structure QuatType where
  /-- First vector component. -/
  x : ℚ
  /-- Second vector component. -/
  y : ℚ
  /-- Third vector component. -/
  z : ℚ
  /-- Scalar component. -/
  w : ℚ
deriving DecidableEq

namespace CubicLow

/-- Constant `symSize0`: multiplicity of the `<001>` family. -/
def symSize0 : Nat := 6

/-- Constant `symSize1`: multiplicity of the `<011>` family. -/
def symSize1 : Nat := 12

/-- Constant `symSize2`: multiplicity of the `<111>` family. -/
def symSize2 : Nat := 8

/-- Constant `k_NumSymQuats`. -/
def k_NumSymQuats : Nat := 12

/-- Table `QuatSym[12]`. -/
def QuatSym : List QuatType :=
  [⟨0, 0, 0, 1⟩, ⟨1, 0, 0, 0⟩, ⟨0, 1, 0, 0⟩,
   ⟨0, 0, 1, 0⟩, ⟨1/2, 1/2, 1/2, 1/2⟩, ⟨-1/2, -1/2, -1/2, 1/2⟩,
   ⟨1/2, -1/2, 1/2, 1/2⟩, ⟨-1/2, 1/2, -1/2, 1/2⟩, ⟨-1/2, 1/2, 1/2, 1/2⟩,
   ⟨1/2, -1/2, -1/2, 1/2⟩, ⟨-1/2, -1/2, 1/2, 1/2⟩, ⟨1/2, 1/2, -1/2, 1/2⟩]

/-- Table `RodSym[12][3]`. -/
def RodSym : List (List ℚ) :=
  [[0, 0, 0], [10000000000, 0, 0], [0, 10000000000, 0], [0, 0, 10000000000],
   [1, 1, 1], [-1, -1, -1],
   [1, -1, 1], [-1, 1, -1], [-1, 1, 1], [1, -1, -1], [-1, -1, 1], [1, 1, -1]]

/-- Table `CubicLowMatSym[12][3][3]`. -/
def CubicLowMatSym : List (List (List ℚ)) :=
  [[[1, 0, 0], [0, 1, 0], [0, 0, 1]],
   [[1, 0, 0], [0, -1, 0], [0, 0, -1]],
   [[-1, 0, 0], [0, 1, 0], [0, 0, -1]],
   [[-1, 0, 0], [0, -1, 0], [0, 0, 1]],
   [[0, -1, 0], [0, 0, 1], [-1, 0, 0]],
   [[0, 0, 1], [-1, 0, 0], [0, -1, 0]],
   [[0, -1, 0], [0, 0, -1], [1, 0, 0]],
   [[0, 0, -1], [1, 0, 0], [0, -1, 0]],
   [[0, 1, 0], [0, 0, -1], [-1, 0, 0]],
   [[0, 0, -1], [-1, 0, 0], [0, 1, 0]],
   [[0, 1, 0], [0, 0, 1], [1, 0, 0]],
   [[0, 0, 1], [1, 0, 0], [0, 1, 0]]]

end CubicLow

/-- Constant `EbsdLib::Constants::k_1OverRoot2`, the `double` that `1.0 / sqrt(2.0)` yields
(`0x1.6a09e667f3bccp-1`). -/
def k_1OverRoot2 : ℚ := 1592262918131443 / 2251799813685248

/-- Constant `EbsdLib::Constants::k_1OverRoot3`, the `double` that `1.0 / sqrt(3.0)` yields
(`0x1.279a74590331dp-1`). -/
def k_1OverRoot3 : ℚ := 5200308914369309 / 9007199254740992

/-- Entry `g[r][c]` of a `double g[3][3]`. -/
def entry (g : List (List ℚ)) (r c : Nat) : ℚ := (g.getD r []).getD c 0

/-- Modelled from the spec: `EbsdMatrixMath::Transpose3x3(g, outMat)` is not among the
sources; `outMat[r][c] = g[c][r]`. -/
def Transpose3x3 (g : List (List ℚ)) : List (List ℚ) :=
  [[entry g 0 0, entry g 1 0, entry g 2 0],
   [entry g 0 1, entry g 1 1, entry g 2 1],
   [entry g 0 2, entry g 1 2, entry g 2 2]]

/-- Modelled from the spec: `EbsdMatrixMath::Multiply3x3with3x1(g, b, outMat)` is not among
the sources; the product of the matrix `g` with the column `b`, written to the three
elements at `out + off`. -/
def Multiply3x3with3x1 (g : List (List ℚ)) (b : List ℚ) (out : List ℚ) (off : Nat) :
    Option (List ℚ) :=
  memcpy out off
    [entry g 0 0 * b.getD 0 0 + entry g 0 1 * b.getD 1 0 + entry g 0 2 * b.getD 2 0,
     entry g 1 0 * b.getD 0 0 + entry g 1 1 * b.getD 1 0 + entry g 1 2 * b.getD 2 0,
     entry g 2 0 * b.getD 0 0 + entry g 2 1 * b.getD 1 0 + entry g 2 2 * b.getD 2 0] 0 3

/-- Modelled from the spec: `EbsdMatrixMath::Copy3x1(src, dst)` is not among the sources;
it copies the three elements at `arr + srcOff` to `arr + dstOff`. -/
def Copy3x1 (arr : List ℚ) (srcOff dstOff : Nat) : Option (List ℚ) :=
  memcpy arr dstOff arr srcOff 3

/-- Modelled from the spec: `EbsdMatrixMath::Multiply3x1withConstant(p, k)` is not among the
sources; it multiplies the three elements at `arr + off` by `k`. -/
def Multiply3x1withConstant (arr : List ℚ) (off : Nat) (k : ℚ) : Option (List ℚ) :=
  if off + 3 ≤ arr.length then
    memcpy arr off [arr.getD off 0 * k, arr.getD (off + 1) 0 * k, arr.getD (off + 2) 0 * k] 0 3
  else none

/-- Modelled from the spec: `OrientationTransformation::qu2om` is not among the sources;
the rotation matrix of a unit quaternion `(x, y, z, w)` by the usual formula, row-major, in
the passive convention of the library. -/
def qu2om (q : QuatType) : List (List ℚ) :=
  let qq := q.w * q.w - (q.x * q.x + q.y * q.y + q.z * q.z)
  [[qq + 2 * q.x * q.x, 2 * (q.x * q.y - q.w * q.z), 2 * (q.x * q.z + q.w * q.y)],
   [2 * (q.y * q.x + q.w * q.z), qq + 2 * q.y * q.y, 2 * (q.y * q.z - q.w * q.x)],
   [2 * (q.z * q.x - q.w * q.y), 2 * (q.z * q.y + q.w * q.x), qq + 2 * q.z * q.z]]

namespace CubicLowOps

/-- Method `getQuatSymOp(i)`: `CubicLow::QuatSym[i]`. -/
def getQuatSymOp (i : Nat) : Option QuatType := CubicLow.QuatSym[i]?

/-- Method `getRodSymOp(i, r)`: the three values written to `r`. -/
def getRodSymOp (i : Nat) : Option (List ℚ) :=
  match CubicLow.RodSym[i]? with
  | some row => some [row.getD 0 0, row.getD 1 0, row.getD 2 0]
  | none => none

/-- Method `getMatSymOp(i, g)`: the nine values written to `g`. -/
def getMatSymOp (i : Nat) : Option (List (List ℚ)) :=
  match CubicLow.CubicLowMatSym[i]? with
  | some m =>
    some [[entry m 0 0, entry m 0 1, entry m 0 2],
          [entry m 1 0, entry m 1 1, entry m 1 2],
          [entry m 2 0, entry m 2 1, entry m 2 2]]
  | none => none

/-- Method `getMDFFZRod`, from `n1 = ax[0]` to the construction of
`OrientationType(FZn1, FZn2, FZn3, FZw)`: the axis-angle that is handed to `ax2ro`. -/
def getMDFFZRod_axisAngle (ax : ℚ × ℚ × ℚ × ℚ) : ℚ × ℚ × ℚ × ℚ :=
  let w := ax.2.2.2
  let FZw := w
  let n1 := |ax.1|
  let n2 := |ax.2.1|
  let n3 := |ax.2.2.1|
  if n1 > n2 then
    if n1 > n3 then
      if n2 > n3 then (n1, n2, n3, FZw) else (n1, n3, n2, FZw)
    else (n3, n1, n2, FZw)
  else
    if n2 > n3 then
      if n1 > n3 then (n2, n1, n3, FZw) else (n2, n3, n1, FZw)
    else (n3, n2, n1, FZw)

/-- Method `getMDFFZRod(inRod)`. The helpers `_calcRodNearestOrigin` (with the table
`RodSym`), `ro2ax` and `ax2ro` are not among the sources and are parameters. -/
def getMDFFZRod {Rod : Type} (calcRodNearestOrigin : List (List ℚ) → Nat → Rod → Rod)
    (ro2ax : Rod → ℚ × ℚ × ℚ × ℚ) (ax2ro : ℚ × ℚ × ℚ × ℚ → Rod) (inRod : Rod) : Rod :=
  let rod := calcRodNearestOrigin CubicLow.RodSym CubicLow.k_NumSymQuats inRod
  let ax := ro2ax rod
  ax2ro (getMDFFZRod_axisAngle ax)

end CubicLowOps

namespace CubicLow

/-- The three statements of `generate` that handle one direction: the rotated direction is
written at `out + off`, copied to `out + off + 3`, and the copy is multiplied by `-1`. -/
def writeDirection (gTranpose : List (List ℚ)) (direction : List ℚ) (out : List ℚ)
    (off : Nat) : Option (List ℚ) :=
  match Multiply3x3with3x1 gTranpose direction out off with
  | none => none
  | some out1 =>
    match Copy3x1 out1 off (off + 3) with
    | none => none
    | some out2 => Multiply3x1withConstant out2 (off + 3) (-1)

/-- The directions of one family in the order `generate` handles them, written one after
the other from `out + base` on, six elements apart. -/
def writeFamily (gTranpose : List (List ℚ)) : List (List ℚ) → List ℚ → Nat → Option (List ℚ)
  | [], out, _ => some out
  | direction :: rest, out, base =>
    match writeDirection gTranpose direction out base with
    | none => none
    | some out1 => writeFamily gTranpose rest out1 (base + 6)

/-- Directions assigned to `direction[]` in the "001 Family" block of `generate`. -/
def directions001 : List (List ℚ) := [[1, 0, 0], [0, 1, 0], [0, 0, 1]]

/-- Directions assigned to `direction[]` in the "011 Family" block of `generate`. -/
def directions011 : List (List ℚ) :=
  [[k_1OverRoot2, k_1OverRoot2, 0], [k_1OverRoot2, 0, k_1OverRoot2],
   [0, k_1OverRoot2, k_1OverRoot2], [-k_1OverRoot2, -k_1OverRoot2, 0],
   [-k_1OverRoot2, 0, k_1OverRoot2], [0, -k_1OverRoot2, k_1OverRoot2]]

/-- Directions assigned to `direction[]` in the "111 Family" block of `generate`. -/
def directions111 : List (List ℚ) :=
  [[k_1OverRoot3, k_1OverRoot3, k_1OverRoot3], [-k_1OverRoot3, k_1OverRoot3, k_1OverRoot3],
   [k_1OverRoot3, -k_1OverRoot3, k_1OverRoot3], [k_1OverRoot3, k_1OverRoot3, -k_1OverRoot3]]

/-- The output arrays of `GenerateSphereCoordsImpl`: the element blocks of `m_xyz001`,
`m_xyz011` and `m_xyz111`. -/
structure SphereCoords where
  /-- Block of `m_xyz001`. -/
  xyz001 : List ℚ
  /-- Block of `m_xyz011`. -/
  xyz011 : List ℚ
  /-- Block of `m_xyz111`. -/
  xyz111 : List ℚ
deriving DecidableEq

/-- Body of the loop of `GenerateSphereCoordsImpl::generate` for the orientation `i`. The
conversion `eu2om` is not among the sources and is a parameter; rounding of the products
to `float` is not modelled. -/
def generateOne (eu2om : List ℚ → List (List ℚ)) (eulers : List ℚ) (out : SphereCoords)
    (i : Nat) : Option SphereCoords :=
  match eulers[i * 3]?, eulers[i * 3 + 1]?, eulers[i * 3 + 2]? with
  | some e0, some e1, some e2 =>
    let g := eu2om [e0, e1, e2]
    let gTranpose := Transpose3x3 g
    match writeFamily gTranpose directions001 out.xyz001 (i * 18),
          writeFamily gTranpose directions011 out.xyz011 (i * 36),
          writeFamily gTranpose directions111 out.xyz111 (i * 24) with
    | some a, some b, some c => some ⟨a, b, c⟩
    | _, _, _ => none
  | _, _, _ => none

/-- Method `GenerateSphereCoordsImpl::generate(start, end)`: the loop over the orientations
`start, start + 1, ..., end - 1`. -/
def generate (eu2om : List ℚ → List (List ℚ)) (eulers : List ℚ) (out : SphereCoords)
    (start stop : Nat) : Option SphereCoords :=
  (List.range' start (stop - start)).foldlM (fun acc i => generateOne eu2om eulers acc i) out

/-- Sphere point number `p` of orientation `i` in a block whose orientations take `stride`
elements each: the three elements from `i * stride + 3 * p` on. -/
def spherePoint (block : List ℚ) (stride i p : Nat) : List ℚ :=
  (block.drop (i * stride + 3 * p)).take 3

end CubicLow

/-! ## Cubic-low: ODF bins, colours, Schmid factor (CubicLowOps.cpp) -/

/-- Conversion of an `int` to `size_t` (the usual arithmetic conversion of `choose` in
`choose % OdfNumBins[0]`): the value modulo `2 ^ 64`. -/
def toSizeT (x : Int) : Nat := (x % 2 ^ 64).toNat

/-- Conversion `static_cast<int32_t>(n)` of a `size_t`: the value modulo `2 ^ 32`, read as a
signed 32-bit integer. -/
def toInt32 (n : Nat) : Int :=
  if n % 2 ^ 32 < 2 ^ 31 then ((n % 2 ^ 32 : Nat) : Int) else ((n % 2 ^ 32 : Nat) : Int) - 2 ^ 32

namespace CubicLow

/-- Constant `OdfNumBins = {36, 36, 36}`. -/
def OdfNumBins : List Nat := [36, 36, 36]

/-- Constant `k_OdfSize`. -/
def k_OdfSize : Int := 46656

/-- Constant `OdfDimInitValue`: three times the `double` that
`std::pow(0.75 * (k_PiOver2 - std::sin(k_PiOver2)), 1.0 / 3.0)` yields
(`0x1.81e0f075b0ce1p-1`, about `0.7536692756333673`). -/
def OdfDimInitValue : List ℚ :=
  [6788449337806049 / 9007199254740992, 6788449337806049 / 9007199254740992,
   6788449337806049 / 9007199254740992]

/-- Constant `OdfDimStepValue`: `OdfDimInitValue[k] / static_cast<double>(OdfNumBins[k] / 2)`
(rounding of the quotient not modelled). -/
def OdfDimStepValue : List ℚ :=
  [OdfDimInitValue.getD 0 0 / ((OdfNumBins.getD 0 0 / 2 : Nat) : ℚ),
   OdfDimInitValue.getD 1 0 / ((OdfNumBins.getD 1 0 / 2 : Nat) : ℚ),
   OdfDimInitValue.getD 2 0 / ((OdfNumBins.getD 2 0 / 2 : Nat) : ℚ)]

end CubicLow

namespace CubicLowOps

/-- Method `getODFSize()`. -/
def getODFSize : Int := CubicLow.k_OdfSize

/-- Method `getOdfNumBins()`. -/
def getOdfNumBins : List Nat := CubicLow.OdfNumBins

/-- The three assignments to `phi[0]`, `phi[1]`, `phi[2]` of `determineEulerAngles` and of
`determineRodriguesVector` for the bin index `choose`. -/
def binIndices (choose : Int) : List Int :=
  [toInt32 (toSizeT choose % CubicLow.OdfNumBins.getD 0 0),
   toInt32 ((toSizeT choose / CubicLow.OdfNumBins.getD 0 0) % CubicLow.OdfNumBins.getD 1 0),
   toInt32 (toSizeT choose / (CubicLow.OdfNumBins.getD 0 0 * CubicLow.OdfNumBins.getD 1 0))]

/-- Method `determineEulerAngles(random, choose)`. The helpers
`_calcDetermineHomochoricValues`, `ho2ro`, `getODFFZRod` (through `_calcRodNearestOrigin`)
and `ro2eu` are not among the sources and are parameters. -/
def determineEulerAngles {Rod Eu : Type}
    (calcDetermineHomochoricValues : List ℚ → List ℚ → List ℚ → List Int → ℚ × ℚ × ℚ)
    (ho2ro : ℚ × ℚ × ℚ → Rod) (getODFFZRod : Rod → Rod) (ro2eu : Rod → Eu)
    (random : List ℚ) (choose : Int) : Eu :=
  let init := [CubicLow.OdfDimInitValue.getD 0 0, CubicLow.OdfDimInitValue.getD 1 0,
    CubicLow.OdfDimInitValue.getD 2 0]
  let step := [CubicLow.OdfDimStepValue.getD 0 0, CubicLow.OdfDimStepValue.getD 1 0,
    CubicLow.OdfDimStepValue.getD 2 0]
  let phi := binIndices choose
  let ho := calcDetermineHomochoricValues random init step phi
  ro2eu (getODFFZRod (ho2ro ho))

/-- Method `generateRodriguesColor(r1, r2, r3)` up to the call of the packer: the three
channel values `red * 255`, `green * 255`, `blue * 255` handed to `RgbColor::dRgb`. -/
def generateRodriguesColor_channels (r1 r2 r3 : ℚ) : ℚ × ℚ × ℚ :=
  let range1 := 2 * CubicLow.OdfDimInitValue.getD 0 0
  let range2 := 2 * CubicLow.OdfDimInitValue.getD 1 0
  let range3 := 2 * CubicLow.OdfDimInitValue.getD 2 0
  let max1 := range1 / 2
  let max2 := range2 / 2
  let max3 := range3 / 2
  let red := (r1 + max1) / range1
  let green := (r2 + max2) / range2
  let blue := (r3 + max3) / range3
  -- Scale values from 0 to 1.0
  let red := red / max1
  let green := green / max1
  let blue := blue / max2
  (red * 255, green * 255, blue * 255)

/-- Method `generateRodriguesColor(r1, r2, r3)`; the packer `RgbColor::dRgb` is not among
the sources and is a parameter. -/
def generateRodriguesColor {Rgb : Type} (dRgb : ℚ → ℚ → ℚ → ℚ → Rgb) (r1 r2 r3 : ℚ) : Rgb :=
  let c := generateRodriguesColor_channels r1 r2 r3
  dRgb c.1 c.2.1 c.2.2 255

/-- Outputs of the two `getSchmidFactorAndSS` overloads: `schmidfactor`, `angleComps[0]`,
`angleComps[1]` and `slipsys`. -/
structure SchmidResult where
  /-- Output `schmidfactor`. -/
  schmidfactor : ℚ
  /-- Output `angleComps[0]`. -/
  angleComps0 : ℚ
  /-- Output `angleComps[1]`. -/
  angleComps1 : ℚ
  /-- Output `slipsys`. -/
  slipsys : Int
deriving DecidableEq

/-- Method `getSchmidFactorAndSS(load, schmidfactor, angleComps, slipsys)`: the outcome is a
normal return with the four outputs set. -/
def getSchmidFactorAndSS_load (_load : List ℚ) : Except String SchmidResult :=
  Except.ok ⟨0, 0, 0, 0⟩

/-- Method `getmPrime(q1, q2, LD)`. -/
def getmPrime (_q1 _q2 : QuatType) (_LD : List ℚ) : Except String ℚ := Except.ok 0

/-- Method `getF1(q1, q2, LD, maxSF)`. -/
def getF1 (_q1 _q2 : QuatType) (_LD : List ℚ) (_maxSF : Bool) : Except String ℚ := Except.ok 0

/-- Method `getF1spt(q1, q2, LD, maxSF)`. -/
def getF1spt (_q1 _q2 : QuatType) (_LD : List ℚ) (_maxSF : Bool) : Except String ℚ :=
  Except.ok 0

/-- Method `getF7(q1, q2, LD, maxSF)`. -/
def getF7 (_q1 _q2 : QuatType) (_LD : List ℚ) (_maxSF : Bool) : Except String ℚ := Except.ok 0

/-- Method `generateMisorientationColor(q, refFrame)`: its first statement throws
`std::out_of_range`, so nothing after it runs. -/
def generateMisorientationColor {Rgb : Type} (_q _refFrame : QuatType) : Except String Rgb :=
  Except.error "generateMisorientationColor::generateMisorientationColor NOT Implemented"

/-- Component `r` of the product `CubicLowMatSym[i] * v` as `getSchmidFactorAndSS` writes it
out. -/
def symRotate (i : Nat) (v : List ℚ) (r : Nat) : ℚ :=
  entry (CubicLow.CubicLowMatSym.getD i []) r 0 * v.getD 0 0
    + entry (CubicLow.CubicLowMatSym.getD i []) r 1 * v.getD 1 0
    + entry (CubicLow.CubicLowMatSym.getD i []) r 2 * v.getD 2 0

/-- Value `cosPhi` of `getSchmidFactorAndSS` for the operator `i`. -/
def cosPhi (load plane : List ℚ) (planeMag : ℚ) (i : Nat) : ℚ :=
  |load.getD 0 0 * symRotate i plane 0 + load.getD 1 0 * symRotate i plane 1
    + load.getD 2 0 * symRotate i plane 2| / planeMag

/-- Value `cosLambda` of `getSchmidFactorAndSS` for the operator `i`. -/
def cosLambda (load direction : List ℚ) (directionMag : ℚ) (i : Nat) : ℚ :=
  |load.getD 0 0 * symRotate i direction 0 + load.getD 1 0 * symRotate i direction 1
    + load.getD 2 0 * symRotate i direction 2| / directionMag

/-- Body of the loop `for(int i = 0; i < k_NumSymQuats; i++)` of
`getSchmidFactorAndSS(load, plane, direction, ...)`. -/
def schmidStep (acos : ℚ → ℚ) (load plane direction : List ℚ) (planeMag directionMag : ℚ)
    (st : SchmidResult) (i : Nat) : SchmidResult :=
  -- dont consider negative z planes (to avoid duplicates)
  if symRotate i plane 2 ≥ 0 then
    let schmid := cosPhi load plane planeMag i * cosLambda load direction directionMag i
    if schmid > st.schmidfactor then
      ⟨schmid, acos (cosPhi load plane planeMag i),
        acos (cosLambda load direction directionMag i), (i : Int)⟩
    else st
  else st

/-- Sum of squares `v[0] * v[0] + v[1] * v[1] + v[2] * v[2]`. -/
def sumSq (v : List ℚ) : ℚ := v.getD 0 0 * v.getD 0 0 + v.getD 1 0 * v.getD 1 0 + v.getD 2 0 * v.getD 2 0

/-- Value `planeMag` of `getSchmidFactorAndSS` after `planeMag *= loadMag`. -/
def planeMagOf (sqrt : ℚ → ℚ) (load plane : List ℚ) : ℚ := sqrt (sumSq plane) * sqrt (sumSq load)

/-- Method `getSchmidFactorAndSS(load, plane, direction, schmidfactor, angleComps, slipsys)`
in exact arithmetic: the sums, products and quotients of `double` values are the exact ones,
so that rounding, overflow and underflow are left out. The library functions `sqrt` and
`acos` are parameters. -/
def getSchmidFactorAndSS (sqrt acos : ℚ → ℚ) (load plane direction : List ℚ) : SchmidResult :=
  let planeMag := planeMagOf sqrt load plane
  let directionMag := planeMagOf sqrt load direction
  (List.range CubicLow.k_NumSymQuats).foldl
    (schmidStep acos load plane direction planeMag directionMag) ⟨0, 0, 0, 0⟩

/-- Value `schmid` that the loop of `getSchmidFactorAndSS` computes for the operator `i`:
`|cos(phi_i)| * |cos(lambda_i)|`. -/
def schmidOf (sqrt : ℚ → ℚ) (load plane direction : List ℚ) (i : Nat) : ℚ :=
  cosPhi load plane (planeMagOf sqrt load plane) i
    * cosLambda load direction (planeMagOf sqrt load direction) i

end CubicLowOps

/-! ## Cubic-low: pole figures (CubicLowOps.cpp, `generatePoleFigure`) -/

/-- Constant `std::numeric_limits<double>::min()`: the smallest positive normal `double`,
`2 ^ (-1022)`. -/
def DBL_MIN : ℚ := 1 / 2 ^ 1022

/-- Constant `std::numeric_limits<double>::max()`: `(2 - 2 ^ (-52)) * 2 ^ 1023`. -/
def DBL_MAX : ℚ := (2 ^ 53 - 1) * 2 ^ 971

/-- The fields of `PoleFigureConfiguration_t` that `generatePoleFigure` reads or writes;
`eulers` is the element block of the Euler-angle array (three per orientation). -/
structure PoleFigureConfiguration_t where
  /-- Elements of `config.eulers`. -/
  eulers : List ℚ
  /-- Field `imageDim`. -/
  imageDim : Nat
  /-- Field `order`. -/
  order : List Nat
  /-- Field `labels`. -/
  labels : List String
  /-- Field `minScale`. -/
  minScale : ℚ
  /-- Field `maxScale`. -/
  maxScale : ℚ
  /-- Field `sphereRadius`. -/
  sphereRadius : ℚ

/-- An RGBA image array: its name and its `uint8_t` elements (four per pixel). -/
structure PoleFigureImage where
  /-- Name of the array. -/
  name : String
  /-- Elements of the array. -/
  data : List Nat
deriving DecidableEq

namespace CubicLowOps

/-- One of the three loops of `generatePoleFigure` under "Find the Max and Min values": the
pair `(max, min)` after the elements of one intensity array have been looked at. -/
def scanMaxMin (dPtr : List ℚ) (maxMin : ℚ × ℚ) : ℚ × ℚ :=
  dPtr.foldl
    (fun (mm : ℚ × ℚ) v => ((if v > mm.1 then v else mm.1), (if v < mm.2 then v else mm.2)))
    maxMin

/-- The values `(max, min)` that `generatePoleFigure` stores in `config.maxScale` and
`config.minScale` for the three intensity arrays. -/
def intensityScale (intensity001 intensity011 intensity111 : List ℚ) : ℚ × ℚ :=
  let max := DBL_MIN
  let min := DBL_MAX
  scanMaxMin intensity111 (scanMaxMin intensity011 (scanMaxMin intensity001 (max, min)))

/-- The block of `generatePoleFigure` that fills `std::vector<...> poleFigures(3)`: three
null pointers, then the three image pointers (`none` is the null pointer) are stored at
`config.order[0..2]` when `config.order` has three entries and at `0, 1, 2` otherwise. A store
outside the vector has no result. -/
def placePoleFigures {Image : Type} (order : List Nat)
    (image001 image011 image111 : Option Image) : Option (List (Option Image)) :=
  let poleFigures : List (Option Image) := List.replicate 3 none
  if order.length = 3 then
    match store poleFigures (order.getD 0 0) image001 with
    | none => none
    | some p1 =>
      match store p1 (order.getD 1 0) image011 with
      | none => none
      | some p2 => store p2 (order.getD 2 0) image111
  else
    match store poleFigures 0 image001 with
    | none => none
    | some p1 =>
      match store p1 1 image011 with
      | none => none
      | some p2 => store p2 2 image111

/-- Call `UInt8ArrayType::CreateArray(numTuples, dims, label, true)` of `generatePoleFigure`,
with `dims = {4}`: the null pointer (`none`) for an empty label, by the test
`if(name.isEmpty()) return NullPointer();` of `CreateArray`, and otherwise an image named
`label` with `numTuples * 4` zeroed elements. -/
def CreateArray_image (numTuples : Nat) (label : String) : Option PoleFigureImage :=
  if label = "" then none else some ⟨label, List.replicate (numTuples * 4) 0⟩

/-- The part of `generatePoleFigure(config)` before the vector `poleFigures` is filled: the
image pointers `image001`, `image011`, `image111` (the images as they are at the return,
coloured) and the configuration afterwards. The conversion `eu2om`, the projection
`ComputeStereographicProjection` (from sphere points, configuration and zeroed intensity
array to the intensity array) and the colouring `GeneratePoleFigureRgbaImageImpl` (from
intensity array, configuration and zeroed image to the elements of the image) are not among
the sources and are parameters; they are taken to leave the configuration as it is. The
sphere-coordinate and intensity arrays are their element blocks (their names are never
empty). An image pointer is null when its label is empty; what the colouring does with a
null image is not in the sources, and the pointer stays null whatever it does. -/
def poleFigureImages (eu2om : List ℚ → List (List ℚ))
    (project : List ℚ → PoleFigureConfiguration_t → List ℚ → List ℚ)
    (colorize : List ℚ → PoleFigureConfiguration_t → List Nat → List Nat)
    (config : PoleFigureConfiguration_t) :
    Option (Option PoleFigureImage × Option PoleFigureImage × Option PoleFigureImage
      × PoleFigureConfiguration_t) :=
  let label0 := if config.labels.length > 0 then config.labels.getD 0 "" else "<001>"
  let label1 := if config.labels.length > 1 then config.labels.getD 1 "" else "<011>"
  let label2 := if config.labels.length > 2 then config.labels.getD 2 "" else "<111>"
  let numOrientations := config.eulers.length / 3
  let xyz : CubicLow.SphereCoords :=
    ⟨List.replicate (numOrientations * CubicLow.symSize0 * 3) 0,
     List.replicate (numOrientations * CubicLow.symSize1 * 3) 0,
     List.replicate (numOrientations * CubicLow.symSize2 * 3) 0⟩
  let config1 := { config with sphereRadius := 1 }
  match CubicLow.generate eu2om config1.eulers xyz 0 numOrientations with
  | none => none
  | some coords =>
    let blank := List.replicate (config1.imageDim * config1.imageDim) (0 : ℚ)
    let intensity001 := project coords.xyz001 config1 blank
    let intensity011 := project coords.xyz011 config1 blank
    let intensity111 := project coords.xyz111 config1 blank
    let scale := intensityScale intensity001 intensity011 intensity111
    let config2 := { config1 with minScale := scale.2, maxScale := scale.1 }
    let image001 := (CreateArray_image (config2.imageDim * config2.imageDim) label0).map
      (fun image => { image with data := colorize intensity001 config2 image.data })
    let image011 := (CreateArray_image (config2.imageDim * config2.imageDim) label1).map
      (fun image => { image with data := colorize intensity011 config2 image.data })
    let image111 := (CreateArray_image (config2.imageDim * config2.imageDim) label2).map
      (fun image => { image with data := colorize intensity111 config2 image.data })
    some (image001, image011, image111, config2)

/-- Method `generatePoleFigure(config)`: the returned vector and the configuration
afterwards. -/
def generatePoleFigure (eu2om : List ℚ → List (List ℚ))
    (project : List ℚ → PoleFigureConfiguration_t → List ℚ → List ℚ)
    (colorize : List ℚ → PoleFigureConfiguration_t → List Nat → List Nat)
    (config : PoleFigureConfiguration_t) :
    Option (List (Option PoleFigureImage) × PoleFigureConfiguration_t) :=
  match poleFigureImages eu2om project colorize config with
  | none => none
  | some (image001, image011, image111, config2) =>
    match placePoleFigures config2.order image001 image011 image111 with
    | none => none
    | some poleFigures => some (poleFigures, config2)

end CubicLowOps

/-! ## Misorientation (CubicLowOps.cpp, `calculateMisorientation`) -/

namespace QuatType

/-- Modelled from the spec: the quaternion product (`Quaternion::operator*`) is not among
the sources; the Hamilton product of `(x, y, z, w)` quaternions, the composition of the two
rotations. -/
def mul (a b : QuatType) : QuatType :=
  ⟨a.w * b.x + a.x * b.w + a.y * b.z - a.z * b.y,
   a.w * b.y - a.x * b.z + a.y * b.w + a.z * b.x,
   a.w * b.z + a.x * b.y - a.y * b.x + a.z * b.w,
   a.w * b.w - a.x * b.x - a.y * b.y - a.z * b.z⟩

/-- Modelled from the spec: the inverse `q⁻¹` of a unit quaternion (`Quaternion::conjugate`)
is not among the sources; the vector part is negated. -/
def conjugate (a : QuatType) : QuatType := ⟨-a.x, -a.y, -a.z, a.w⟩

end QuatType

/-- Modelled from the spec: the candidate relative rotations `Si·q2·q1⁻¹·Sj⁻¹` of
`calculateMisorientationInternal` (not among the sources) over all pairs `(i, j)` of
symmetry operators, in table order. -/
def misorientationCandidates (quatsym : List QuatType) (q1 q2 : QuatType) : List QuatType :=
  quatsym.flatMap (fun si => quatsym.map (fun sj =>
    QuatType.mul (QuatType.mul (QuatType.mul si q2) q1.conjugate) sj.conjugate))

/-- Modelled from the spec: `LaueOps::calculateMisorientationInternal(quatsym, numsym, q1,
q2)` is not among the sources; each candidate is converted to its rotation angle and the
first candidate with the globally minimal angle is returned together with that angle. The
conversion of a quaternion to its angle (`qu2ax`, not among the sources) is the parameter
`angle`. -/
def calculateMisorientationInternal (angle : QuatType → ℚ) (quatsym : List QuatType)
    (numsym : Nat) (q1 q2 : QuatType) : Option (QuatType × ℚ) :=
  (misorientationCandidates (quatsym.take numsym) q1 q2).foldl
    (fun best c =>
      match best with
      | none => some (c, angle c)
      | some b => if angle c < b.2 then some (c, angle c) else some b)
    none

namespace CubicLowOps

/-- Method `calculateMisorientation(q1, q2)`:
`calculateMisorientationInternal(CubicLow::QuatSym, CubicLow::k_NumSymQuats, q1, q2)`. -/
def calculateMisorientation (angle : QuatType → ℚ) (q1 q2 : QuatType) :
    Option (QuatType × ℚ) :=
  calculateMisorientationInternal angle CubicLow.QuatSym CubicLow.k_NumSymQuats q1 q2

end CubicLowOps

/-! ## Cubic-low: inverse pole figure colours (CubicLowOps.cpp, `generateIPFColor`) -/

/-- Constant `EbsdLib::Constants::k_Pi = M_PI` as the exact value of that `double`. -/
def k_Pi : ℚ := 884279719003555 / 281474976710656

/-- Constant `EbsdLib::Constants::k_180OverPi`: the `double` that `180.0 / M_PI` yields. -/
def k_180OverPi : ℚ := 1007958012753983 / 17592186044416

/-- Constant `EbsdLib::Constants::k_PiOver180`: the `double` that `M_PI / 180.0` yields. -/
def k_PiOver180 : ℚ := 5030569068109113 / 288230376151711744

/-- The constant expression `90.0 * EbsdLib::Constants::k_PiOver180` of `inUnitTriangle`:
the `double` that this product yields (`0x1.921fb54442d18p+0`, the same `double` as
`M_PI / 2`). -/
def ninetyDegrees : ℚ := 884279719003555 / 562949953421312

namespace EbsdLibMath

/-- Template `EbsdLibMath::bound(val, min, max)`: the value of `val` afterwards. -/
def bound (val min max : ℚ) : ℚ :=
  if val < min then min else if val > max then max else val

end EbsdLibMath

namespace CubicLowOps

/-- Method `inUnitTriangle(eta, chi)`. The library functions `tanf`, `sqrt` and `acos` are
parameters; rounding is not modelled. -/
def inUnitTriangle (tanf sqrt acos : ℚ → ℚ) (eta chi : ℚ) : Bool :=
  let etaDeg := eta * k_180OverPi
  let chiMax :=
    if etaDeg > 45 then
      sqrt (1 / (2 + tanf (1 / 2 * k_Pi - eta) * tanf (1 / 2 * k_Pi - eta)))
    else sqrt (1 / (2 + tanf eta * tanf eta))
  let chiMax := EbsdLibMath.bound chiMax (-1) 1
  let chiMax := acos chiMax
  !(decide (eta < 0) || decide (eta > ninetyDegrees) || decide (chi < 0)
    || decide (chi > chiMax))

/-- The statements of `generateIPFColor` after its loop over the symmetry operators, up to
the square roots: the values of `_rgb[0]`, `_rgb[1]`, `_rgb[2]` for the values `eta` and
`chi` the loop has left. -/
def generateIPFColor_channels (tanf sqrt acos : ℚ → ℚ) (eta chi : ℚ) : ℚ × ℚ × ℚ :=
  let etaMin : ℚ := 0
  let etaMax : ℚ := 90
  let etaDeg := eta * k_180OverPi
  let chiMax :=
    if etaDeg > 45 then
      sqrt (1 / (2 + tanf (1 / 2 * k_Pi - eta) * tanf (1 / 2 * k_Pi - eta)))
    else sqrt (1 / (2 + tanf eta * tanf eta))
  let chiMax := EbsdLibMath.bound chiMax (-1) 1
  let chiMax := acos chiMax
  let rgb0 := 1 - chi / chiMax
  let rgb2 := |etaDeg - etaMin| / (etaMax - etaMin)
  let rgb1 := 1 - rgb2
  let rgb1 := rgb1 * (chi / chiMax)
  let rgb2 := rgb2 * (chi / chiMax)
  (rgb0, rgb1, rgb2)

/-- The three values `_rgb[k] * 255` that `generateIPFColor` hands to `RgbColor::dRgb`,
after `_rgb[k] = sqrt(_rgb[k])`. -/
def generateIPFColor_scaled (tanf sqrt acos : ℚ → ℚ) (eta chi : ℚ) : ℚ × ℚ × ℚ :=
  let rgb := generateIPFColor_channels tanf sqrt acos eta chi
  (sqrt rgb.1 * 255, sqrt rgb.2.1 * 255, sqrt rgb.2.2 * 255)

end CubicLowOps

/-! ## Python binding of `Quaternion` (py_ebsdlib.cpp) -/

/-- Enumeration `QuatOrder`. -/
inductive QuatOrder where
  /-- Scalar part first: `(w, x, y, z)`. -/
  | ScalarVector
  /-- Vector part first: `(x, y, z, w)`. -/
  | VectorScalar
deriving DecidableEq

/-- The exceptions the list constructor of the binding can end with. -/
inductive PyError where
  /-- Exception `std::runtime_error(msg)`. -/
  | runtime_error (msg : String)
  /-- Exception `pybind11::cast_error`, thrown by `py::cast<T>`. -/
  | cast_error
  /-- Exception `pybind11::index_error`, thrown by `list[k]` outside the list. -/
  | index_error
deriving DecidableEq

/-- Expression `py::cast<T>(list[k])`; the conversion of one Python object is the parameter
`cast`. -/
def pyCastItem {Obj : Type} (cast : Obj → Option ℚ) (list : List Obj) (k : Nat) :
    Except PyError ℚ :=
  match list[k]? with
  | none => Except.error PyError.index_error
  | some o =>
    match cast o with
    | some v => Except.ok v
    | none => Except.error PyError.cast_error

/-- The factory `py::init([](py::list list, QuatOrder order) ...)` of `bindQuaternion`: the
constructor `Quaternion(list, order)` seen from Python. -/
def bindQuaternion_init {Obj : Type} (cast : Obj → Option ℚ) (list : List Obj)
    (order : QuatOrder) : Except PyError QuatType :=
  if list.length ≠ 4 then Except.error (PyError.runtime_error "Size must be 4")
  else
    match order with
    | QuatOrder.ScalarVector =>
      match pyCastItem cast list 1 with
      | Except.error e => Except.error e
      | Except.ok x =>
        match pyCastItem cast list 2 with
        | Except.error e => Except.error e
        | Except.ok y =>
          match pyCastItem cast list 3 with
          | Except.error e => Except.error e
          | Except.ok z =>
            match pyCastItem cast list 0 with
            | Except.error e => Except.error e
            | Except.ok w => Except.ok ⟨x, y, z, w⟩
    | QuatOrder.VectorScalar =>
      match pyCastItem cast list 0 with
      | Except.error e => Except.error e
      | Except.ok x =>
        match pyCastItem cast list 1 with
        | Except.error e => Except.error e
        | Except.ok y =>
          match pyCastItem cast list 2 with
          | Except.error e => Except.error e
          | Except.ok z =>
            match pyCastItem cast list 3 with
            | Except.error e => Except.error e
            | Except.ok w => Except.ok ⟨x, y, z, w⟩

/-! ## `copyFromArray` in `size_t` arithmetic (EbsdDataArray.cpp) -/

namespace EbsdDataArray

variable {T : Type}

/-- Method `copyFromArray(destTupleOffset, sourceArray, srcTupleOffset, totalSrcTuples)` with
the `size_t` sums and products of its tests and offsets carried out modulo `2 ^ 64`, and
with the conversions of `getNumberOfComponents()` (to `int32_t`, then
`static_cast<size_t>`); the definition `copyFromArray` takes these sums and products as
exact. The element type has `sizeofT` bytes (a power of two for every instantiation), and
`sourceArray` is an object other than `this`. -/
def copyFromArray_sizet (sizeofT : Nat) (s : EbsdDataArray T) (destTupleOffset : Nat)
    (sourceArray : EbsdDataArray T) (srcTupleOffset totalSrcTuples : Nat) :
    Option (Bool × EbsdDataArray T) :=
  if !s.m_IsAllocated then some (false, s)
  else
    match s.m_Array with
    | none => some (false, s)
    | some block =>
      if destTupleOffset > s.m_MaxId then some (false, s)
      else if !sourceArray.isAllocated then some (false, s)
      else
        match sourceArray.m_Array with
        | none => some (false, s)
        | some srcBlock =>
          if toInt32 sourceArray.m_NumComponents ≠ toInt32 s.m_NumComponents then
            some (false, s)
          else if (srcTupleOffset + totalSrcTuples) % 2 ^ 64 > sourceArray.getNumberOfTuples then
            some (false, s)
          else if (totalSrcTuples * toSizeT (toInt32 sourceArray.m_NumComponents) % 2 ^ 64
              + destTupleOffset * toSizeT (toInt32 s.m_NumComponents) % 2 ^ 64) % 2 ^ 64
              > s.m_Size then some (false, s)
          else
            let elementStart := destTupleOffset * toSizeT (toInt32 s.m_NumComponents) % 2 ^ 64
            let totalBytes :=
              (totalSrcTuples * toSizeT (toInt32 sourceArray.m_NumComponents) % 2 ^ 64)
                * sizeofT % 2 ^ 64
            match memcpy block elementStart srcBlock
                (srcTupleOffset * toSizeT (toInt32 sourceArray.m_NumComponents) % 2 ^ 64)
                (totalBytes / sizeofT) with
            | some block1 => some (true, { s with m_Array := some block1 })
            | none => none

end EbsdDataArray

/-! ## `resizeTuples`, `eraseTuples` and the constructor in `size_t` arithmetic
(EbsdDataArray.cpp) -/

namespace EbsdDataArray

variable {T : Type}

/-- Method `getNumberOfComponents()` with its cast:
`return static_cast<int32_t>(m_NumComponents);`. -/
def getNumberOfComponents_int32 (s : EbsdDataArray T) : Int := toInt32 s.m_NumComponents

/-- Method `resizeTuples(numTuples)` with the `size_t` product `numTuples * m_NumComponents`
carried out modulo `2 ^ 64`; the definition `resizeTuples` takes the product as exact. -/
def resizeTuples_sizet [ElementType T] (s : EbsdDataArray T) (numTuples : Nat) :
    Option (EbsdDataArray T) :=
  match s.resizeAndExtend (numTuples * s.m_NumComponents % 2 ^ 64) with
  | none => none
  | some s1 => if s1.m_Array.isSome then some { s1 with m_NumTuples := numTuples } else some s1

/-- Body of the loop `for(size_t i = 1; i < srcIdx.size(); ++i)` of `eraseTuples`, on the
vectors `(srcIdx, destIdx, copyElements)`, with the `size_t` sums and products carried out
modulo `2 ^ 64` (the differences already wrap in `szSub`). -/
def eraseTablesStep_sizet (idxs : List Nat) (numTuples numComponents : Nat)
    (t : List Nat × List Nat × List Nat) (i : Nat) : List Nat × List Nat × List Nat :=
  let size := idxs.length + 1
  let srcIdx1 := t.1.set i ((idxs.getD (i - 1) 0 + 1) % 2 ^ 64 * numComponents % 2 ^ 64)
  let copyElements1 :=
    if i < size - 1 then
      t.2.2.set i
        (szSub (szSub (idxs.getD i 0) (idxs.getD (i - 1) 0)) 1 * numComponents % 2 ^ 64)
    else
      t.2.2.set i
        (szSub (szSub numTuples (idxs.getD (i - 1) 0)) 1 * numComponents % 2 ^ 64)
  let destIdx1 :=
    t.2.1.set i ((copyElements1.getD (i - 1) 0 + t.2.1.getD (i - 1) 0) % 2 ^ 64)
  (srcIdx1, destIdx1, copyElements1)

/-- Vectors `srcIdx`, `destIdx`, `copyElements` of `eraseTuples` before its copy loop, in
`size_t` arithmetic: each is created with `idxs.size() + 1` zeros, entry `0` is assigned, and
the loop `for(size_t i = 1; i < srcIdx.size(); ++i)` fills the rest. -/
def eraseTables_sizet (idxs : List Nat) (numTuples numComponents : Nat) :
    List Nat × List Nat × List Nat :=
  let size := idxs.length + 1
  let srcIdx := (List.replicate size 0).set 0 0
  let destIdx := (List.replicate size 0).set 0 0
  let copyElements :=
    (List.replicate size 0).set 0 (szSub (idxs.getD 0 0) 0 * numComponents % 2 ^ 64)
  (List.range' 1 (size - 1)).foldl (eraseTablesStep_sizet idxs numTuples numComponents)
    (srcIdx, destIdx, copyElements)

/-- Loop `for(size_t i = 0; i < srcIdx.size(); ++i)` of `eraseTuples` that copies chunk `i`
of the old block `old` into the new block: `bytes = copyElements[i] * sizeof(T)` is a
`size_t` product, and `memcpy` moves `bytes / sizeof(T)` elements. -/
def eraseCopy_sizet (sizeofT : Nat) (old : List T) (srcIdx destIdx copyElements : List Nat)
    (fresh : List T) : Option (List T) :=
  (List.range srcIdx.length).foldlM
    (fun acc i =>
      let bytes := copyElements.getD i 0 * sizeofT % 2 ^ 64
      memcpy acc (destIdx.getD i 0) old (srcIdx.getD i 0) (bytes / sizeofT))
    fresh

/-- Method `eraseTuples(idxs)` with the `size_t` sums and products of its index test, of
`newSize` and of its tables carried out modulo `2 ^ 64`: the returned code and the array
afterwards; the definition `eraseTuples` takes them as exact. The element type has `sizeofT`
bytes (a power of two for every instantiation). The byte counts `newSize * sizeof(T)` of the
`memset` and of the first `memcpy` are those of the block of `newSize` elements that `new`
has just returned, so they are its whole size. -/
def eraseTuples_sizet [ElementType T] (sizeofT : Nat) (s : EbsdDataArray T) (idxs : List Nat) :
    Option (Int × EbsdDataArray T) :=
  if idxs.isEmpty then some (0, s)
  else if idxs.length ≥ s.getNumberOfTuples then
    match s.resizeTuples_sizet 0 with
    | some s1 => some (0, s1)
    | none => none
  else if idxs.any (fun idx => decide (idx * s.m_NumComponents % 2 ^ 64 > s.m_MaxId)) then
    some (-100, s)
  else
    let newSize := szSub s.getNumberOfTuples idxs.length * s.m_NumComponents % 2 ^ 64
    match newArray T newSize with
    | none => none
    | some zeroed =>
      let fresh : List T := zeroed.map (fun _ => ElementType.splatAB)
      let jk := leadingRun idxs 0 0
      match s.m_Array with
      | none => none
      | some old =>
        let copied : Option (List T) :=
          if jk.2 = idxs.length then
            memcpy fresh 0 old (jk.1 * s.m_NumComponents % 2 ^ 64) newSize
          else
            let t := eraseTables_sizet idxs s.getNumberOfTuples s.m_NumComponents
            eraseCopy_sizet sizeofT old t.1 t.2.1 t.2.2 fresh
        match copied with
        | none => none
        | some block =>
          some (0, { s.deallocate with m_Size := newSize, m_Array := some block,
                                       m_OwnsData := true, m_MaxId := szSub newSize 1,
                                       m_IsAllocated := true })

/-- Expression `std::accumulate(dims.begin(), dims.end(), static_cast<size_t>(1),
std::multiplies<>())` with each `size_t` product carried out modulo `2 ^ 64`. -/
def accumulate_sizet (dims : List Nat) : Nat := dims.foldl (fun a b => a * b % 2 ^ 64) 1

/-- Constructor `EbsdDataArray(numTuples, name, compDims, initValue)` with the `size_t`
products of `std::accumulate` and of `m_NumTuples * m_NumComponents` carried out modulo
`2 ^ 64`; the definition `construct` takes them as exact. The pointer that `resizeAndExtend`
returns is the `m_Array` it has set, so the assignment `m_Array = ...` changes nothing. -/
def construct_sizet [ElementType T] (numTuples : Nat) (name : String) (compDims : List Nat)
    (initValue : T) : Option (EbsdDataArray T) :=
  let s0 : EbsdDataArray T :=
    { constructDefault with m_Name := name, m_NumTuples := numTuples, m_CompDims := compDims }
  let s1 := { s0 with m_NumComponents := accumulate_sizet s0.m_CompDims }
  let s2 := { s1 with m_InitValue := initValue }
  s2.resizeAndExtend (s2.m_NumTuples * s2.m_NumComponents % 2 ^ 64)

end EbsdDataArray

/-! ## Reading `.ctf` data from HDF5 (H5CtfReader.cpp) -/

/-- The functions of the HDF5 library and of `QH5Utilities` that `H5CtfReader::readFile` and
`readData` call, each standing for the result of the call, and the group name
`EbsdLib::H5Aztec::Data`, a constant that is not among the sources. -/
structure H5Library where
  /-- Constant `EbsdLib::H5Aztec::Data`. -/
  dataGroupName : String
  /-- Call `QH5Utilities::openFile(fileName, true)`. -/
  openFile : String → Int
  /-- Call `QH5Utilities::closeFile(fileId)`. -/
  closeFile : Int → Int
  /-- Call `H5Gopen(locId, name, H5P_DEFAULT)`. -/
  H5Gopen : Int → String → Int
  /-- Call `H5Gclose(gid)`. -/
  H5Gclose : Int → Int

/-- The members of `H5CtfReader` (and of its base classes) that `readFile` and `readData`
read or write. -/
structure H5CtfReader where
  /-- Member `m_HDF5Path`. -/
  m_HDF5Path : String
  /-- Value of `getFileName()`. -/
  fileName : String
  /-- Value of `getXCells()`. -/
  xCells : Int
  /-- Value of `getYCells()`. -/
  yCells : Int
  /-- Member `m_ArrayNames`. -/
  m_ArrayNames : List String
  /-- Member `m_ReadAllArrays`. -/
  m_ReadAllArrays : Bool
  /-- Value of `getErrorCode()`. -/
  errorCode : Int
  /-- Value of `getNumberOfElements()`. -/
  numberOfElements : Nat
deriving DecidableEq

namespace H5CtfReader

/-- Method `readData(parId)`: the returned code and the reader afterwards. The statements
from the first `ANG_READER_ALLOCATE_AND_READ` to the end (its definition is not among the
sources) are the parameter `readArrays`, from the reader and the group id to the returned
code and the reader. -/
def readData (lib : H5Library) (readArrays : H5CtfReader → Int → Int × H5CtfReader)
    (r : H5CtfReader) (parId : Int) : Int × H5CtfReader :=
  let yCells := toSizeT r.yCells
  let xCells := toSizeT r.xCells
  let totalDataRows := yCells * xCells % 2 ^ 64
  if totalDataRows = 0 then (-1, { r with errorCode := -1 })
  else
    let gid := lib.H5Gopen parId lib.dataGroupName
    if gid < 0 then (-90012, { r with errorCode := -90012 })
    else
      let r1 := { r with numberOfElements := totalDataRows }
      if r1.m_ArrayNames.isEmpty && !r1.m_ReadAllArrays then
        (-90013, { r1 with errorCode := -90013 })
      else readArrays r1 gid

/-- Method `readFile()`: the returned code and the reader afterwards. The result and the
effect of `readHeader(gid)` (it reads the header entries through preprocessor definitions
that are not among the sources) are the parameter `readHeader`. -/
def readFile (lib : H5Library) (readHeader : H5CtfReader → Int → Int × H5CtfReader)
    (readArrays : H5CtfReader → Int → Int × H5CtfReader) (r : H5CtfReader) :
    Int × H5CtfReader :=
  if r.m_HDF5Path = "" then (-1, r)
  else
    let fileId := lib.openFile r.fileName
    if fileId < 0 then (-1, r)
    else
      let gid := lib.H5Gopen fileId r.m_HDF5Path
      if gid < 0 then (-1, r)
      else
        -- Read all the header information
        let h := readHeader r gid
        -- Read and transform data
        let d := readData lib readArrays h.2 gid
        let _err := lib.H5Gclose gid
        let err := lib.closeFile fileId
        (err, d.2)

/-- Method `readHeaderOnly()`: the returned code and the reader afterwards. -/
def readHeaderOnly (lib : H5Library) (readHeader : H5CtfReader → Int → Int × H5CtfReader)
    (r : H5CtfReader) : Int × H5CtfReader :=
  if r.m_HDF5Path = "" then (-1, r)
  else
    let fileId := lib.openFile r.fileName
    if fileId < 0 then (-1, r)
    else
      let gid := lib.H5Gopen fileId r.m_HDF5Path
      if gid < 0 then (-1, r)
      else readHeader r gid

end H5CtfReader

/-! ## Vocabulary of the statements -/

namespace EbsdDataArray

variable {T : Type}

/-- An allocated array with `n` tuples of `c` components whose element block is `block`: the
state every constructor, `allocate` and `resizeTuples` leave behind. -/
def Allocated (s : EbsdDataArray T) (n c : Nat) (block : List T) : Prop :=
  s.m_IsAllocated = true ∧ s.m_Array = some block ∧ block.length = n * c ∧ s.m_Size = n * c ∧
    s.m_MaxId = n * c - 1 ∧ s.m_NumTuples = n ∧ s.m_NumComponents = c ∧
    n * c ≤ maxAllocElements

/-- Tuple number `i` of a block of `c`-component tuples. -/
def tupleAt (block : List T) (c i : Nat) : List T := (block.drop (i * c)).take c

/-- The tuples of `block` (holding `n` tuples of `c` components) whose index is not in
`idxs`, one after the other in their original order. -/
def survivingTuples (block : List T) (n c : Nat) (idxs : List Nat) : List T :=
  ((List.range n).filter (fun i => !idxs.contains i)).flatMap (tupleAt block c)

/-- Runs of tuples that `eraseTuples` keeps: `(first tuple, number of tuples)` for the run
before each erased index and the run after the last one, when the tuples from `start` on
are looked at. -/
def keptRuns (n : Nat) : Nat → List Nat → List (Nat × Nat)
  | start, [] => [(start, n - start)]
  | start, idx :: rest => (start, idx - start) :: keptRuns n (idx + 1) rest

/-- First tuple of kept run number `i` of `eraseTuples(idxs)`: the tuple after erased index
number `i - 1`, and tuple `0` for the first run. -/
def runStart (idxs : List Nat) (i : Nat) : Nat :=
  if i = 0 then 0 else idxs.getD (i - 1) 0 + 1

/-- Tuple at which kept run number `i` stops: erased index number `i`, and `n` for the run
after the last erased index. -/
def runEnd (n : Nat) (idxs : List Nat) (i : Nat) : Nat :=
  if i < idxs.length then idxs.getD i 0 else n

/-- Number of tuples of kept run number `i`. -/
def runLen (n : Nat) (idxs : List Nat) (i : Nat) : Nat := runEnd n idxs i - runStart idxs i

/-- Number of tuples kept before run number `i`. -/
def runDest (n : Nat) (idxs : List Nat) : Nat → Nat
  | 0 => 0
  | i + 1 => runDest n idxs i + runLen n idxs i

/-- Elements of kept run number `i`: they start at element `runStart * c` of the old
block. -/
def runBlock (old : List T) (c n : Nat) (idxs : List Nat) (i : Nat) : List T :=
  (old.drop (runStart idxs i * c)).take (runLen n idxs i * c)

/-- An `int32_t` array of three two-component tuples, initial value `7`. -/
def sampleArray : EbsdDataArray Int :=
  { m_Name := "sample", m_Array := some [10, 11, 20, 21, 30, 31], m_Size := 6, m_MaxId := 5,
    m_NumTuples := 3, m_NumComponents := 2, m_InitValue := 7, m_CompDims := [2],
    m_IsAllocated := true, m_OwnsData := true }

/-- An `int32_t` array of five one-component tuples, initial value `0`. -/
def sampleScalars : EbsdDataArray Int :=
  { m_Name := "scalars", m_Array := some [100, 101, 102, 103, 104], m_Size := 5, m_MaxId := 4,
    m_NumTuples := 5, m_NumComponents := 1, m_InitValue := 0, m_CompDims := [1],
    m_IsAllocated := true, m_OwnsData := true }

/-- An `int32_t` array of ten one-component tuples `0, 1, ..., 9`. -/
def tenTuples : EbsdDataArray Int :=
  { m_Name := "dest", m_Array := some [0, 1, 2, 3, 4, 5, 6, 7, 8, 9], m_Size := 10, m_MaxId := 9,
    m_NumTuples := 10, m_NumComponents := 1, m_InitValue := 0, m_CompDims := [1],
    m_IsAllocated := true, m_OwnsData := true }

/-- An `int32_t` array of ten one-component tuples `100, 101, ..., 109`. -/
def tenSource : EbsdDataArray Int :=
  { m_Name := "source", m_Array := some [100, 101, 102, 103, 104, 105, 106, 107, 108, 109],
    m_Size := 10, m_MaxId := 9, m_NumTuples := 10, m_NumComponents := 1, m_InitValue := 0,
    m_CompDims := [1], m_IsAllocated := true, m_OwnsData := true }

/-- An `int32_t` array of three two-component tuples other than those of `sampleArray`. -/
def sampleSource : EbsdDataArray Int :=
  { m_Name := "source", m_Array := some [110, 111, 120, 121, 130, 131], m_Size := 6,
    m_MaxId := 5, m_NumTuples := 3, m_NumComponents := 2, m_InitValue := 0, m_CompDims := [2],
    m_IsAllocated := true, m_OwnsData := true }

/-- The array that `CreateArray(3, {2}, "img", false)` returns: three two-component tuples
by its counts, no buffer. -/
def unallocatedImage : EbsdDataArray Int :=
  { m_Name := "img", m_Array := none, m_Size := 6, m_MaxId := 5, m_NumTuples := 3,
    m_NumComponents := 2, m_InitValue := 0, m_CompDims := [2], m_IsAllocated := false,
    m_OwnsData := true }

/-- A default-constructed `EbsdDataArray<int32_t>` (the member initialisers of the class). -/
def emptyArray : EbsdDataArray Int :=
  { m_Name := "", m_Array := none, m_Size := 0, m_MaxId := 0, m_NumTuples := 0,
    m_NumComponents := 1, m_InitValue := 0, m_CompDims := [1], m_IsAllocated := false,
    m_OwnsData := true }

end EbsdDataArray

namespace CubicLow

/-- The arrays `b` have the lengths of `a` and differ from `a` at most in the elements of
the orientations `start ≤ i < stop`: `[18 i, 18 i + 18)` of `xyz001`, `[36 i, 36 i + 36)` of
`xyz011` and `[24 i, 24 i + 24)` of `xyz111`. -/
def SameOutside (a b : SphereCoords) (start stop : Nat) : Prop :=
  (b.xyz001.length = a.xyz001.length ∧ b.xyz011.length = a.xyz011.length
    ∧ b.xyz111.length = a.xyz111.length) ∧
  (∀ j, (j < 18 * start ∨ 18 * stop ≤ j) → b.xyz001[j]? = a.xyz001[j]?) ∧
  (∀ j, (j < 36 * start ∨ 36 * stop ≤ j) → b.xyz011[j]? = a.xyz011[j]?) ∧
  (∀ j, (j < 24 * start ∨ 24 * stop ≤ j) → b.xyz111[j]? = a.xyz111[j]?)

/-- Zero-filled output arrays for two orientations: `2 * 6`, `2 * 12` and `2 * 8`
three-component tuples. -/
def twoOrientations : SphereCoords :=
  ⟨List.replicate 36 0, List.replicate 72 0, List.replicate 48 0⟩

/-- A stand-in for `eu2om` in examples: the identity matrix for every orientation. -/
def identityOm (_eu : List ℚ) : List (List ℚ) := [[1, 0, 0], [0, 1, 0], [0, 0, 1]]

end CubicLow

namespace CubicLowOps

/-- A load direction of length `1`. -/
def sampleLoad : List ℚ := [3 / 5, 0, 4 / 5]

/-- A slip-plane normal of length `1`. -/
def samplePlane : List ℚ := [0, 0, 1]

/-- A slip direction of length `1`. -/
def sampleDirection : List ℚ := [1, 0, 0]

/-- A stand-in for `sqrt` in examples; it agrees with `sqrt` at `0` and `1`. -/
def sampleSqrt (x : ℚ) : ℚ := x

/-- A stand-in for the angle of a rotation in examples: `0` for the two quaternions of the
identity rotation, `1` for every other quaternion. -/
def sampleAngle (q : QuatType) : ℚ := if q.x = 0 ∧ q.y = 0 ∧ q.z = 0 then 0 else 1

/-- The unit quaternion `(3/5, 0, 0, 4/5)`. -/
def sampleQuat : QuatType := ⟨3 / 5, 0, 0, 4 / 5⟩

end CubicLowOps

namespace CubicLowOps

/-- A stand-in for `tanf` in examples. -/
def sampleTanf (_x : ℚ) : ℚ := 0

/-- A stand-in for `acos` in examples: positive below `1` and `0` at `1`. -/
def sampleAcos (x : ℚ) : ℚ := 1 - x

end CubicLowOps

/-- The `w` bytes of the element pattern `x`, least significant first. -/
def bytesOf (w x : Nat) : List Nat := (List.range w).map (fun k => x / 256 ^ k % 256)

/-- What `byteSwapElements` does to one element pattern of an element type of `w` bytes. -/
def swapOf (w : Nat) (x : Nat) : Nat :=
  if w = 2 then EBSDLIB_ENDIAN_INTRINSIC_BYTE_SWAP_2 x
  else if w = 4 then EBSDLIB_ENDIAN_INTRINSIC_BYTE_SWAP_4 x
  else if w = 8 then EBSDLIB_ENDIAN_INTRINSIC_BYTE_SWAP_8 x
  else x

namespace EbsdDataArray

/-- A `uint32_t` array with the two elements `0x11223344` and `0x000000FF`. -/
def sampleWords : EbsdDataArray Nat :=
  { m_Name := "words", m_Array := some [287454020, 255], m_Size := 2, m_MaxId := 1,
    m_NumTuples := 2, m_NumComponents := 1, m_InitValue := 0, m_CompDims := [1],
    m_IsAllocated := true, m_OwnsData := true }

end EbsdDataArray

/-- The product of two `3 x 3` matrices given as lists of rows. -/
def matMul (a b : List (List ℚ)) : List (List ℚ) :=
  [[entry a 0 0 * entry b 0 0 + entry a 0 1 * entry b 1 0 + entry a 0 2 * entry b 2 0,
    entry a 0 0 * entry b 0 1 + entry a 0 1 * entry b 1 1 + entry a 0 2 * entry b 2 1,
    entry a 0 0 * entry b 0 2 + entry a 0 1 * entry b 1 2 + entry a 0 2 * entry b 2 2],
   [entry a 1 0 * entry b 0 0 + entry a 1 1 * entry b 1 0 + entry a 1 2 * entry b 2 0,
    entry a 1 0 * entry b 0 1 + entry a 1 1 * entry b 1 1 + entry a 1 2 * entry b 2 1,
    entry a 1 0 * entry b 0 2 + entry a 1 1 * entry b 1 2 + entry a 1 2 * entry b 2 2],
   [entry a 2 0 * entry b 0 0 + entry a 2 1 * entry b 1 0 + entry a 2 2 * entry b 2 0,
    entry a 2 0 * entry b 0 1 + entry a 2 1 * entry b 1 1 + entry a 2 2 * entry b 2 1,
    entry a 2 0 * entry b 0 2 + entry a 2 1 * entry b 1 2 + entry a 2 2 * entry b 2 2]]

/-- The transpose of a `3 x 3` matrix given as a list of rows. -/
def matTranspose (a : List (List ℚ)) : List (List ℚ) :=
  [[entry a 0 0, entry a 1 0, entry a 2 0], [entry a 0 1, entry a 1 1, entry a 2 1],
   [entry a 0 2, entry a 1 2, entry a 2 2]]

/-- The determinant of a `3 x 3` matrix given as a list of rows. -/
def matDet (a : List (List ℚ)) : ℚ :=
  entry a 0 0 * (entry a 1 1 * entry a 2 2 - entry a 1 2 * entry a 2 1)
    - entry a 0 1 * (entry a 1 0 * entry a 2 2 - entry a 1 2 * entry a 2 0)
    + entry a 0 2 * (entry a 1 0 * entry a 2 1 - entry a 1 1 * entry a 2 0)

/-- The `3 x 3` identity matrix. -/
def matIdentity : List (List ℚ) := [[1, 0, 0], [0, 1, 0], [0, 0, 1]]

namespace H5CtfReader

/-- An HDF5 library in which the file and every group open (ids `1` and `2`) and every
close succeeds with `0`. -/
def healthyLibrary : H5Library :=
  { dataGroupName := "Data", openFile := fun _ => 1, closeFile := fun _ => 0,
    H5Gopen := fun _ _ => 2, H5Gclose := fun _ => 0 }

/-- A reader set up for the scan `/Scan1` of `scan.h5`, all arrays requested, before
anything has been read. -/
def sampleReader : H5CtfReader :=
  { m_HDF5Path := "/Scan1", fileName := "scan.h5", xCells := 0, yCells := 0,
    m_ArrayNames := [], m_ReadAllArrays := true, errorCode := 0, numberOfElements := 0 }

end H5CtfReader

namespace CubicLow

/-- The six elements of `block` from `off` on are a sphere point followed by its antipode:
element `off + 3 + k` is the negative of element `off + k` for `k = 0, 1, 2`. -/
def PairAt (block : List ℚ) (off : Nat) : Prop :=
  ∀ k, k < 3 → ∃ v, block[off + k]? = some v ∧ block[off + 3 + k]? = some (-v)

/-- In the slice of orientation `i` of each of the three arrays, every even point is followed
by its antipode. -/
def PairsOf (out : SphereCoords) (i : Nat) : Prop :=
  (∀ j, j < 3 → PairAt out.xyz001 (i * 18 + 6 * j)) ∧
  (∀ j, j < 6 → PairAt out.xyz011 (i * 36 + 6 * j)) ∧
  (∀ j, j < 4 → PairAt out.xyz111 (i * 24 + 6 * j))

end CubicLow

end EbsdLib

/-! # Theorems -/

namespace EbsdLib

/-! ## Raw memory -/

theorem memcpy_eq_some {T : Type} (dest : List T) (dOff : Nat) (src : List T) (sOff count : Nat)
    (hd : dOff + count ≤ dest.length) (hs : sOff + count ≤ src.length) :
    memcpy dest dOff src sOff count
      = some (dest.take dOff ++ (src.drop sOff).take count ++ dest.drop (dOff + count)) := by
  simp [memcpy, hd, hs]

theorem memcpy_length {T : Type} {dest src out : List T} {dOff sOff count : Nat}
    (h : memcpy dest dOff src sOff count = some out) : out.length = dest.length := by
  unfold memcpy at h
  split at h
  · rename_i hc
    cases h
    simp only [List.length_append, List.length_take, List.length_drop]
    omega
  · cases h

theorem fillLoop_eq_some {T : Type} (v : T) (count : Nat) :
    ∀ (i : Nat) (block : List T), i + count ≤ block.length →
      fillLoop v i count block
        = some (block.take i ++ List.replicate count v ++ block.drop (i + count)) := by
  induction count with
  | zero => intro i block _; simp [fillLoop]
  | succ k ih =>
    intro i block h
    have hi : i < block.length := by omega
    have hlen : (block.set i v).length = block.length := List.length_set ..
    rw [fillLoop, store, if_pos hi]
    simp only
    rw [ih (i + 1) (block.set i v) (by omega)]
    congr 1
    rw [List.set_eq_take_append_cons_drop, if_pos hi]
    have h1 : (List.take i block ++ v :: List.drop (i + 1) block).take (i + 1)
        = List.take i block ++ [v] := by
      rw [List.take_append_eq_append_take]
      simp [List.length_take, Nat.min_eq_left (Nat.le_of_lt hi)]
    have h2 : (List.take i block ++ v :: List.drop (i + 1) block).drop (i + 1 + k)
        = List.drop (i + (k + 1)) block := by
      rw [List.drop_append_eq_append_drop]
      simp only [List.length_take, Nat.min_eq_left (Nat.le_of_lt hi)]
      have e1 : i + 1 + k - i = (k + 1) := by omega
      rw [e1, List.drop_of_length_le (by simp; omega)]
      simp only [List.nil_append, List.drop_succ_cons, List.drop_drop]
      congr 1
      omega
    rw [h1, h2, List.replicate_succ]
    simp

/-! ## `resizeAndExtend` and `resizeTuples` -/

namespace EbsdDataArray

variable {T : Type}

theorem szSub_one {a : Nat} (h : a ≠ 0) : szSub a 1 = a - 1 := by
  unfold szSub
  rw [if_pos (by omega)]

theorem szSub_of_le {a b : Nat} (h : b ≤ a) : szSub a b = a - b := by
  unfold szSub
  rw [if_pos h]

theorem resizeAndExtend_of_allocated [ElementType T] {s : EbsdDataArray T} {n c : Nat}
    {block : List T} (hs : Allocated s n c block) {size : Nat} (h1 : size ≠ n * c)
    (h0 : size ≠ 0) (hmax : size ≤ maxAllocElements) :
    s.resizeAndExtend size
      = some { s with m_Size := size,
                      m_Array := some (block.take size
                                        ++ List.replicate (size - n * c) s.m_InitValue),
                      m_OwnsData := true, m_MaxId := size - 1, m_IsAllocated := true } := by
  obtain ⟨ha, harr, hlen, hsize, hmaxid, hnt, hnc, hb⟩ := hs
  cases s with
  | mk nm arr sz mx nt nc iv cd al ow =>
  simp only at ha harr hsize hmaxid hnt hnc
  subst harr hsize ha
  unfold resizeAndExtend
  simp only [if_neg h1, if_neg h0, newArray, if_pos hmax]
  by_cases hlt : size < n * c
  · have hm : memcpy (List.replicate size (ElementType.zero : T)) 0 block 0 size
        = some (block.take size) := by
      rw [memcpy_eq_some _ _ _ _ _ (by simp) (by omega)]
      simp
    have hng : ¬ size > n * c := by omega
    simp only [if_pos hlt, hm, if_neg hng, szSub_one h0]
    have e0 : size - n * c = 0 := by omega
    cases ow <;> simp [deallocate, e0]
  · have hgt : size > n * c := by omega
    have hm : memcpy (List.replicate size (ElementType.zero : T)) 0 block 0 (n * c)
        = some (block ++ List.replicate (size - n * c) ElementType.zero) := by
      rw [memcpy_eq_some _ _ _ _ _ (by simp; omega) (by omega)]
      simp [← hlen, List.drop_replicate]
    simp only [if_neg hlt, hm, if_pos hgt, szSub_one h0]
    have hfill : fillLoop iv (n * c) (size - n * c)
          (block ++ List.replicate (size - n * c) (ElementType.zero : T))
        = some (block ++ List.replicate (size - n * c) iv) := by
      rw [fillLoop_eq_some _ _ _ _ (by simp; omega)]
      have e1 : n * c + (size - n * c) = size := by omega
      rw [e1, List.take_append_of_le_length (by omega), List.take_of_length_le (by omega),
        List.drop_of_length_le (by simp; omega)]
      simp
    have htake : block.take size = block := List.take_of_length_le (by omega)
    cases ow <;> simp [deallocate, initializeWithValue, hfill, htake]

/-- The method `resizeTuples` with the product `m * c` taken as exact (definition
`resizeTuples`), on an allocated array with `n` tuples of `c` components: it returns whenever
`m * c` elements can be allocated, and after it there are `m` tuples and `m * c` elements,
every element at a flat index below `min(n, m) * c` keeps its value, and every element at a
flat index `>= n * c` equals the stored init value. -/
theorem resizeTuples_exact [ElementType T] (s : EbsdDataArray T) (n c : Nat) (block : List T)
    (m : Nat) (hs : Allocated s n c block) :
    (m * c ≤ maxAllocElements → ∃ s', s.resizeTuples m = some s') ∧
    ∀ s', s.resizeTuples m = some s' →
      s'.getNumberOfTuples = m ∧ s'.getSize = m * c ∧
      (∀ i, i < min n m * c → s'.getValue i = s.getValue i) ∧
      (∀ i, n * c ≤ i → i < s'.getSize → s'.getValue i = some s.getInitValue) := by
  have hs' := hs
  obtain ⟨ha, harr, hlen, hsize, hmaxid, hnt, hnc, hb⟩ := hs'
  by_cases h1 : m * c = n * c
  · -- the element count does not change: `resizeAndExtend` returns `m_Array` at once
    have hr : s.resizeTuples m = some { s with m_NumTuples := m } := by
      unfold resizeTuples resizeAndExtend
      simp [hnc, hsize, h1, harr]
    refine ⟨fun _ => ⟨_, hr⟩, ?_⟩
    intro s' hs'
    rw [hr] at hs'
    cases hs'
    refine ⟨rfl, by simp [getSize, hsize, h1], fun i _ => rfl, ?_⟩
    intro i hi1 hi2
    simp only [getSize, hsize] at hi2
    omega
  · by_cases h0 : m * c = 0
    · -- the array is wiped by `clear()`
      have hr : s.resizeTuples m = some s.clear := by
        unfold resizeTuples resizeAndExtend
        have hne : ¬ (0 = s.m_Size) := by rw [hsize, ← h0]; exact h1
        simp [hnc, hne, h0, clear]
      refine ⟨fun _ => ⟨_, hr⟩, ?_⟩
      intro s' hs'
      rw [hr] at hs'
      cases hs'
      have hm0 : m = 0 := by
        rcases Nat.mul_eq_zero.mp h0 with h | h
        · exact h
        · exfalso; apply h1; rw [h]; simp
      subst hm0
      refine ⟨by simp [getNumberOfTuples, clear], by simp [getSize, clear], ?_, ?_⟩
      · intro i hi
        simp at hi
      · intro i _ hi
        simp [getSize, clear] at hi
    · -- a new block is allocated
      refine ⟨?_, ?_⟩
      · intro hmax
        have hr := resizeAndExtend_of_allocated hs h1 h0 hmax
        unfold resizeTuples
        rw [hnc, hr]
        simp
      · intro s' hs'
        unfold resizeTuples at hs'
        rw [hnc] at hs'
        have hmax : m * c ≤ maxAllocElements := by
          by_contra hcon
          unfold resizeAndExtend at hs'
          have hne : ¬ (m * c = s.m_Size) := by rw [hsize]; exact h1
          simp [hne, h0, newArray, hcon] at hs'
        rw [resizeAndExtend_of_allocated hs h1 h0 hmax] at hs'
        simp only [Option.isSome_some, if_true, Option.some.injEq] at hs'
        subst hs'
        refine ⟨rfl, rfl, ?_, ?_⟩
        · intro i hi
          have hin : i < n * c := lt_of_lt_of_le hi (Nat.mul_le_mul_right c (min_le_left n m))
          have him : i < m * c := lt_of_lt_of_le hi (Nat.mul_le_mul_right c (min_le_right n m))
          simp only [getValue, harr]
          rw [List.getElem?_append_left (by simp; omega), List.getElem?_take, if_pos him]
        · intro i hi1 hi2
          simp only [getSize] at hi2
          simp only [getValue, getInitValue]
          have hlt : (block.take (m * c)).length = n * c := by simp; omega
          rw [List.getElem?_append_right (by omega), List.getElem?_replicate, if_pos (by omega)]

theorem resizeTuples_sizet_eq [ElementType T] (s : EbsdDataArray T) (m : Nat)
    (h : m * s.m_NumComponents < 2 ^ 64) : s.resizeTuples_sizet m = s.resizeTuples m := by
  unfold resizeTuples_sizet resizeTuples
  rw [Nat.mod_eq_of_lt h]

/-- Claim C4 as amended. For an allocated array with `n` tuples of `c` components and any `m`
for which `m * c` elements can be allocated (the product `m * c` then does not wrap around
the range of `size_t`): `resizeTuples(m)` returns, and after it `getNumberOfTuples() == m`,
`getSize() == m * c`, every element at a flat index below `min(n, m) * c` keeps its previous
value, and every element at a flat index `>= n * c` equals the stored init value
`getInitValue()`. -/
theorem resizeTuples_sizet_spec [ElementType T] (s : EbsdDataArray T) (n c : Nat)
    (block : List T) (m : Nat) (hs : Allocated s n c block) (hm : m * c ≤ maxAllocElements) :
    ∃ s', s.resizeTuples_sizet m = some s' ∧
      s'.getNumberOfTuples = m ∧ s'.getSize = m * c ∧
      (∀ i, i < min n m * c → s'.getValue i = s.getValue i) ∧
      (∀ i, n * c ≤ i → i < s'.getSize → s'.getValue i = some s.getInitValue) := by
  have hnc : s.m_NumComponents = c := hs.2.2.2.2.2.2.1
  have hlt : m * s.m_NumComponents < 2 ^ 64 := by
    rw [hnc]
    have : maxAllocElements < 2 ^ 64 := by decide
    omega
  rw [resizeTuples_sizet_eq s m hlt]
  obtain ⟨hex, hall⟩ := resizeTuples_exact s n c block m hs
  obtain ⟨s', hs'⟩ := hex hm
  exact ⟨s', hs', hall s' hs'⟩

end EbsdDataArray

/-! ## `eraseTuples`: the kept runs -/

namespace EbsdDataArray

variable {T : Type}

theorem flatMap_tupleAt_range' (block : List T) (c : Nat) :
    ∀ (len a : Nat), (a + len) * c ≤ block.length →
      (List.range' a len).flatMap (tupleAt block c) = (block.drop (a * c)).take (len * c) := by
  intro len
  induction len with
  | zero => intro a _; simp
  | succ k ih =>
    intro a h
    have h1 : (a + 1 + k) * c ≤ block.length := by
      have : a + 1 + k = a + (k + 1) := by omega
      rw [this]; exact h
    rw [List.range'_succ, List.flatMap_cons, ih (a + 1) h1]
    have e : (k + 1) * c = c + k * c := by ring
    rw [e, List.take_add, List.drop_drop]
    have e2 : (a + 1) * c = a * c + c := by ring
    rw [e2]
    rfl

theorem filter_not_contains_eq_keptRuns (n : Nat) :
    ∀ (idxs : List Nat) (start : Nat), idxs.Pairwise (· < ·) →
      (∀ i ∈ idxs, start ≤ i ∧ i < n) → start ≤ n →
      (List.range' start (n - start)).filter (fun i => !idxs.contains i)
        = (keptRuns n start idxs).flatMap (fun g => List.range' g.1 g.2) := by
  intro idxs
  induction idxs with
  | nil =>
    intro start _ _ _
    simp [keptRuns]
  | cons idx rest ih =>
    intro start hp hv hsn
    obtain ⟨hlo, hhi⟩ := hv idx (List.mem_cons_self _ _)
    rw [List.pairwise_cons] at hp
    obtain ⟨hhead, hrest⟩ := hp
    have hsplit : List.range' start (n - start)
        = List.range' start (idx - start) ++ (idx :: List.range' (idx + 1) (n - (idx + 1))) := by
      have e1 : n - start = (n - idx) + (idx - start) := by omega
      rw [e1, ← List.range'_append start (idx - start) (n - idx) 1]
      have e2 : start + 1 * (idx - start) = idx := by omega
      have e3 : n - idx = (n - (idx + 1)) + 1 := by omega
      rw [e2, e3, List.range'_succ]
    rw [hsplit, List.filter_append, List.filter_cons]
    have hfirst : (List.range' start (idx - start)).filter (fun i => !(idx :: rest).contains i)
        = List.range' start (idx - start) := by
      rw [List.filter_eq_self]
      intro a ha
      rw [List.mem_range'] at ha
      obtain ⟨i, hi, rfl⟩ := ha
      have hne : ¬ (start + 1 * i ∈ idx :: rest) := by
        intro hmem
        rcases List.mem_cons.mp hmem with h | h
        · omega
        · have := hhead _ h
          omega
      simpa using hne
    have hmid : (!(idx :: rest).contains idx) = false := by simp
    have hlast : (List.range' (idx + 1) (n - (idx + 1))).filter
          (fun i => !(idx :: rest).contains i)
        = (List.range' (idx + 1) (n - (idx + 1))).filter (fun i => !rest.contains i) := by
      apply List.filter_congr
      intro a ha
      rw [List.mem_range'] at ha
      obtain ⟨i, hi, rfl⟩ := ha
      have hne : ¬ (idx + 1 + i = idx) := by omega
      simp [hne]
    rw [hfirst, hmid, hlast]
    simp only [Bool.false_eq_true, if_false]
    rw [ih (idx + 1) hrest (fun i hi => ⟨hhead i hi, (hv i (List.mem_cons_of_mem _ hi)).2⟩)
      (by omega)]
    simp [keptRuns]

theorem getD_lt_of_pairwise {idxs : List Nat} (hp : idxs.Pairwise (· < ·)) {i : Nat}
    (hi : i + 1 < idxs.length) : idxs.getD i 0 < idxs.getD (i + 1) 0 := by
  rw [List.getD_eq_getElem _ _ (by omega), List.getD_eq_getElem _ _ hi]
  exact (List.pairwise_iff_getElem.mp hp) i (i + 1) (by omega) hi (by omega)

theorem getD_lt_of_forall {idxs : List Nat} {n : Nat} (hv : ∀ i ∈ idxs, i < n) {i : Nat}
    (hi : i < idxs.length) : idxs.getD i 0 < n := by
  rw [List.getD_eq_getElem _ _ hi]
  exact hv _ (List.getElem_mem hi)

theorem runEnd_le {idxs : List Nat} {n : Nat} (hv : ∀ i ∈ idxs, i < n) (i : Nat) :
    runEnd n idxs i ≤ n := by
  unfold runEnd
  split
  · rename_i h
    exact Nat.le_of_lt (getD_lt_of_forall hv h)
  · exact Nat.le_refl n

theorem runStart_le_runEnd {idxs : List Nat} {n : Nat} (hp : idxs.Pairwise (· < ·))
    (hv : ∀ i ∈ idxs, i < n) {i : Nat} (hi : i ≤ idxs.length) :
    runStart idxs i ≤ runEnd n idxs i := by
  unfold runStart runEnd
  cases i with
  | zero => simp
  | succ j =>
    simp only [Nat.add_one_ne_zero, if_false, Nat.add_sub_cancel]
    split
    · rename_i h
      exact getD_lt_of_pairwise hp h
    · exact getD_lt_of_forall hv (by omega)

theorem runStart_add_runLen {idxs : List Nat} {n : Nat} (hp : idxs.Pairwise (· < ·))
    (hv : ∀ i ∈ idxs, i < n) {i : Nat} (hi : i ≤ idxs.length) :
    runStart idxs i + runLen n idxs i = runEnd n idxs i := by
  have := runStart_le_runEnd hp hv hi
  unfold runLen
  omega

theorem runDest_add {idxs : List Nat} {n : Nat} (hp : idxs.Pairwise (· < ·))
    (hv : ∀ i ∈ idxs, i < n) :
    ∀ i, i ≤ idxs.length → runDest n idxs i + i = runStart idxs i := by
  intro i
  induction i with
  | zero => intro _; simp [runDest, runStart]
  | succ j ih =>
    intro hj
    have h1 := ih (by omega)
    have h2 := runStart_add_runLen hp hv (i := j) (by omega)
    have h3 : runEnd n idxs j = idxs.getD j 0 := by
      unfold runEnd
      rw [if_pos (by omega)]
    have h4 : runStart idxs (j + 1) = idxs.getD j 0 + 1 := by
      simp [runStart]
    rw [runDest, h4]
    omega

theorem runDest_total {idxs : List Nat} {n : Nat} (hp : idxs.Pairwise (· < ·))
    (hv : ∀ i ∈ idxs, i < n) :
    runDest n idxs (idxs.length + 1) + idxs.length = n := by
  have h1 := runDest_add hp hv idxs.length (Nat.le_refl _)
  have h2 := runStart_add_runLen hp hv (i := idxs.length) (Nat.le_refl _)
  have h3 : runEnd n idxs idxs.length = n := by
    unfold runEnd
    rw [if_neg (by omega)]
  rw [runDest]
  omega

theorem runDest_mono (n : Nat) (idxs : List Nat) {i j : Nat} (h : i ≤ j) :
    runDest n idxs i ≤ runDest n idxs j := by
  induction j with
  | zero =>
    have : i = 0 := by omega
    subst this
    exact Nat.le_refl _
  | succ k ih =>
    rcases Nat.lt_or_ge i (k + 1) with hlt | hge
    · have := ih (by omega)
      rw [runDest]
      omega
    · have : i = k + 1 := by omega
      subst this
      exact Nat.le_refl _

theorem keptRuns_eq_map (n : Nat) :
    ∀ (idxs : List Nat) (start : Nat),
      keptRuns n start idxs
        = (List.range (idxs.length + 1)).map (fun i =>
            ((if i = 0 then start else idxs.getD (i - 1) 0 + 1),
             runEnd n idxs i - (if i = 0 then start else idxs.getD (i - 1) 0 + 1))) := by
  intro idxs
  induction idxs with
  | nil => intro start; simp [keptRuns, runEnd, List.range_succ]
  | cons idx rest ih =>
    intro start
    rw [keptRuns, ih (idx + 1), List.length_cons, List.range_succ_eq_map (rest.length + 1),
      List.map_cons, List.map_map]
    congr 1
    · simp [runEnd]
    · apply List.map_congr_left
      intro i _
      cases i with
      | zero => simp [runEnd]
      | succ j => simp [runEnd]

theorem survivingTuples_eq_runs (block : List T) (n c : Nat) (idxs : List Nat)
    (hlen : block.length = n * c) (hp : idxs.Pairwise (· < ·)) (hv : ∀ i ∈ idxs, i < n) :
    survivingTuples block n c idxs
      = (List.range' 0 (idxs.length + 1)).flatMap (runBlock block c n idxs) := by
  unfold survivingTuples
  have h1 := filter_not_contains_eq_keptRuns n idxs 0 hp
    (fun i hi => ⟨Nat.zero_le _, hv i hi⟩) (Nat.zero_le _)
  rw [List.range_eq_range', ← Nat.sub_zero n, h1, List.flatMap_assoc, keptRuns_eq_map,
    List.flatMap_map, ← List.range_eq_range']
  apply List.flatMap_congr
  intro i hi
  have hik : i ≤ idxs.length := by
    have := List.mem_range.mp hi
    omega
  have hs : (if i = 0 then 0 else idxs.getD (i - 1) 0 + 1) = runStart idxs i := rfl
  simp only [hs]
  have hl : runEnd n idxs i - runStart idxs i = runLen n idxs i := rfl
  rw [hl]
  unfold runBlock
  apply flatMap_tupleAt_range'
  rw [runStart_add_runLen hp hv hik, hlen]
  exact Nat.mul_le_mul_right c (runEnd_le hv i)

theorem eraseCopy_loop (old : List T) (c n : Nat) (idxs : List Nat) (S D C : List Nat)
    (hpt : ∀ i, i ≤ idxs.length → S.getD i 0 = runStart idxs i * c ∧
      D.getD i 0 = runDest n idxs i * c ∧ C.getD i 0 = runLen n idxs i * c)
    (hb : ∀ i, i ≤ idxs.length → runStart idxs i * c + runLen n idxs i * c ≤ old.length) :
    ∀ (r a : Nat) (acc : List T), a + r = idxs.length + 1 →
      acc.length = runDest n idxs (idxs.length + 1) * c →
      acc.take (runDest n idxs a * c) = (List.range' 0 a).flatMap (runBlock old c n idxs) →
      (List.range' a r).foldlM
          (fun acc i => memcpy acc (D.getD i 0) old (S.getD i 0) (C.getD i 0)) acc
        = some ((List.range' 0 (idxs.length + 1)).flatMap (runBlock old c n idxs)) := by
  intro r
  induction r with
  | zero =>
    intro a acc ha hlen htake
    have ha' : a = idxs.length + 1 := by omega
    subst ha'
    rw [List.take_of_length_le (by omega)] at htake
    simp [htake]
  | succ r ih =>
    intro a acc ha hlen htake
    have hak : a ≤ idxs.length := by omega
    obtain ⟨hS, hD, hC⟩ := hpt a hak
    have hmono : runDest n idxs (a + 1) ≤ runDest n idxs (idxs.length + 1) :=
      runDest_mono n idxs (by omega)
    have hdst : runDest n idxs a * c + runLen n idxs a * c ≤ acc.length := by
      rw [hlen, ← Nat.add_mul]
      exact Nat.mul_le_mul_right c (by rw [runDest] at hmono; exact hmono)
    rw [List.range'_succ, List.foldlM_cons, hS, hD, hC,
      memcpy_eq_some _ _ _ _ _ hdst (hb a hak)]
    simp only [Option.bind_eq_bind, Option.some_bind]
    apply ih (a + 1)
    · omega
    · simp only [List.length_append, List.length_take, List.length_drop]
      have := hb a hak
      omega
    · have hblock : (runBlock old c n idxs a).length = runLen n idxs a * c := by
        unfold runBlock
        simp only [List.length_take, List.length_drop]
        have := hb a hak
        omega
      have e1 : List.range' 0 (a + 1) = List.range' 0 a ++ [a] := by
        rw [List.range'_concat]; simp
      rw [e1, List.flatMap_append, List.flatMap_singleton, ← htake, runDest, Nat.add_mul]
      have hx : (List.take (runDest n idxs a * c) acc).length = runDest n idxs a * c := by
        simp only [List.length_take]
        omega
      change List.take _ (List.take (runDest n idxs a * c) acc ++ runBlock old c n idxs a
        ++ List.drop (runDest n idxs a * c + runLen n idxs a * c) acc) = _
      rw [List.take_append_of_le_length (by simp only [List.length_append, hx, hblock]; omega)]
      rw [List.take_of_length_le (by simp only [List.length_append, hx, hblock]; omega)]

theorem getD_set_self {l : List Nat} {i : Nat} (v d : Nat) (hi : i < l.length) :
    (l.set i v).getD i d = v := by
  rw [List.getD_eq_getElem?_getD, List.getElem?_set]
  simp [hi]

theorem getD_set_other {l : List Nat} {i j : Nat} (v d : Nat) (hij : i ≠ j) :
    (l.set i v).getD j d = l.getD j d := by
  rw [List.getD_eq_getElem?_getD, List.getElem?_set, if_neg hij, ← List.getD_eq_getElem?_getD]

theorem eraseTables_fold (idxs : List Nat) (n c : Nat) (hp : idxs.Pairwise (· < ·))
    (hv : ∀ i ∈ idxs, i < n) (hne : idxs ≠ []) :
    ∀ m, m ≤ idxs.length →
      ∃ t, (List.range' 1 m).foldl (eraseTablesStep idxs n c)
            ((List.replicate (idxs.length + 1) 0).set 0 0,
             (List.replicate (idxs.length + 1) 0).set 0 0,
             (List.replicate (idxs.length + 1) 0).set 0 (szSub (idxs.getD 0 0) 0 * c)) = t ∧
        t.1.length = idxs.length + 1 ∧ t.2.1.length = idxs.length + 1 ∧
        t.2.2.length = idxs.length + 1 ∧
        ∀ i, i ≤ m → t.1.getD i 0 = runStart idxs i * c ∧
          t.2.1.getD i 0 = runDest n idxs i * c ∧ t.2.2.getD i 0 = runLen n idxs i * c := by
  have hk : 0 < idxs.length := List.length_pos.mpr hne
  intro m
  induction m with
  | zero =>
    intro _
    simp only [List.range'_zero, List.foldl_nil]
    refine ⟨_, rfl, by simp, by simp, by simp, ?_⟩
    intro i hi
    have hi0 : i = 0 := by omega
    subst hi0
    refine ⟨?_, ?_, ?_⟩
    · rw [getD_set_self _ _ (by simp)]; simp [runStart]
    · rw [getD_set_self _ _ (by simp)]; simp [runDest]
    · rw [getD_set_self _ _ (by simp)]
      simp [runLen, runEnd, runStart, hk, szSub]
  | succ m ih =>
    intro hm
    obtain ⟨t, ht, hl1, hl2, hl3, hpt⟩ := ih (by omega)
    rw [List.range'_concat, List.foldl_append, ht]
    simp only [Nat.one_mul, List.foldl_cons, List.foldl_nil]
    refine ⟨_, rfl, ?_, ?_, ?_, ?_⟩
    · simp [eraseTablesStep, hl1]
    · simp [eraseTablesStep, hl2]
    · simp only [eraseTablesStep]
      split <;> simp [hl3]
    · intro i hi
      obtain ⟨hS, hD, hC⟩ := hpt m (Nat.le_refl _)
      have e1 : 1 + m - 1 = m := by omega
      have hmn : idxs.getD m 0 < n := getD_lt_of_forall hv (by omega)
      have hCnew : (eraseTablesStep idxs n c t (1 + m)).2.2
          = t.2.2.set (1 + m) (runLen n idxs (m + 1) * c) := by
        simp only [eraseTablesStep, e1, Nat.add_sub_cancel]
        have hst : runStart idxs (m + 1) = idxs.getD m 0 + 1 := by simp [runStart]
        by_cases hlt : 1 + m < idxs.length
        · have hs := getD_lt_of_pairwise hp (i := m) (by omega)
          have hend : runEnd n idxs (m + 1) = idxs.getD (m + 1) 0 := by
            unfold runEnd; rw [if_pos (by omega)]
          have e2 : idxs.getD (1 + m) 0 = idxs.getD (m + 1) 0 := by rw [Nat.add_comm]
          rw [if_pos hlt, e2, szSub_of_le (Nat.le_of_lt hs), szSub_of_le (by omega)]
          unfold runLen
          rw [hst, hend]
          congr 2
        · have hend : runEnd n idxs (m + 1) = n := by
            unfold runEnd; rw [if_neg (by omega)]
          rw [if_neg hlt, szSub_of_le (Nat.le_of_lt hmn), szSub_of_le (by omega)]
          unfold runLen
          rw [hst, hend]
          congr 2
      rcases Nat.lt_or_ge i (m + 1) with hlt | hge
      · have hne1 : 1 + m ≠ i := by omega
        obtain ⟨hS', hD', hC'⟩ := hpt i (by omega)
        refine ⟨?_, ?_, ?_⟩
        · simp only [eraseTablesStep]
          rw [getD_set_other _ _ hne1, hS']
        · simp only [eraseTablesStep]
          rw [getD_set_other _ _ hne1, hD']
        · rw [hCnew, getD_set_other _ _ hne1, hC']
      · have hi' : i = m + 1 := by omega
        subst hi'
        have e3 : 1 + m = m + 1 := by omega
        refine ⟨?_, ?_, ?_⟩
        · simp only [eraseTablesStep, e1]
          rw [e3, getD_set_self _ _ (by omega)]
          simp [runStart]
        · have hD2 : (eraseTablesStep idxs n c t (1 + m)).2.1
              = t.2.1.set (1 + m)
                  ((eraseTablesStep idxs n c t (1 + m)).2.2.getD m 0 + t.2.1.getD m 0) := by
            simp only [eraseTablesStep, e1]
          rw [hD2, hCnew, e3, getD_set_self _ _ (by omega),
            getD_set_other _ _ (Nat.succ_ne_self m), hC, hD, runDest]
          ring
        · rw [hCnew, e3, getD_set_self _ _ (by omega)]

theorem eraseTables_spec (idxs : List Nat) (n c : Nat) (hp : idxs.Pairwise (· < ·))
    (hv : ∀ i ∈ idxs, i < n) (hne : idxs ≠ []) :
    (eraseTables idxs n c).1.length = idxs.length + 1 ∧
    ∀ i, i ≤ idxs.length → (eraseTables idxs n c).1.getD i 0 = runStart idxs i * c ∧
      (eraseTables idxs n c).2.1.getD i 0 = runDest n idxs i * c ∧
      (eraseTables idxs n c).2.2.getD i 0 = runLen n idxs i * c := by
  obtain ⟨t, ht, hl1, _, _, hpt⟩ := eraseTables_fold idxs n c hp hv hne idxs.length (Nat.le_refl _)
  have e : eraseTables idxs n c = t := by
    unfold eraseTables
    simp only [Nat.add_sub_cancel]
    exact ht
  rw [e]
  exact ⟨hl1, hpt⟩

theorem runBlock_length {block : List T} {n c : Nat} {idxs : List Nat}
    (hlen : block.length = n * c) (hp : idxs.Pairwise (· < ·)) (hv : ∀ i ∈ idxs, i < n)
    {i : Nat} (hi : i ≤ idxs.length) :
    runStart idxs i * c + runLen n idxs i * c ≤ block.length ∧
    (runBlock block c n idxs i).length = runLen n idxs i * c := by
  have hb : runStart idxs i * c + runLen n idxs i * c ≤ block.length := by
    rw [← Nat.add_mul, runStart_add_runLen hp hv hi, hlen]
    exact Nat.mul_le_mul_right c (runEnd_le hv i)
  refine ⟨hb, ?_⟩
  unfold runBlock
  simp only [List.length_take, List.length_drop]
  omega

theorem survivingTuples_length (block : List T) (n c : Nat) (idxs : List Nat)
    (hlen : block.length = n * c) (hp : idxs.Pairwise (· < ·)) (hv : ∀ i ∈ idxs, i < n) :
    (survivingTuples block n c idxs).length = (n - idxs.length) * c := by
  rw [survivingTuples_eq_runs block n c idxs hlen hp hv]
  have key : ∀ a, a ≤ idxs.length + 1 →
      ((List.range' 0 a).flatMap (runBlock block c n idxs)).length = runDest n idxs a * c := by
    intro a
    induction a with
    | zero => intro _; simp [runDest]
    | succ a ih =>
      intro ha
      rw [List.range'_concat, List.flatMap_append, List.flatMap_singleton, List.length_append,
        ih (by omega)]
      simp only [Nat.one_mul, Nat.zero_add]
      rw [(runBlock_length hlen hp hv (i := a) (by omega)).2, runDest, Nat.add_mul]
  rw [key _ (Nat.le_refl _)]
  have := runDest_total hp hv
  congr 1
  omega

theorem leadingRun_full :
    ∀ (idxs : List Nat) (j k : Nat), (leadingRun idxs j k).2 = k + idxs.length →
      idxs = List.range' j idxs.length ∧ (leadingRun idxs j k).1 = j + idxs.length := by
  intro idxs
  induction idxs with
  | nil => intro j k _; simp [leadingRun]
  | cons idx rest ih =>
    intro j k h
    unfold leadingRun at h ⊢
    by_cases hj : j = idx
    · rw [if_pos hj] at h ⊢
      have h' : (leadingRun rest (j + 1) (k + 1)).2 = k + 1 + rest.length := by
        rw [h, List.length_cons]; omega
      obtain ⟨h1, h2⟩ := ih (j + 1) (k + 1) h'
      refine ⟨?_, ?_⟩
      · rw [List.length_cons, List.range'_succ, ← h1, hj]
      · rw [h2, List.length_cons]; omega
    · rw [if_neg hj] at h
      simp only [List.length_cons] at h
      omega

theorem survivingTuples_leading (block : List T) (n c k : Nat) (hlen : block.length = n * c)
    (hk : k ≤ n) :
    survivingTuples block n c (List.range' 0 k) = (block.drop (k * c)).take ((n - k) * c) := by
  unfold survivingTuples
  have hsplit : List.range n = List.range' 0 k ++ List.range' k (n - k) := by
    rw [List.range_eq_range']
    have := List.range'_append 0 k (n - k) 1
    simp only [Nat.one_mul, Nat.zero_add] at this
    rw [this]
    congr 1
    omega
  have h1 : (List.range' 0 k).filter (fun i => !(List.range' 0 k).contains i) = [] := by
    rw [List.filter_eq_nil_iff]
    intro a ha
    simp [ha]
  have h2 : (List.range' k (n - k)).filter (fun i => !(List.range' 0 k).contains i)
      = List.range' k (n - k) := by
    rw [List.filter_eq_self]
    intro a ha
    rw [List.mem_range'] at ha
    obtain ⟨i, _, rfl⟩ := ha
    have hnm : ¬ (k + 1 * i ∈ List.range' 0 k) := by
      rw [List.mem_range']
      rintro ⟨x, hx, hxe⟩
      omega
    simp [hnm]
  rw [hsplit, List.filter_append, h1, h2, List.nil_append]
  apply flatMap_tupleAt_range'
  rw [hlen]
  apply Nat.mul_le_mul_right
  omega

/-- Claim C2. For an allocated array with `n` tuples of `c` components and a non-empty,
strictly increasing list `idxs` of valid tuple indices with fewer than `n` entries,
`eraseTuples(idxs)` returns `0` and leaves an element block of `(n - |idxs|) * c` elements
that consists of exactly the original tuples whose index is not in `idxs`, in their original
order. -/
theorem eraseTuples_spec [ElementType T] (s : EbsdDataArray T) (n c : Nat) (block : List T)
    (idxs : List Nat) (hs : Allocated s n c block) (hne : idxs ≠ [])
    (hp : idxs.Pairwise (· < ·)) (hv : ∀ i ∈ idxs, i < n) (hlen : idxs.length < n) :
    ∃ s', s.eraseTuples idxs = some (0, s') ∧
      s'.m_Array = some (survivingTuples block n c idxs) ∧
      (survivingTuples block n c idxs).length = (n - idxs.length) * c ∧
      s'.getSize = (n - idxs.length) * c := by
  obtain ⟨ha, harr, hblen, hsize, hmaxid, hnt, hnc, hb⟩ := hs
  have hsl := survivingTuples_length block n c idxs hblen hp hv
  have hempty : idxs.isEmpty = false := by
    cases idxs with
    | nil => exact absurd rfl hne
    | cons _ _ => rfl
  have hge : ¬ (idxs.length ≥ s.getNumberOfTuples) := by
    simp only [getNumberOfTuples, hnt]; omega
  have hany : idxs.any (fun idx => decide (idx * s.m_NumComponents > s.m_MaxId)) = false := by
    rw [List.any_eq_false]
    intro x hx
    have hxn := hv x hx
    have h1 : x * c + c ≤ n * c := by
      have := Nat.mul_le_mul_right c (Nat.succ_le_of_lt hxn)
      rw [Nat.succ_mul] at this
      exact this
    rw [hnc, hmaxid]
    simp only [gt_iff_lt, decide_eq_true_eq, not_lt]
    rcases Nat.eq_zero_or_pos c with hc | hc
    · subst hc; simp
    · omega
  have hnew : szSub s.getNumberOfTuples idxs.length * s.m_NumComponents = (n - idxs.length) * c := by
    simp only [getNumberOfTuples, hnt, hnc]
    rw [szSub_of_le (Nat.le_of_lt hlen)]
  have hle : (n - idxs.length) * c ≤ maxAllocElements :=
    Nat.le_trans (Nat.mul_le_mul_right c (Nat.sub_le _ _)) hb
  have hcopied :
      (if (leadingRun idxs 0 0).2 = idxs.length then
          memcpy ((List.replicate ((n - idxs.length) * c) (ElementType.zero : T)).map
              (fun _ => ElementType.splatAB)) 0 block ((leadingRun idxs 0 0).1 * c)
            ((n - idxs.length) * c)
        else
          eraseCopy block (eraseTables idxs n c).1 (eraseTables idxs n c).2.1
            (eraseTables idxs n c).2.2
            ((List.replicate ((n - idxs.length) * c) (ElementType.zero : T)).map
              (fun _ => ElementType.splatAB)))
        = some (survivingTuples block n c idxs) := by
    split
    · rename_i hfull
      obtain ⟨hidxs, hj⟩ := leadingRun_full idxs 0 0 (by rw [hfull]; simp)
      rw [hj, Nat.zero_add]
      have hsrc : idxs.length * c + (n - idxs.length) * c ≤ block.length := by
        rw [← Nat.add_mul, hblen]
        apply Nat.mul_le_mul_right
        omega
      rw [memcpy_eq_some _ _ _ _ _ (by simp) hsrc]
      have hdrop : List.drop (0 + (n - idxs.length) * c)
          ((List.replicate ((n - idxs.length) * c) (ElementType.zero : T)).map
            (fun _ => (ElementType.splatAB : T))) = [] := by
        apply List.drop_of_length_le
        simp
      rw [hdrop]
      have hsurv := survivingTuples_leading block n c idxs.length hblen (Nat.le_of_lt hlen)
      rw [← hidxs] at hsurv
      rw [hsurv]
      simp
    · obtain ⟨hl1, hpt⟩ := eraseTables_spec idxs n c hp hv hne
      unfold eraseCopy
      rw [hl1, List.range_eq_range', survivingTuples_eq_runs block n c idxs hblen hp hv]
      apply eraseCopy_loop block c n idxs _ _ _ hpt
        (fun i hi => (runBlock_length hblen hp hv hi).1) (idxs.length + 1) 0
      · omega
      · have := runDest_total hp hv (n := n)
        simp only [List.length_map, List.length_replicate]
        congr 1
        omega
      · simp [runDest]
  refine ⟨{ s.deallocate with m_Size := (n - idxs.length) * c,
                              m_Array := some (survivingTuples block n c idxs),
                              m_OwnsData := true, m_MaxId := szSub ((n - idxs.length) * c) 1,
                              m_IsAllocated := true }, ?_, rfl, hsl, rfl⟩
  unfold eraseTuples
  rw [hempty]
  simp only [Bool.false_eq_true, if_false, if_neg hge, hany, hnew, newArray, if_pos hle,
    harr]
  simp only [getNumberOfTuples, hnt, hnc, hcopied]

theorem runLen_le {idxs : List Nat} {n : Nat} (hv : ∀ i ∈ idxs, i < n) (i : Nat) :
    runLen n idxs i ≤ n := by
  unfold runLen
  have := runEnd_le hv (n := n) i
  omega

theorem runDest_le {idxs : List Nat} {n : Nat} (hp : idxs.Pairwise (· < ·))
    (hv : ∀ i ∈ idxs, i < n) {i : Nat} (hi : i ≤ idxs.length + 1) : runDest n idxs i ≤ n := by
  have h1 := runDest_mono n idxs hi
  have h2 := runDest_total hp hv (n := n)
  omega

theorem eraseTablesStep_sizet_eq (idxs : List Nat) (n c : Nat) (hp : idxs.Pairwise (· < ·))
    (hv : ∀ i ∈ idxs, i < n) (hne : idxs ≠ []) (hnc : n * c < 2 ^ 64) (m : Nat)
    (hm : m + 1 ≤ idxs.length) :
    eraseTablesStep_sizet idxs n c
        ((List.range' 1 m).foldl (eraseTablesStep idxs n c)
          ((List.replicate (idxs.length + 1) 0).set 0 0,
           (List.replicate (idxs.length + 1) 0).set 0 0,
           (List.replicate (idxs.length + 1) 0).set 0 (szSub (idxs.getD 0 0) 0 * c))) (1 + m)
      = eraseTablesStep idxs n c
        ((List.range' 1 m).foldl (eraseTablesStep idxs n c)
          ((List.replicate (idxs.length + 1) 0).set 0 0,
           (List.replicate (idxs.length + 1) 0).set 0 0,
           (List.replicate (idxs.length + 1) 0).set 0 (szSub (idxs.getD 0 0) 0 * c))) (1 + m) := by
  obtain ⟨t, ht, hl1, hl2, hl3, -⟩ := eraseTables_fold idxs n c hp hv hne m (by omega)
  obtain ⟨t', ht', -, -, -, hpt'⟩ := eraseTables_fold idxs n c hp hv hne (m + 1) hm
  rw [List.range'_concat, List.foldl_append, ht] at ht'
  simp only [Nat.one_mul, List.foldl_cons, List.foldl_nil] at ht'
  rw [ht]
  obtain ⟨hS, hD, hC⟩ := hpt' (m + 1) (Nat.le_refl _)
  rw [← ht'] at hS hD hC
  have e3 : 1 + m = m + 1 := by omega
  have e1 : 1 + m - 1 = m := by omega
  -- the three values the exact step stores at position `m + 1`
  have hSv : (idxs.getD m 0 + 1) * c = runStart idxs (m + 1) * c := by
    simp [runStart]
  have hCv : (if 1 + m < idxs.length + 1 - 1 then
        szSub (szSub (idxs.getD (1 + m) 0) (idxs.getD m 0)) 1 * c
      else szSub (szSub n (idxs.getD m 0)) 1 * c) = runLen n idxs (m + 1) * c := by
    rw [← hC]
    simp only [eraseTablesStep, e1]
    split
    · rw [e3, getD_set_self _ _ (by omega)]
    · rw [e3, getD_set_self _ _ (by omega)]
  have hb1 : runStart idxs (m + 1) * c < 2 ^ 64 := by
    have h1 : runStart idxs (m + 1) ≤ n := by
      have := getD_lt_of_forall hv (i := m) (by omega)
      simp only [runStart]
      rw [if_neg (by omega)]
      simpa using this
    exact lt_of_le_of_lt (Nat.mul_le_mul_right c h1) hnc
  have hb2 : runLen n idxs (m + 1) * c < 2 ^ 64 :=
    lt_of_le_of_lt (Nat.mul_le_mul_right c (runLen_le hv _)) hnc
  have hb3 : runDest n idxs (m + 1) * c < 2 ^ 64 :=
    lt_of_le_of_lt (Nat.mul_le_mul_right c (runDest_le hp hv (by omega))) hnc
  have hsrc : (idxs.getD m 0 + 1) % 2 ^ 64 * c % 2 ^ 64 = (idxs.getD m 0 + 1) * c := by
    rw [Nat.mod_mul_mod, hSv, Nat.mod_eq_of_lt hb1]
  have hcopy : (eraseTablesStep_sizet idxs n c t (1 + m)).2.2
      = (eraseTablesStep idxs n c t (1 + m)).2.2 := by
    simp only [eraseTablesStep_sizet, eraseTablesStep, e1]
    split
    · rename_i hlt
      have := hCv
      rw [if_pos hlt] at this
      rw [this, Nat.mod_eq_of_lt hb2]
    · rename_i hlt
      have := hCv
      rw [if_neg hlt] at this
      rw [this, Nat.mod_eq_of_lt hb2]
  have hdest : (eraseTablesStep idxs n c t (1 + m)).2.2.getD m 0 + t.2.1.getD m 0
      = runDest n idxs (m + 1) * c := by
    rw [← hD]
    simp only [eraseTablesStep, e1]
    rw [e3, getD_set_self _ _ (by omega)]
  have hS2 : (eraseTablesStep_sizet idxs n c t (1 + m)).1
      = (eraseTablesStep idxs n c t (1 + m)).1 := by
    simp only [eraseTablesStep_sizet, eraseTablesStep, e1, hsrc]
  have hD2 : (eraseTablesStep_sizet idxs n c t (1 + m)).2.1
      = (eraseTablesStep idxs n c t (1 + m)).2.1 := by
    have hx : (eraseTablesStep_sizet idxs n c t (1 + m)).2.1
        = t.2.1.set (1 + m)
          (((eraseTablesStep_sizet idxs n c t (1 + m)).2.2.getD m 0 + t.2.1.getD m 0)
            % 2 ^ 64) := by
      simp only [eraseTablesStep_sizet, e1]
    have hy : (eraseTablesStep idxs n c t (1 + m)).2.1
        = t.2.1.set (1 + m)
          ((eraseTablesStep idxs n c t (1 + m)).2.2.getD m 0 + t.2.1.getD m 0) := by
      simp only [eraseTablesStep, e1]
    rw [hx, hy, hcopy, hdest, Nat.mod_eq_of_lt hb3]
  exact Prod.ext hS2 (Prod.ext hD2 hcopy)

theorem eraseTables_sizet_eq (idxs : List Nat) (n c : Nat) (hp : idxs.Pairwise (· < ·))
    (hv : ∀ i ∈ idxs, i < n) (hne : idxs ≠ []) (hnc : n * c < 2 ^ 64) :
    eraseTables_sizet idxs n c = eraseTables idxs n c := by
  have hk : 0 < idxs.length := List.length_pos.mpr hne
  have h0 : szSub (idxs.getD 0 0) 0 * c % 2 ^ 64 = szSub (idxs.getD 0 0) 0 * c := by
    apply Nat.mod_eq_of_lt
    rw [szSub_of_le (Nat.zero_le _), Nat.sub_zero]
    have := getD_lt_of_forall hv (i := 0) hk
    exact lt_of_le_of_lt (Nat.mul_le_mul_right c (Nat.le_of_lt this)) hnc
  have key : ∀ m, m ≤ idxs.length →
      (List.range' 1 m).foldl (eraseTablesStep_sizet idxs n c)
          ((List.replicate (idxs.length + 1) 0).set 0 0,
           (List.replicate (idxs.length + 1) 0).set 0 0,
           (List.replicate (idxs.length + 1) 0).set 0 (szSub (idxs.getD 0 0) 0 * c))
        = (List.range' 1 m).foldl (eraseTablesStep idxs n c)
          ((List.replicate (idxs.length + 1) 0).set 0 0,
           (List.replicate (idxs.length + 1) 0).set 0 0,
           (List.replicate (idxs.length + 1) 0).set 0 (szSub (idxs.getD 0 0) 0 * c)) := by
    intro m
    induction m with
    | zero => intro _; rfl
    | succ m ih =>
      intro hm
      rw [List.range'_concat, List.foldl_append, List.foldl_append, ih (by omega)]
      simp only [Nat.one_mul, List.foldl_cons, List.foldl_nil]
      exact eraseTablesStep_sizet_eq idxs n c hp hv hne hnc m hm
  unfold eraseTables_sizet eraseTables
  simp only [Nat.add_sub_cancel, h0]
  exact key idxs.length (Nat.le_refl _)

theorem leadingRun_fst_le :
    ∀ (idxs : List Nat) (j k : Nat), (leadingRun idxs j k).1 ≤ j + idxs.length := by
  intro idxs
  induction idxs with
  | nil => intro j k; simp [leadingRun]
  | cons idx rest ih =>
    intro j k
    unfold leadingRun
    split
    · have := ih (j + 1) (k + 1)
      simp only [List.length_cons]
      omega
    · simp

theorem any_congr_mem {α : Type} (l : List α) (p q : α → Bool) (h : ∀ a ∈ l, p a = q a) :
    l.any p = l.any q := by
  induction l with
  | nil => rfl
  | cons a t ih =>
    simp only [List.any_cons]
    rw [h a (by simp), ih (fun b hb => h b (by simp [hb]))]

theorem eraseCopy_sizet_eq (sizeofT : Nat) (hT : 0 < sizeofT) (old : List T)
    (S D C : List Nat) (fresh : List T) (hC : ∀ i, C.getD i 0 * sizeofT < 2 ^ 64) :
    eraseCopy_sizet sizeofT old S D C fresh = eraseCopy old S D C fresh := by
  have hmod : ∀ i, C.getD i 0 * sizeofT % 2 ^ 64 / sizeofT = C.getD i 0 := by
    intro i
    rw [Nat.mod_eq_of_lt (hC i), Nat.mul_div_cancel _ hT]
  unfold eraseCopy_sizet eraseCopy
  simp only [hmod]

/-- On an allocated array of `n` tuples of `c` components whose `n * c * sizeof(T)` bytes
are fewer than `2 ^ 64`, and for strictly increasing tuple indices, `eraseTuples` in `size_t`
arithmetic is `eraseTuples` with exact sums and products: nothing wraps. -/
theorem eraseTuples_sizet_eq [ElementType T] (sizeofT : Nat) (hT : 0 < sizeofT)
    (s : EbsdDataArray T) (n c : Nat) (block : List T) (idxs : List Nat)
    (hs : Allocated s n c block) (hp : idxs.Pairwise (· < ·)) (hv : ∀ i ∈ idxs, i < n)
    (hbytes : n * c * sizeofT < 2 ^ 64) :
    s.eraseTuples_sizet sizeofT idxs = s.eraseTuples idxs := by
  obtain ⟨ha, harr, hlen, hsize, hmaxid, hnt, hnc, hb⟩ := hs
  have hncM : n * c < 2 ^ 64 := lt_of_le_of_lt (Nat.le_mul_of_pos_right _ hT) hbytes
  by_cases hne : idxs = []
  · subst hne
    rfl
  have hempty : idxs.isEmpty = false := by
    cases idxs with
    | nil => exact absurd rfl hne
    | cons _ _ => rfl
  unfold eraseTuples_sizet eraseTuples
  rw [hempty]
  simp only [Bool.false_eq_true, if_false]
  by_cases hge : idxs.length ≥ s.getNumberOfTuples
  · rw [if_pos hge, if_pos hge, resizeTuples_sizet_eq s 0 (by simp)]
  · rw [if_neg hge, if_neg hge]
    have hlt : idxs.length < n := by
      simp only [getNumberOfTuples, hnt] at hge
      omega
    have hany : idxs.any (fun idx => decide (idx * s.m_NumComponents % 2 ^ 64 > s.m_MaxId))
        = idxs.any (fun idx => decide (idx * s.m_NumComponents > s.m_MaxId)) := by
      apply any_congr_mem
      intro idx hidx
      have h1 : idx * c < 2 ^ 64 :=
        lt_of_le_of_lt (Nat.mul_le_mul_right c (Nat.le_of_lt (hv idx hidx))) hncM
      rw [hnc, Nat.mod_eq_of_lt h1]
    have hnew : szSub s.getNumberOfTuples idxs.length * s.m_NumComponents % 2 ^ 64
        = szSub s.getNumberOfTuples idxs.length * s.m_NumComponents := by
      apply Nat.mod_eq_of_lt
      simp only [getNumberOfTuples, hnt, hnc]
      rw [szSub_of_le (Nat.le_of_lt hlt)]
      exact lt_of_le_of_lt (Nat.mul_le_mul_right c (Nat.sub_le _ _)) hncM
    have hj : (leadingRun idxs 0 0).1 * s.m_NumComponents % 2 ^ 64
        = (leadingRun idxs 0 0).1 * s.m_NumComponents := by
      apply Nat.mod_eq_of_lt
      have h1 := leadingRun_fst_le idxs 0 0
      rw [hnc]
      exact lt_of_le_of_lt (Nat.mul_le_mul_right c (by omega)) hncM
    have htab : eraseTables_sizet idxs s.getNumberOfTuples s.m_NumComponents
        = eraseTables idxs s.getNumberOfTuples s.m_NumComponents := by
      simp only [getNumberOfTuples, hnt, hnc]
      exact eraseTables_sizet_eq idxs n c hp hv hne hncM
    have hC : ∀ i, (eraseTables idxs s.getNumberOfTuples s.m_NumComponents).2.2.getD i 0
        * sizeofT < 2 ^ 64 := by
      intro i
      simp only [getNumberOfTuples, hnt, hnc]
      obtain ⟨t, ht, -, -, hl3, hpt⟩ :=
        eraseTables_fold idxs n c hp hv hne idxs.length (Nat.le_refl _)
      have e : eraseTables idxs n c = t := by
        unfold eraseTables
        simp only [Nat.add_sub_cancel]
        exact ht
      rw [e]
      by_cases hi : i ≤ idxs.length
      · rw [(hpt i hi).2.2]
        have h1 : runLen n idxs i * c ≤ n * c := Nat.mul_le_mul_right c (runLen_le hv i)
        exact lt_of_le_of_lt (Nat.mul_le_mul_right sizeofT h1) hbytes
      · rw [List.getD_eq_default _ _ (by omega)]
        simp
    simp only [hany, hnew, hj, htab, eraseCopy_sizet_eq sizeofT hT _ _ _ _ _ hC]

theorem sampleScalars_allocated :
    Allocated sampleScalars 5 1 [100, 101, 102, 103, 104] :=
  ⟨rfl, rfl, rfl, rfl, rfl, rfl, rfl, by decide⟩

theorem sampleArray_allocated : Allocated sampleArray 3 2 [10, 11, 20, 21, 30, 31] :=
  ⟨rfl, rfl, rfl, rfl, rfl, rfl, rfl, by decide⟩

/-- Claim C2 at a concrete input: erasing tuples `1` and `3` of the five scalars
`100, ..., 104` leaves `100, 102, 104`. -/
theorem eraseTuples_spec_witness :
    Allocated sampleScalars 5 1 [100, 101, 102, 103, 104] ∧
    (∃ s', sampleScalars.eraseTuples [1, 3] = some (0, s') ∧
      s'.m_Array = some (survivingTuples [100, 101, 102, 103, 104] 5 1 [1, 3]) ∧
      (survivingTuples ([100, 101, 102, 103, 104] : List Int) 5 1 [1, 3]).length
        = (5 - [1, 3].length) * 1 ∧
      s'.getSize = (5 - [1, 3].length) * 1) ∧
    survivingTuples ([100, 101, 102, 103, 104] : List Int) 5 1 [1, 3] = [100, 102, 104] :=
  ⟨sampleScalars_allocated,
   eraseTuples_spec sampleScalars 5 1 _ [1, 3] sampleScalars_allocated (by decide) (by decide)
     (by decide) (by decide),
   by decide⟩

/-- Claim C4 fails as stated. On the allocated array `sampleArray` (three tuples of two
components), `resizeTuples(2 ^ 63)` computes the element count `2 ^ 63 * 2` in `size_t`, where
it is `0`: `resizeAndExtend(0)` wipes the array with `clear()`, and afterwards
`getNumberOfTuples()` is `0`, not `2 ^ 63`, and `getSize()` is `0`. -/
theorem resizeTuples_wrap_counterexample :
    Allocated sampleArray 3 2 [10, 11, 20, 21, 30, 31] ∧
    sampleArray.resizeTuples_sizet (2 ^ 63) = some sampleArray.clear ∧
    sampleArray.clear.getNumberOfTuples = 0 ∧ sampleArray.clear.getSize = 0 ∧
    sampleArray.clear.getNumberOfTuples ≠ 2 ^ 63 :=
  ⟨sampleArray_allocated, by decide, by decide, by decide, by decide⟩

/-- Claim C4 as amended, at a concrete input: growing the three two-component tuples of
`sampleArray` to five tuples. -/
theorem resizeTuples_sizet_spec_witness :
    Allocated sampleArray 3 2 [10, 11, 20, 21, 30, 31] ∧ 5 * 2 ≤ maxAllocElements ∧
    ∃ s', sampleArray.resizeTuples_sizet 5 = some s' ∧
      s'.getNumberOfTuples = 5 ∧ s'.getSize = 5 * 2 ∧
      (∀ i, i < min 3 5 * 2 → s'.getValue i = sampleArray.getValue i) ∧
      (∀ i, 3 * 2 ≤ i → i < s'.getSize → s'.getValue i = some sampleArray.getInitValue) :=
  ⟨sampleArray_allocated, by decide,
   resizeTuples_sizet_spec sampleArray 3 2 _ 5 sampleArray_allocated (by decide)⟩

/-! ## `eraseTuples`: indices off the end -/

/-- Claim C3 fails as stated. The list `[0, 1, 7]` holds the index `7`, which is no tuple of
the three-tuple array `sampleArray`, and it has as many entries as the array has tuples:
`eraseTuples` returns `0`, not `-100`, and the array is emptied. -/
theorem eraseTuples_invalid_index_counterexample :
    ([0, 1, 7] : List Nat) ≠ [] ∧
    (∃ idx ∈ ([0, 1, 7] : List Nat), sampleArray.getNumberOfTuples ≤ idx) ∧
    sampleArray.eraseTuples_sizet 4 [0, 1, 7] = some (0, sampleArray.clear) ∧
    sampleArray.eraseTuples_sizet 4 [0, 1, 7] ≠ some (-100, sampleArray) ∧
    sampleArray.clear.getSize = 0 ∧ sampleArray.clear.getNumberOfTuples = 0 ∧
    sampleArray.getSize = 6 ∧ sampleArray.getNumberOfTuples = 3 := by
  decide

/-- The index test of `eraseTuples` on an index whose product wraps: on the three
two-component tuples of `sampleArray` the list `[2 ^ 63 + 1]` holds no tuple index, but
`(2 ^ 63 + 1) * 2` is `2` in `size_t` and passes `idx * m_NumComponents > m_MaxId`; the call
returns `0` and the elements left are those of tuples `0` and `2`. -/
theorem eraseTuples_sizet_wrapped_index :
    (sampleArray.eraseTuples_sizet 4 [2 ^ 63 + 1]).map
        (fun r => (r.1, r.2.m_Array, r.2.m_Size, r.2.m_NumTuples))
      = some (0, some [10, 11, 30, 31], 4, 3) := by
  decide

/-- Claim C3 as amended. On an array whose `m_MaxId` is below the product of
`getNumberOfTuples()` and the number of components per tuple (every array that holds
elements), a non-empty list `idxs` with fewer entries than the array has tuples that contains
an index `>= getNumberOfTuples()` whose product with the number of components is below
`2 ^ 64` makes `eraseTuples` return `-100` and leaves the array as it was. -/
theorem eraseTuples_invalid_index [ElementType T] (sizeofT : Nat) (s : EbsdDataArray T)
    (idxs : List Nat) (hne : idxs ≠ []) (hlen : idxs.length < s.getNumberOfTuples)
    (hmax : s.m_MaxId < s.getNumberOfTuples * s.m_NumComponents)
    (hbad : ∃ idx ∈ idxs, s.getNumberOfTuples ≤ idx ∧ idx * s.m_NumComponents < 2 ^ 64) :
    s.eraseTuples_sizet sizeofT idxs = some (-100, s) := by
  have hempty : idxs.isEmpty = false := by
    cases idxs with
    | nil => exact absurd rfl hne
    | cons _ _ => rfl
  have hge : ¬ (idxs.length ≥ s.getNumberOfTuples) := by omega
  have hany : idxs.any (fun idx => decide (idx * s.m_NumComponents % 2 ^ 64 > s.m_MaxId))
      = true := by
    rw [List.any_eq_true]
    obtain ⟨idx, hmem, hidx, hlt⟩ := hbad
    refine ⟨idx, hmem, ?_⟩
    have h1 : s.getNumberOfTuples * s.m_NumComponents ≤ idx * s.m_NumComponents :=
      Nat.mul_le_mul_right _ hidx
    rw [Nat.mod_eq_of_lt hlt]
    simp only [gt_iff_lt, decide_eq_true_eq]
    omega
  unfold eraseTuples_sizet
  rw [hempty]
  simp only [Bool.false_eq_true, if_false, if_neg hge, hany, if_true]

/-- Claim C3 as amended, at a concrete input: the list `[0, 7]` on the three-tuple array
`sampleArray`. -/
theorem eraseTuples_invalid_index_witness :
    ([0, 7] : List Nat) ≠ [] ∧ [0, 7].length < sampleArray.getNumberOfTuples ∧
    sampleArray.m_MaxId < sampleArray.getNumberOfTuples * sampleArray.m_NumComponents ∧
    (∃ idx ∈ ([0, 7] : List Nat),
      sampleArray.getNumberOfTuples ≤ idx ∧ idx * sampleArray.m_NumComponents < 2 ^ 64) ∧
    sampleArray.eraseTuples_sizet 4 [0, 7] = some (-100, sampleArray) :=
  ⟨by decide, by decide, by decide, by decide,
   eraseTuples_invalid_index 4 sampleArray [0, 7] (by decide) (by decide) (by decide)
     (by decide)⟩

/-! ## `copyFromArray` -/

theorem memcpy_getElem? {dest src out : List T} {dOff sOff count : Nat}
    (h : memcpy dest dOff src sOff count = some out) (i : Nat) :
    out[i]? = if dOff ≤ i ∧ i < dOff + count then src[sOff + (i - dOff)]? else dest[i]? := by
  unfold memcpy at h
  split at h
  · rename_i hc
    obtain ⟨hd, hsrc⟩ := hc
    cases h
    have hl1 : (List.take dOff dest).length = dOff := by
      simp only [List.length_take]; omega
    have hl2 : (List.take count (List.drop sOff src)).length = count := by
      simp only [List.length_take, List.length_drop]; omega
    by_cases h1 : i < dOff
    · rw [if_neg (by omega), List.append_assoc, List.getElem?_append_left (by omega),
        List.getElem?_take, if_pos h1]
    · by_cases h2 : i < dOff + count
      · rw [if_pos ⟨by omega, h2⟩, List.append_assoc, List.getElem?_append_right (by omega),
          hl1, List.getElem?_append_left (by omega), List.getElem?_take, if_pos (by omega),
          List.getElem?_drop]
      · rw [if_neg (by omega), List.getElem?_append_right (by
            simp only [List.length_append, hl1, hl2]; omega)]
        simp only [List.length_append, hl1, hl2, List.getElem?_drop]
        congr 1
        omega
  · cases h

/-- The method `copyFromArray` with the sums and products of its tests taken as exact
(definition `copyFromArray`): whenever it returns `true`, for every `k < totalSrcTuples` tuple
`destTupleOffset + k` of the destination equals tuple `srcTupleOffset + k` of the source,
component by component, and every other element of the destination is unchanged. -/
theorem copyFromArray_exact (d src d' : EbsdDataArray T)
    (destTupleOffset srcTupleOffset totalSrcTuples : Nat)
    (h : d.copyFromArray destTupleOffset src srcTupleOffset totalSrcTuples = some (true, d')) :
    (∀ k, k < totalSrcTuples → ∀ j, j < d.getNumberOfComponents →
      ∃ v, d'.getValue ((destTupleOffset + k) * d.getNumberOfComponents + j) = some v ∧
        src.getValue ((srcTupleOffset + k) * d.getNumberOfComponents + j) = some v) ∧
    (∀ i, (i < destTupleOffset * d.getNumberOfComponents ∨
        (destTupleOffset + totalSrcTuples) * d.getNumberOfComponents ≤ i) →
      d'.getValue i = d.getValue i) := by
  unfold copyFromArray at h
  split at h
  · cases h
  · split at h
    · cases h
    · rename_i block hblock
      split at h
      · cases h
      · split at h
        · cases h
        · split at h
          · cases h
          · rename_i srcBlock hsrcBlock
            split at h
            · cases h
            · rename_i hcomp
              split at h
              · cases h
              · split at h
                · cases h
                · dsimp only at h
                  split at h
                  · rename_i block1 hcopy
                    simp only [Option.some.injEq, Prod.mk.injEq, true_and] at h
                    subst h
                    have hc : src.getNumberOfComponents = d.getNumberOfComponents := by
                      simpa using hcomp
                    rw [hc] at hcopy
                    have hcond := hcopy
                    unfold memcpy at hcond
                    split at hcond
                    · rename_i hbounds
                      obtain ⟨_, hsb⟩ := hbounds
                      refine ⟨?_, ?_⟩
                      · intro k hk j hj
                        have hkj : k * d.getNumberOfComponents + j
                            < totalSrcTuples * d.getNumberOfComponents := by
                          have := Nat.mul_le_mul_right d.getNumberOfComponents
                            (Nat.succ_le_of_lt hk)
                          rw [Nat.succ_mul] at this
                          omega
                        have hin : (srcTupleOffset + k) * d.getNumberOfComponents + j
                            < srcBlock.length := by
                          rw [Nat.add_mul]; omega
                        refine ⟨srcBlock[(srcTupleOffset + k) * d.getNumberOfComponents + j],
                          ?_, ?_⟩
                        · simp only [getValue]
                          rw [memcpy_getElem? hcopy, if_pos (by rw [Nat.add_mul]; omega),
                            ← List.getElem?_eq_getElem hin]
                          congr 1
                          rw [Nat.add_mul, Nat.add_mul]
                          omega
                        · simp only [getValue, hsrcBlock]
                          exact List.getElem?_eq_getElem hin
                      · intro i hi
                        simp only [getValue, hblock]
                        rw [memcpy_getElem? hcopy, if_neg]
                        rw [Nat.add_mul] at hi
                        omega
                    · cases hcond
                  · cases h

/-- The header's example of `copyFromArray`: two arrays of ten tuples, offsets `5` and `5`,
three tuples; tuples `5`, `6`, `7` are copied. -/
theorem copyFromArray_exact_example :
    tenTuples.copyFromArray 5 tenSource 5 3
      = some (true, { tenTuples with m_Array := some [0, 1, 2, 3, 4, 105, 106, 107, 8, 9] }) ∧
    ((∀ k, k < 3 → ∀ j, j < tenTuples.getNumberOfComponents →
      ∃ v, ({ tenTuples with m_Array := some [0, 1, 2, 3, 4, 105, 106, 107, 8, 9] } :
              EbsdDataArray Int).getValue ((5 + k) * tenTuples.getNumberOfComponents + j)
            = some v ∧
        tenSource.getValue ((5 + k) * tenTuples.getNumberOfComponents + j) = some v) ∧
     (∀ i, (i < 5 * tenTuples.getNumberOfComponents ∨
        (5 + 3) * tenTuples.getNumberOfComponents ≤ i) →
      ({ tenTuples with m_Array := some [0, 1, 2, 3, 4, 105, 106, 107, 8, 9] } :
          EbsdDataArray Int).getValue i = tenTuples.getValue i)) :=
  ⟨by decide, copyFromArray_exact tenTuples tenSource _ 5 5 3 (by decide)⟩

/-! ## The size invariant and the STL-style modifiers -/

/-- Claim C1 fails on the code. The five-scalar array `sampleScalars` satisfies
`getSize() == getNumberOfTuples() * getNumberOfComponents()`; after each of
`eraseTuples({1, 3})`, `push_back(9)`, `pop_back()` and `assign({1, 2, 3})` the element
count has changed while `getNumberOfTuples()` still answers `5`. -/
theorem size_invariant_broken :
    sampleScalars.getSize = sampleScalars.getNumberOfTuples * sampleScalars.getNumberOfComponents ∧
    (sampleScalars.eraseTuples [1, 3]).map
        (fun r => (r.1, r.2.getSize, r.2.getNumberOfTuples * r.2.getNumberOfComponents))
      = some (0, 3, 5) ∧
    (sampleScalars.push_back 9).map
        (fun s' => (s'.getSize, s'.getNumberOfTuples * s'.getNumberOfComponents))
      = some (6, 5) ∧
    sampleScalars.pop_back.map
        (fun s' => (s'.getSize, s'.getNumberOfTuples * s'.getNumberOfComponents))
      = some (4, 5) ∧
    (sampleScalars.assign [1, 2, 3]).map
        (fun s' => (s'.getSize, s'.getNumberOfTuples * s'.getNumberOfComponents))
      = some (3, 5) := by
  decide

theorem initializeWithValue_fields (t s' : EbsdDataArray T) (v : T) (off : Nat)
    (h : t.initializeWithValue v off = some s') :
    s'.m_Size = t.m_Size ∧ s'.m_NumTuples = t.m_NumTuples ∧
      s'.m_NumComponents = t.m_NumComponents ∧ (t.m_Array.isSome → s'.m_Array.isSome) := by
  unfold initializeWithValue at h
  split at h
  · cases h; exact ⟨rfl, rfl, rfl, id⟩
  · split at h
    · cases h; exact ⟨rfl, rfl, rfl, id⟩
    · split at h
      · cases h; exact ⟨rfl, rfl, rfl, fun _ => rfl⟩
      · cases h

theorem resizeAndExtend_cases [ElementType T] (s s1 : EbsdDataArray T) (size : Nat)
    (h : s.resizeAndExtend size = some s1) :
    s1.m_NumComponents = s.m_NumComponents ∧
    ((size = s.m_Size ∧ s1 = s) ∨ (size = 0 ∧ s1 = s.clear) ∨
      (s1.m_Size = size ∧ s1.m_Array.isSome = true)) := by
  unfold resizeAndExtend at h
  by_cases h1 : size = s.m_Size
  · rw [if_pos h1] at h
    cases h
    exact ⟨rfl, Or.inl ⟨h1, rfl⟩⟩
  · rw [if_neg h1] at h
    by_cases h0 : size = 0
    · rw [if_pos h0] at h
      cases h
      refine ⟨?_, Or.inr (Or.inl ⟨h0, rfl⟩)⟩
      unfold clear deallocate
      dsimp only
      split <;> rfl
    · rw [if_neg h0] at h
      cases hn : newArray T size with
      | none => rw [hn] at h; cases h
      | some fresh =>
        rw [hn] at h
        dsimp only at h
        generalize hc : (match s.m_Array with
          | some old => memcpy fresh 0 old 0 (if size < s.m_Size then size else s.m_Size)
          | none => some fresh) = copied at h
        cases copied with
        | none => cases h
        | some block =>
          dsimp only at h
          have hcomp : (if (s.m_Array.isSome && s.m_OwnsData) = true then s.deallocate
              else s).m_NumComponents = s.m_NumComponents := by
            split <;> rfl
          by_cases hgt : size > s.m_Size
          · rw [if_pos hgt] at h
            obtain ⟨e1, _, e3, e4⟩ := initializeWithValue_fields _ _ _ _ h
            exact ⟨by rw [e3]; exact hcomp, Or.inr (Or.inr ⟨e1, e4 rfl⟩)⟩
          · rw [if_neg hgt] at h
            cases h
            exact ⟨hcomp, Or.inr (Or.inr ⟨rfl, rfl⟩)⟩

/-- The other mutators named with the size invariant keep it: from a state with
`getSize() == getNumberOfTuples() * getNumberOfComponents()`, every state returned by
`resizeTuples`, `clear`, `setValue`, `setComponent`, `setTuple`, `copyTuple`, `copyFromArray`
or `initializeWithValue` satisfies it again. -/
theorem size_invariant_kept [ElementType T] (s : EbsdDataArray T)
    (hinv : s.getSize = s.getNumberOfTuples * s.getNumberOfComponents) :
    (∀ m s', s.resizeTuples m = some s' →
      s'.getSize = s'.getNumberOfTuples * s'.getNumberOfComponents) ∧
    s.clear.getSize = s.clear.getNumberOfTuples * s.clear.getNumberOfComponents ∧
    (∀ i v s', s.setValue i v = some s' →
      s'.getSize = s'.getNumberOfTuples * s'.getNumberOfComponents) ∧
    (∀ i j v s', s.setComponent i j v = some s' →
      s'.getSize = s'.getNumberOfTuples * s'.getNumberOfComponents) ∧
    (∀ i data s', s.setTuple i data = some s' →
      s'.getSize = s'.getNumberOfTuples * s'.getNumberOfComponents) ∧
    (∀ a b r s', s.copyTuple a b = some (r, s') →
      s'.getSize = s'.getNumberOfTuples * s'.getNumberOfComponents) ∧
    (∀ dOff src sOff total r s', s.copyFromArray dOff src sOff total = some (r, s') →
      s'.getSize = s'.getNumberOfTuples * s'.getNumberOfComponents) ∧
    (∀ v off s', s.initializeWithValue v off = some s' →
      s'.getSize = s'.getNumberOfTuples * s'.getNumberOfComponents) := by
  simp only [getSize, getNumberOfTuples, getNumberOfComponents] at hinv ⊢
  refine ⟨?_, ?_, ?_, ?_, ?_, ?_, ?_, ?_⟩
  · intro m s' h
    unfold resizeTuples at h
    cases hr : s.resizeAndExtend (m * s.m_NumComponents) with
    | none => rw [hr] at h; cases h
    | some s1 =>
      rw [hr] at h
      dsimp only at h
      obtain ⟨hc, hcase⟩ := resizeAndExtend_cases s s1 _ hr
      rcases hcase with ⟨hsz, hs1⟩ | ⟨h0, hs1⟩ | ⟨hsz, hsome⟩
      · subst hs1
        split at h
        · cases h; dsimp only; exact hsz.symm
        · cases h; exact hinv
      · subst hs1
        have : s.clear.m_Array.isSome = false := rfl
        rw [this] at h
        cases h
        simp [clear]
      · rw [hsome] at h
        cases h
        dsimp only
        rw [hsz, hc]
  · simp [clear]
  · intro i v s' h
    unfold setValue at h
    split at h
    · cases h
    · split at h
      · cases h; exact hinv
      · cases h
  · intro i j v s' h
    unfold setComponent at h
    split at h
    · cases h
    · split at h
      · cases h; exact hinv
      · cases h
  · intro i data s' h
    unfold setTuple at h
    split at h
    · cases h
    · split at h
      · cases h; exact hinv
      · cases h
  · intro a b r s' h
    unfold copyTuple at h
    split at h
    · cases h
    · dsimp only at h
      split at h
      · cases h; exact hinv
      · split at h
        · cases h
        · split at h
          · cases h; exact hinv
          · cases h
  · intro dOff src sOff total r s' h
    unfold copyFromArray at h
    split at h
    · cases h; exact hinv
    · split at h
      · cases h; exact hinv
      · split at h
        · cases h; exact hinv
        · split at h
          · cases h; exact hinv
          · split at h
            · cases h; exact hinv
            · split at h
              · cases h; exact hinv
              · split at h
                · cases h; exact hinv
                · split at h
                  · cases h; exact hinv
                  · dsimp only at h
                    split at h
                    · cases h; exact hinv
                    · cases h
  · intro v off s' h
    obtain ⟨e1, e2, e3, _⟩ := initializeWithValue_fields s s' v off h
    rw [e1, e2, e3]
    exact hinv

/-- Claim C6 fails on the code. `assign({1, 2, 3})` on a default-constructed array gives an
array of three elements whose contents are `3, 0, 0`: every value of the range is written
to element `0`, and elements `1` and `2` keep the init value. -/
theorem assign_writes_first_element_only :
    (emptyArray.assign [1, 2, 3]).map
        (fun s' => (s'.getSize, s'.m_Array, s'.getValue 0, s'.getValue 1, s'.getValue 2))
      = some (3, some [3, 0, 0], some 3, some 0, some 0) ∧
    (emptyArray.assignList [1, 2, 3]).map (fun s' => s'.m_Array) = some (some [3, 0, 0]) := by
  decide

end EbsdDataArray

/-! ## Cubic-low: `getMDFFZRod` -/

namespace CubicLowOps

/-- Claim C7 fails as stated. For the axis-angle `(0, 0, 1, 1/2)` the axis that
`getMDFFZRod` reassembles is `(1, 0, 0)`: its first component is larger than its second, so
the components are not in ascending order. -/
theorem getMDFFZRod_not_ascending :
    getMDFFZRod_axisAngle (0, 0, 1, 1 / 2) = (1, 0, 0, 1 / 2) ∧
    ¬ ((getMDFFZRod_axisAngle (0, 0, 1, 1 / 2)).1 ≤ (getMDFFZRod_axisAngle (0, 0, 1, 1 / 2)).2.1) := by
  have h : getMDFFZRod_axisAngle (0, 0, 1, 1 / 2) = (1, 0, 0, 1 / 2) := by
    simp [getMDFFZRod_axisAngle]
  refine ⟨h, ?_⟩
  rw [h]
  norm_num

/-- Claim C7 as amended. For every axis-angle `(n1, n2, n3, w)` the axis that `getMDFFZRod`
reassembles and hands to `ax2ro` consists of `|n1|`, `|n2|`, `|n3|` sorted in descending
order: first `>=` second `>=` third. -/
theorem getMDFFZRod_axis_descending (n1 n2 n3 w : ℚ) :
    [(getMDFFZRod_axisAngle (n1, n2, n3, w)).1, (getMDFFZRod_axisAngle (n1, n2, n3, w)).2.1,
        (getMDFFZRod_axisAngle (n1, n2, n3, w)).2.2.1].Perm [|n1|, |n2|, |n3|] ∧
    (getMDFFZRod_axisAngle (n1, n2, n3, w)).1 ≥ (getMDFFZRod_axisAngle (n1, n2, n3, w)).2.1 ∧
    (getMDFFZRod_axisAngle (n1, n2, n3, w)).2.1 ≥ (getMDFFZRod_axisAngle (n1, n2, n3, w)).2.2.1 := by
  unfold getMDFFZRod_axisAngle
  simp only
  by_cases h12 : |n1| > |n2|
  · by_cases h13 : |n1| > |n3|
    · by_cases h23 : |n2| > |n3|
      · simp only [h12, h13, h23, if_true]
        exact ⟨List.Perm.refl _, le_of_lt h12, le_of_lt h23⟩
      · simp only [h12, h13, h23, if_true, if_false]
        exact ⟨(List.Perm.swap _ _ _).cons _ |>.trans (List.Perm.refl _), le_of_lt h13,
          not_lt.mp h23⟩
    · simp only [h12, h13, if_true, if_false]
      refine ⟨?_, not_lt.mp h13, le_of_lt h12⟩
      exact (List.perm_append_comm : ([|n3|] ++ [|n1|, |n2|]).Perm ([|n1|, |n2|] ++ [|n3|]))
  · by_cases h23 : |n2| > |n3|
    · by_cases h13 : |n1| > |n3|
      · simp only [h12, h13, h23, if_true, if_false]
        exact ⟨List.Perm.swap _ _ _, not_lt.mp h12, le_of_lt h13⟩
      · simp only [h12, h13, h23, if_true, if_false]
        refine ⟨?_, le_of_lt h23, not_lt.mp h13⟩
        exact ((List.Perm.swap _ _ _).cons _).trans (List.Perm.swap _ _ _) |>.symm |>.symm
    · simp only [h12, h23, if_false]
      refine ⟨?_, not_lt.mp h23, not_lt.mp h12⟩
      exact (List.reverse_perm [|n1|, |n2|, |n3|])

/-! ## Cubic-low: the symmetry tables -/

/-- Claim C8 fails as stated. The matrix `CubicLowMatSym[4]` is not the rotation matrix of the
quaternion `QuatSym[4] = (1/2, 1/2, 1/2, 1/2)`, neither by the formula `qu2om` nor by its
transpose (the other handedness convention). -/
theorem matSym_quatSym_index_mismatch :
    getMatSymOp 4 = some [[0, -1, 0], [0, 0, 1], [-1, 0, 0]] ∧
    (getQuatSymOp 4).map qu2om = some [[0, 0, 1], [1, 0, 0], [0, 1, 0]] ∧
    (getQuatSymOp 4).map (fun q => Transpose3x3 (qu2om q)) = some [[0, 1, 0], [0, 0, 1], [1, 0, 0]] ∧
    getMatSymOp 4 ≠ (getQuatSymOp 4).map qu2om ∧
    getMatSymOp 4 ≠ (getQuatSymOp 4).map (fun q => Transpose3x3 (qu2om q)) := by
  have h1 : getMatSymOp 4 = some [[0, -1, 0], [0, 0, 1], [-1, 0, 0]] := by
    simp [getMatSymOp, CubicLow.CubicLowMatSym, entry]
  have h2 : (getQuatSymOp 4).map qu2om = some [[0, 0, 1], [1, 0, 0], [0, 1, 0]] := by
    simp [getQuatSymOp, CubicLow.QuatSym, qu2om]
    norm_num
  have h3 : (getQuatSymOp 4).map (fun q => Transpose3x3 (qu2om q))
      = some [[0, 1, 0], [0, 0, 1], [1, 0, 0]] := by
    simp [getQuatSymOp, CubicLow.QuatSym, qu2om, Transpose3x3, entry]
    norm_num
  refine ⟨h1, h2, h3, ?_, ?_⟩
  · rw [h1, h2]; decide
  · rw [h1, h3]; decide

/-- Claim C8 as amended. The matrix table holds the rotation matrices of the quaternion table
in another order: for every `i` in `0..11`, `CubicLowMatSym[i]` is the rotation matrix of
`QuatSym[j]` for the `j` found at position `i` of `0, 1, 2, 3, 8, 7, 6, 10, 11, 9, 5, 4`
(of `0, 1, 2, 3, 9, 6, 7, 11, 10, 8, 4, 5` when the transposed matrix is taken); for the
identity and the three two-fold operators, `i` in `0..3`, that `j` is `i` itself. -/
theorem matSym_is_quatSym_permuted (i : Fin 12) :
    getMatSymOp i
      = (getQuatSymOp (([0, 1, 2, 3, 8, 7, 6, 10, 11, 9, 5, 4] : List Nat).getD i 0)).map qu2om ∧
    getMatSymOp i
      = (getQuatSymOp (([0, 1, 2, 3, 9, 6, 7, 11, 10, 8, 4, 5] : List Nat).getD i 0)).map
          (fun q => Transpose3x3 (qu2om q)) ∧
    (i.val < 4 → ([0, 1, 2, 3, 8, 7, 6, 10, 11, 9, 5, 4] : List Nat).getD i 0 = i.val ∧
      ([0, 1, 2, 3, 9, 6, 7, 11, 10, 8, 4, 5] : List Nat).getD i 0 = i.val) ∧
    (getMatSymOp i).isSome = true := by
  fin_cases i <;>
    simp [getMatSymOp, getQuatSymOp, CubicLow.CubicLowMatSym, CubicLow.QuatSym, qu2om,
      Transpose3x3, entry] <;>
    norm_num

/-- Claim C9. For every `i` in `0..11` with `QuatSym[i] = (x, y, z, w)`, `RodSym[i]` equals
`(x/w, y/w, z/w)` when `w != 0` and `1e10 * (x, y, z)` when `w == 0`; no entry of `RodSym`
exceeds the finite sentinel `1e10` in magnitude. -/
theorem rodSym_matches_quatSym (i : Fin 12) :
    ∃ q r, getQuatSymOp i = some q ∧ getRodSymOp i = some r ∧
      (q.w ≠ 0 → r = [q.x / q.w, q.y / q.w, q.z / q.w]) ∧
      (q.w = 0 → r = [10000000000 * q.x, 10000000000 * q.y, 10000000000 * q.z]) ∧
      (∀ v ∈ r, |v| ≤ 10000000000) := by
  fin_cases i <;>
    simp [getQuatSymOp, getRodSymOp, CubicLow.QuatSym, CubicLow.RodSym]

end CubicLowOps

/-! ## Cubic-low: sphere coordinates -/

namespace CubicLow

/-- Claim C10 fails on the code. For one orientation, whatever its Euler angles and whatever
matrix `eu2om` gives, `generate` writes 6, 12 and 8 points, but the twelve `<011>` points are
not pairwise distinct: point `7` equals point `0` and point `6` equals point `1`, because the
fourth direction `(-1, -1, 0)/sqrt 2` is the antipode of the first, `(1, 1, 0)/sqrt 2`. -/
theorem generate_011_points_repeat (eu2om : List ℚ → List (List ℚ)) (e0 e1 e2 : ℚ) :
    ∃ out, generate eu2om [e0, e1, e2]
        ⟨List.replicate (3 * symSize0) 0, List.replicate (3 * symSize1) 0,
         List.replicate (3 * symSize2) 0⟩ 0 1 = some out ∧
      out.xyz001.length = 3 * 6 ∧ out.xyz011.length = 3 * 12 ∧ out.xyz111.length = 3 * 8 ∧
      spherePoint out.xyz011 36 0 7 = spherePoint out.xyz011 36 0 0 ∧
      spherePoint out.xyz011 36 0 6 = spherePoint out.xyz011 36 0 1 := by
  simp [generate, generateOne, writeFamily, writeDirection, directions001, directions011,
    directions111, Multiply3x3with3x1, Copy3x1, Multiply3x1withConstant, memcpy, spherePoint,
    symSize0, symSize1, symSize2, List.replicate]
  refine ⟨⟨?_, ?_, ?_⟩, ⟨?_, ?_, ?_⟩⟩ <;> ring

end CubicLow

/-! ## Cubic-low: bin indices, colours, stubs -/

theorem toInt32_of_lt {n : Nat} (h : n < 2 ^ 31) : toInt32 n = (n : Int) := by
  unfold toInt32
  have h1 : n % 2 ^ 32 = n := Nat.mod_eq_of_lt (by omega)
  rw [h1, if_pos h]

/-- Claim C15. For a bin index `b` with `0 ≤ b < 46656 = getODFSize() = 36 * 36 * 36` (the product
of `getOdfNumBins()`), the three indices that `determineEulerAngles` and
`determineRodriguesVector` compute are `b mod 36`, `(b div 36) mod 36` and `b div 1296`,
each lies in `[0, 36)`, and they flatten row-major back to `b`. -/
theorem CubicLowOps.binIndices_spec (b : Int) (h0 : 0 ≤ b) (hb : b < CubicLowOps.getODFSize) :
    CubicLowOps.getODFSize = 36 * 36 * 36 ∧
    ((CubicLowOps.getOdfNumBins.prod : Nat) : Int) = CubicLowOps.getODFSize ∧
    ∃ phi0 phi1 phi2 : Int, CubicLowOps.binIndices b = [phi0, phi1, phi2] ∧
      phi0 = b % 36 ∧ phi1 = (b / 36) % 36 ∧ phi2 = b / 1296 ∧
      (0 ≤ phi0 ∧ phi0 < 36) ∧ (0 ≤ phi1 ∧ phi1 < 36) ∧ (0 ≤ phi2 ∧ phi2 < 36) ∧
      phi0 + phi1 * 36 + phi2 * 36 * 36 = b := by
  have hsize : CubicLowOps.getODFSize = 46656 := rfl
  rw [hsize] at hb
  obtain ⟨n, rfl⟩ := Int.eq_ofNat_of_zero_le h0
  have hn : n < 46656 := by exact_mod_cast hb
  have hcast : toSizeT (n : Int) = n := by
    unfold toSizeT
    have : ((n : Int) % 2 ^ 64) = (n : Int) := Int.emod_eq_of_lt (by omega) (by omega)
    rw [this]
    simp
  refine ⟨by rw [hsize]; norm_num, by rw [hsize]; decide, ?_⟩
  refine ⟨_, _, _, rfl, ?_⟩
  rw [hcast]
  have e0 : CubicLow.OdfNumBins.getD 0 0 = 36 := rfl
  have e1 : CubicLow.OdfNumBins.getD 1 0 = 36 := rfl
  rw [e0, e1]
  rw [toInt32_of_lt (n := n % 36) (by omega), toInt32_of_lt (n := n / 36 % 36) (by omega),
    toInt32_of_lt (n := n / (36 * 36)) (by omega)]
  push_cast
  omega

/-- Claim C15 at the bin index `2000`, whose indices are `20`, `19` and `1`. -/
theorem CubicLowOps.binIndices_spec_witness :
    (0 : Int) ≤ 2000 ∧ (2000 : Int) < CubicLowOps.getODFSize ∧
    ∃ phi0 phi1 phi2 : Int, CubicLowOps.binIndices 2000 = [phi0, phi1, phi2] ∧
      phi0 = 2000 % 36 ∧ phi1 = (2000 / 36) % 36 ∧ phi2 = 2000 / 1296 ∧
      (0 ≤ phi0 ∧ phi0 < 36) ∧ (0 ≤ phi1 ∧ phi1 < 36) ∧ (0 ≤ phi2 ∧ phi2 < 36) ∧
      phi0 + phi1 * 36 + phi2 * 36 * 36 = 2000 :=
  ⟨by decide, by decide,
    (CubicLowOps.binIndices_spec 2000 (by decide) (by decide)).2.2⟩

/-- Claim C13 fails as stated. The operation `getmPrime` returns normally with the value `0` and reports no
failure; the same holds for the load-only `getSchmidFactorAndSS`. -/
theorem CubicLowOps.stub_returns_zero_counterexample :
    CubicLowOps.getmPrime ⟨0, 0, 0, 1⟩ ⟨0, 0, 0, 1⟩ [0, 0, 1] = Except.ok 0 ∧
    CubicLowOps.getSchmidFactorAndSS_load [0, 0, 1] = Except.ok ⟨0, 0, 0, 0⟩ := by
  exact ⟨rfl, rfl⟩

/-- Claim C13 as amended. Of the operations the cubic-low class does not implement, only
`generateMisorientationColor` reports a failure (it throws "NOT Implemented" for every
input); the load-only `getSchmidFactorAndSS` returns normally with all outputs `0`, and
`getmPrime`, `getF1`, `getF1spt` and `getF7` return normally with the value `0`, for every
input. -/
theorem CubicLowOps.unimplemented_operations (Rgb : Type) (load LD : List ℚ)
    (q1 q2 : QuatType) (maxSF : Bool) :
    CubicLowOps.getSchmidFactorAndSS_load load = Except.ok ⟨0, 0, 0, 0⟩ ∧
    CubicLowOps.getmPrime q1 q2 LD = Except.ok 0 ∧
    CubicLowOps.getF1 q1 q2 LD maxSF = Except.ok 0 ∧
    CubicLowOps.getF1spt q1 q2 LD maxSF = Except.ok 0 ∧
    CubicLowOps.getF7 q1 q2 LD maxSF = Except.ok 0 ∧
    (CubicLowOps.generateMisorientationColor q1 q2 : Except String Rgb)
      = Except.error "generateMisorientationColor::generateMisorientationColor NOT Implemented" :=
  ⟨rfl, rfl, rfl, rfl, rfl, rfl⟩

/-- Claim C12 fails on the code. At the Rodrigues vector whose three components equal the half-width
`OdfDimInitValue[k]` (inside the stated range), each channel value that
`generateRodriguesColor` hands to the packer is `255 / OdfDimInitValue[0]`, about `338.3`,
which is above `255`: the second division "Scale values from 0 to 1.0" takes the
already normalised value out of `[0, 1]`. -/
theorem CubicLowOps.generateRodriguesColor_above_255 :
    |(6788449337806049 / 9007199254740992 : ℚ)| ≤ CubicLow.OdfDimInitValue.getD 0 0 ∧
    CubicLowOps.generateRodriguesColor_channels (6788449337806049 / 9007199254740992)
        (6788449337806049 / 9007199254740992) (6788449337806049 / 9007199254740992)
      = (255 * 9007199254740992 / 6788449337806049, 255 * 9007199254740992 / 6788449337806049,
         255 * 9007199254740992 / 6788449337806049) ∧
    (255 : ℚ) < 255 * 9007199254740992 / 6788449337806049 := by
  refine ⟨?_, ?_, ?_⟩
  · simp only [CubicLow.OdfDimInitValue, List.getD_cons_zero]
    rw [abs_of_nonneg (by norm_num)]
  · simp only [CubicLowOps.generateRodriguesColor_channels, CubicLow.OdfDimInitValue,
      List.getD_cons_zero, List.getD_cons_succ]
    norm_num
  · norm_num

/-! ## Sphere coordinates: the elements `generate` writes -/

theorem memcpy_frame {T : Type} (dest : List T) (dOff : Nat) (src : List T) (sOff count : Nat)
    (hd : dOff + count ≤ dest.length) (hs : sOff + count ≤ src.length) :
    ∃ out, memcpy dest dOff src sOff count = some out ∧ out.length = dest.length ∧
      ∀ j, (j < dOff ∨ dOff + count ≤ j) → out[j]? = dest[j]? := by
  refine ⟨_, memcpy_eq_some dest dOff src sOff count hd hs, ?_, ?_⟩
  · exact memcpy_length (memcpy_eq_some dest dOff src sOff count hd hs)
  · intro j hj
    rw [EbsdDataArray.memcpy_getElem? (memcpy_eq_some dest dOff src sOff count hd hs) j]
    rw [if_neg (by omega)]

namespace CubicLow

theorem writeDirection_frame (g : List (List ℚ)) (d out : List ℚ) (off : Nat)
    (h : off + 6 ≤ out.length) :
    ∃ out1, writeDirection g d out off = some out1 ∧ out1.length = out.length ∧
      ∀ j, (j < off ∨ off + 6 ≤ j) → out1[j]? = out[j]? := by
  obtain ⟨a, ha, hla, hfa⟩ := memcpy_frame out off
    [entry g 0 0 * d.getD 0 0 + entry g 0 1 * d.getD 1 0 + entry g 0 2 * d.getD 2 0,
     entry g 1 0 * d.getD 0 0 + entry g 1 1 * d.getD 1 0 + entry g 1 2 * d.getD 2 0,
     entry g 2 0 * d.getD 0 0 + entry g 2 1 * d.getD 1 0 + entry g 2 2 * d.getD 2 0] 0 3
    (by omega) (by simp)
  obtain ⟨b, hb, hlb, hfb⟩ := memcpy_frame a (off + 3) a off 3 (by omega) (by omega)
  obtain ⟨c, hc, hlc, hfc⟩ := memcpy_frame b (off + 3)
    [b.getD (off + 3) 0 * (-1), b.getD (off + 3 + 1) 0 * (-1), b.getD (off + 3 + 2) 0 * (-1)]
    0 3 (by omega) (by simp)
  refine ⟨c, ?_, by omega, ?_⟩
  · have h3 : off + 3 + 3 ≤ b.length := by omega
    simp only [writeDirection, Multiply3x3with3x1, Copy3x1, Multiply3x1withConstant, ha, hb,
      if_pos h3, hc]
  · intro j hj
    rw [hfc j (by omega), hfb j (by omega), hfa j (by omega)]

theorem writeFamily_frame (g : List (List ℚ)) (dirs : List (List ℚ)) :
    ∀ (out : List ℚ) (base : Nat), base + 6 * dirs.length ≤ out.length →
    ∃ out1, writeFamily g dirs out base = some out1 ∧ out1.length = out.length ∧
      ∀ j, (j < base ∨ base + 6 * dirs.length ≤ j) → out1[j]? = out[j]? := by
  induction dirs with
  | nil =>
    intro out base _
    exact ⟨out, rfl, rfl, fun _ _ => rfl⟩
  | cons d rest ih =>
    intro out base h
    simp only [List.length_cons] at h ⊢
    obtain ⟨a, ha, hla, hfa⟩ := writeDirection_frame g d out base (by omega)
    obtain ⟨b, hb, hlb, hfb⟩ := ih a (base + 6) (by omega)
    refine ⟨b, ?_, by omega, ?_⟩
    · simp only [writeFamily, ha, hb]
    · intro j hj
      rw [hfb j (by omega), hfa j (by omega)]

theorem directions001_length : directions001.length = 3 := rfl

theorem directions011_length : directions011.length = 6 := rfl

theorem directions111_length : directions111.length = 4 := rfl

theorem generateOne_frame (eu2om : List ℚ → List (List ℚ)) (eulers : List ℚ)
    (out : SphereCoords) (i : Nat) (he : 3 * (i + 1) ≤ eulers.length)
    (h1 : 18 * (i + 1) ≤ out.xyz001.length) (h2 : 36 * (i + 1) ≤ out.xyz011.length)
    (h3 : 24 * (i + 1) ≤ out.xyz111.length) :
    ∃ out1, generateOne eu2om eulers out i = some out1 ∧ SameOutside out out1 i (i + 1) := by
  have he0 : eulers[i * 3]? = some (eulers[i * 3]) := List.getElem?_eq_getElem (by omega)
  have he1 : eulers[i * 3 + 1]? = some (eulers[i * 3 + 1]) := List.getElem?_eq_getElem (by omega)
  have he2 : eulers[i * 3 + 2]? = some (eulers[i * 3 + 2]) := List.getElem?_eq_getElem (by omega)
  obtain ⟨a, ha, hla, hfa⟩ := writeFamily_frame
    (Transpose3x3 (eu2om [eulers[i * 3], eulers[i * 3 + 1], eulers[i * 3 + 2]]))
    directions001 out.xyz001 (i * 18) (by rw [directions001_length]; omega)
  obtain ⟨b, hb, hlb, hfb⟩ := writeFamily_frame
    (Transpose3x3 (eu2om [eulers[i * 3], eulers[i * 3 + 1], eulers[i * 3 + 2]]))
    directions011 out.xyz011 (i * 36) (by rw [directions011_length]; omega)
  obtain ⟨c, hc, hlc, hfc⟩ := writeFamily_frame
    (Transpose3x3 (eu2om [eulers[i * 3], eulers[i * 3 + 1], eulers[i * 3 + 2]]))
    directions111 out.xyz111 (i * 24) (by rw [directions111_length]; omega)
  refine ⟨⟨a, b, c⟩, ?_, ⟨hla, hlb, hlc⟩, ?_, ?_, ?_⟩
  · simp only [generateOne, he0, he1, he2, ha, hb, hc]
  · intro j hj
    exact hfa j (by rw [directions001_length]; omega)
  · intro j hj
    exact hfb j (by rw [directions011_length]; omega)
  · intro j hj
    exact hfc j (by rw [directions111_length]; omega)

theorem generate_frame (eu2om : List ℚ → List (List ℚ)) (eulers : List ℚ) :
    ∀ (m start : Nat) (out : SphereCoords), 3 * (start + m) ≤ eulers.length →
      18 * (start + m) ≤ out.xyz001.length → 36 * (start + m) ≤ out.xyz011.length →
      24 * (start + m) ≤ out.xyz111.length →
      ∃ out1, generate eu2om eulers out start (start + m) = some out1
        ∧ SameOutside out out1 start (start + m) := by
  intro m
  induction m with
  | zero =>
    intro start out _ _ _ _
    refine ⟨out, ?_, ⟨rfl, rfl, rfl⟩, fun _ _ => rfl, fun _ _ => rfl, fun _ _ => rfl⟩
    simp [generate]
  | succ m ih =>
    intro start out he h1 h2 h3
    obtain ⟨a, ha, ⟨hla1, hla2, hla3⟩, hfa1, hfa2, hfa3⟩ :=
      generateOne_frame eu2om eulers out start (by omega) (by omega) (by omega) (by omega)
    obtain ⟨b, hb, ⟨hlb1, hlb2, hlb3⟩, hfb1, hfb2, hfb3⟩ :=
      ih (start + 1) a (by omega) (by omega) (by omega) (by omega)
    refine ⟨b, ?_, ⟨by omega, by omega, by omega⟩, ?_, ?_, ?_⟩
    · have e1 : start + (m + 1) - start = m + 1 := by omega
      have e2 : start + 1 + m - (start + 1) = m := by omega
      unfold generate at hb ⊢
      rw [e1, List.range'_succ, List.foldlM_cons, ha]
      rw [e2] at hb
      exact hb
    · intro j hj
      rw [hfb1 j (by omega), hfa1 j (by omega)]
    · intro j hj
      rw [hfb2 j (by omega), hfa2 j (by omega)]
    · intro j hj
      rw [hfb3 j (by omega), hfa3 j (by omega)]

end CubicLow

/-- Claim C19. With `n` orientations (`3 n` Euler angles) and output arrays of `n * 6`, `n * 12`
and `n * 8` three-component tuples, `generate(start, end)` for `start ≤ end ≤ n` completes
with every access inside the arrays (the written ranges end at `18 end`, `36 end`, `24 end`,
inside the arrays), keeps the lengths, and changes no element outside `[18 start, 18 end)` of
`xyz001`, `[36 start, 36 end)` of `xyz011` and `[24 start, 24 end)` of `xyz111`; a further
call on an index range disjoint from `[start, end)` completes as well and leaves every
element of those three ranges as the first call wrote it. -/
theorem CubicLow.generate_writes_own_slice (eu2om : List ℚ → List (List ℚ)) (eulers : List ℚ)
    (out : CubicLow.SphereCoords) (n start stop : Nat) (he : eulers.length = n * 3)
    (h1 : out.xyz001.length = n * CubicLow.symSize0 * 3)
    (h2 : out.xyz011.length = n * CubicLow.symSize1 * 3)
    (h3 : out.xyz111.length = n * CubicLow.symSize2 * 3)
    (hs : start ≤ stop) (hn : stop ≤ n) :
    (18 * stop ≤ out.xyz001.length ∧ 36 * stop ≤ out.xyz011.length
      ∧ 24 * stop ≤ out.xyz111.length) ∧
    ∃ out1, CubicLow.generate eu2om eulers out start stop = some out1 ∧
      CubicLow.SameOutside out out1 start stop ∧
      ∀ start2 stop2, start2 ≤ stop2 → stop2 ≤ n → (stop2 ≤ start ∨ stop ≤ start2) →
        ∃ out2, CubicLow.generate eu2om eulers out1 start2 stop2 = some out2 ∧
          CubicLow.SameOutside out1 out2 start2 stop2 ∧
          (∀ j, 18 * start ≤ j → j < 18 * stop → out2.xyz001[j]? = out1.xyz001[j]?) ∧
          (∀ j, 36 * start ≤ j → j < 36 * stop → out2.xyz011[j]? = out1.xyz011[j]?) ∧
          (∀ j, 24 * start ≤ j → j < 24 * stop → out2.xyz111[j]? = out1.xyz111[j]?) := by
  have e0 : CubicLow.symSize0 = 6 := rfl
  have e1 : CubicLow.symSize1 = 12 := rfl
  have e2 : CubicLow.symSize2 = 8 := rfl
  rw [e0] at h1
  rw [e1] at h2
  rw [e2] at h3
  refine ⟨⟨by omega, by omega, by omega⟩, ?_⟩
  obtain ⟨m, rfl⟩ := Nat.exists_eq_add_of_le hs
  obtain ⟨a, ha, hsa⟩ := CubicLow.generate_frame eu2om eulers m start out (by omega) (by omega)
    (by omega) (by omega)
  refine ⟨a, ha, hsa, ?_⟩
  intro start2 stop2 hs2 hn2 hdis
  obtain ⟨m2, rfl⟩ := Nat.exists_eq_add_of_le hs2
  obtain ⟨⟨hl1, hl2, hl3⟩, -, -, -⟩ := hsa
  obtain ⟨b, hb, hsb⟩ := CubicLow.generate_frame eu2om eulers m2 start2 a (by omega) (by omega)
    (by omega) (by omega)
  refine ⟨b, hb, hsb, ?_, ?_, ?_⟩
  · intro j hj1 hj2
    exact hsb.2.1 j (by omega)
  · intro j hj1 hj2
    exact hsb.2.2.1 j (by omega)
  · intro j hj1 hj2
    exact hsb.2.2.2 j (by omega)

/-- Claim C19 for two orientations and the first of them: a call for `[0, 1)` followed by a
call for `[1, 2)`. -/
theorem CubicLow.generate_writes_own_slice_witness :
    (18 * 1 ≤ CubicLow.twoOrientations.xyz001.length
      ∧ 36 * 1 ≤ CubicLow.twoOrientations.xyz011.length
      ∧ 24 * 1 ≤ CubicLow.twoOrientations.xyz111.length) ∧
    ∃ out1, CubicLow.generate CubicLow.identityOm [0, 0, 0, 1, 0, 0] CubicLow.twoOrientations
        0 1 = some out1 ∧
      CubicLow.SameOutside CubicLow.twoOrientations out1 0 1 ∧
      ∀ start2 stop2, start2 ≤ stop2 → stop2 ≤ 2 → (stop2 ≤ 0 ∨ 1 ≤ start2) →
        ∃ out2, CubicLow.generate CubicLow.identityOm [0, 0, 0, 1, 0, 0] out1 start2 stop2
            = some out2 ∧
          CubicLow.SameOutside out1 out2 start2 stop2 ∧
          (∀ j, 18 * 0 ≤ j → j < 18 * 1 → out2.xyz001[j]? = out1.xyz001[j]?) ∧
          (∀ j, 36 * 0 ≤ j → j < 36 * 1 → out2.xyz011[j]? = out1.xyz011[j]?) ∧
          (∀ j, 24 * 0 ≤ j → j < 24 * 1 → out2.xyz111[j]? = out1.xyz111[j]?) :=
  CubicLow.generate_writes_own_slice CubicLow.identityOm [0, 0, 0, 1, 0, 0]
    CubicLow.twoOrientations 2 0 1 (by decide) (by decide) (by decide) (by decide) (by decide)
    (by decide)

/-! ## Pole figures: scale and order of the images -/

namespace CubicLowOps

theorem scanMaxMin_max_ge (dPtr : List ℚ) : ∀ mm : ℚ × ℚ, mm.1 ≤ (scanMaxMin dPtr mm).1 := by
  induction dPtr with
  | nil => intro mm; exact le_refl _
  | cons v rest ih =>
    intro mm
    unfold scanMaxMin at ih ⊢
    rw [List.foldl_cons]
    refine le_trans ?_ (ih _)
    dsimp only
    split
    · rename_i h
      exact le_of_lt h
    · exact le_refl _

theorem poleFigureImages_isSome (eu2om : List ℚ → List (List ℚ))
    (project : List ℚ → PoleFigureConfiguration_t → List ℚ → List ℚ)
    (colorize : List ℚ → PoleFigureConfiguration_t → List Nat → List Nat)
    (config : PoleFigureConfiguration_t) :
    ∃ image001 image011 image111 config2,
      poleFigureImages eu2om project colorize config
        = some (image001, image011, image111, config2) ∧ config2.order = config.order ∧
      (image001.isSome = true ↔
        (if config.labels.length > 0 then config.labels.getD 0 "" else "<001>") ≠ "") ∧
      (image011.isSome = true ↔
        (if config.labels.length > 1 then config.labels.getD 1 "" else "<011>") ≠ "") ∧
      (image111.isSome = true ↔
        (if config.labels.length > 2 then config.labels.getD 2 "" else "<111>") ≠ "") := by
  obtain ⟨coords, hc, -⟩ := CubicLow.generate_frame eu2om config.eulers
    (config.eulers.length / 3) 0
    ⟨List.replicate (config.eulers.length / 3 * CubicLow.symSize0 * 3) 0,
     List.replicate (config.eulers.length / 3 * CubicLow.symSize1 * 3) 0,
     List.replicate (config.eulers.length / 3 * CubicLow.symSize2 * 3) 0⟩
    (by omega)
    (by simp only [List.length_replicate, CubicLow.symSize0]; omega)
    (by simp only [List.length_replicate, CubicLow.symSize1]; omega)
    (by simp only [List.length_replicate, CubicLow.symSize2]; omega)
  rw [Nat.zero_add] at hc
  simp only [poleFigureImages, hc]
  refine ⟨_, _, _, _, rfl, rfl, ?_, ?_, ?_⟩ <;>
    · simp only [CreateArray_image]
      split <;> simp_all

theorem label_ne_empty (labels : List String) (h : "" ∉ labels.take 3) (k : Nat) (hk : k < 3)
    (default : String) (hd : default ≠ "") :
    (if labels.length > k then labels.getD k "" else default) ≠ "" := by
  split
  · rename_i hlen
    intro he
    apply h
    rw [List.mem_iff_getElem?]
    refine ⟨k, ?_⟩
    rw [List.getElem?_take, if_pos hk, ← he, List.getD_eq_getElem?_getD,
      List.getElem?_eq_getElem hlen]
    rfl
  · exact hd

theorem placePoleFigures_perm {Image : Type} (order : List Nat) (hlen : order.length = 3)
    (hperm : order.Perm [0, 1, 2]) (i1 i2 i3 : Option Image) :
    ∃ poleFigures, placePoleFigures order i1 i2 i3 = some poleFigures ∧
      poleFigures.length = 3 ∧ poleFigures[order.getD 0 0]? = some i1 ∧
      poleFigures[order.getD 1 0]? = some i2 ∧ poleFigures[order.getD 2 0]? = some i3 := by
  have hmem : ∀ x, x ∈ order → x = 0 ∨ x = 1 ∨ x = 2 := by
    intro x hx
    have := hperm.mem_iff.mp hx
    simpa using this
  have hnd : order.Nodup := hperm.nodup_iff.mpr (by decide)
  cases order with
  | nil => cases hlen
  | cons a t1 =>
    cases t1 with
    | nil => cases hlen
    | cons b t2 =>
      cases t2 with
      | nil => cases hlen
      | cons c t3 =>
        cases t3 with
        | cons d t4 => simp at hlen
        | nil =>
          have ha := hmem a (by simp)
          have hb := hmem b (by simp)
          have hc := hmem c (by simp)
          simp only [List.nodup_cons, List.mem_cons, List.mem_singleton, List.not_mem_nil,
            not_or, not_false_eq_true, List.nodup_nil, and_true] at hnd
          obtain ⟨⟨hab, hac⟩, hbc⟩ := hnd
          rcases ha with rfl | rfl | rfl <;> rcases hb with rfl | rfl | rfl <;>
            rcases hc with rfl | rfl | rfl <;>
            first
              | exact absurd rfl hab
              | exact absurd rfl hac
              | exact absurd rfl hbc
              | exact ⟨_, rfl, rfl, rfl, rfl, rfl⟩

end CubicLowOps

/-- Claim C11 fails on the code. For three intensity grids that hold only zeros (here: no orientations, a
`1 x 1` image, a projection that leaves the zeroed grid as it is), `generatePoleFigure`
stores `2 ^ (-1022)` in `config.maxScale`, not the largest grid value `0`; `config.minScale`
is `0`. For every content of the grids the stored maximum is at least
`std::numeric_limits<double>::min()`, the smallest positive `double`, with which the search is
started. -/
theorem CubicLowOps.generatePoleFigure_maxScale_zero_grids :
    (CubicLowOps.generatePoleFigure CubicLow.identityOm (fun _ _ grid => grid)
        (fun _ _ image => image) ⟨[], 1, [], [], 0, 0, 0⟩).map
      (fun r => (r.2.maxScale, r.2.minScale)) = some (1 / 2 ^ 1022, 0) ∧
    CubicLowOps.intensityScale [0] [0] [0] = (1 / 2 ^ 1022, 0) ∧
    (∀ a b c : List ℚ, (0 : ℚ) < 1 / 2 ^ 1022 ∧ 1 / 2 ^ 1022 ≤ (CubicLowOps.intensityScale a b c).1) := by
  have hs : CubicLowOps.intensityScale [0] [0] [0] = (1 / 2 ^ 1022, 0) := by
    simp only [CubicLowOps.intensityScale, CubicLowOps.scanMaxMin, List.foldl_cons,
      List.foldl_nil, DBL_MIN, DBL_MAX]
    norm_num
  refine ⟨?_, hs, ?_⟩
  · simp only [CubicLowOps.generatePoleFigure, CubicLowOps.poleFigureImages, CubicLow.generate,
      List.length_nil, Nat.zero_div, Nat.sub_zero, List.range'_zero, List.foldlM_nil,
      Nat.mul_one, List.replicate_one, hs]
    simp [CubicLowOps.placePoleFigures, store]
  · intro a b c
    refine ⟨by positivity, ?_⟩
    unfold CubicLowOps.intensityScale
    refine le_trans ?_ (CubicLowOps.scanMaxMin_max_ge c _)
    refine le_trans ?_ (CubicLowOps.scanMaxMin_max_ge b _)
    refine le_trans ?_ (CubicLowOps.scanMaxMin_max_ge a _)
    exact le_of_eq rfl

/-- Claim C20 fails as stated. With `config.labels = {""}` the label of the `<001>` image is
empty and `CreateArray` returns the null pointer for it: whatever the absent conversion,
projection and colouring do, a result of `generatePoleFigure` has the null pointer at
position `0`, so it does not hold three images; with stand-ins for the three, one
orientation-free `1 x 1` configuration gives the vector `{null, <011> image, <111> image}`. -/
theorem CubicLowOps.generatePoleFigure_empty_label_counterexample :
    (∀ (eu2om : List ℚ → List (List ℚ))
        (project : List ℚ → PoleFigureConfiguration_t → List ℚ → List ℚ)
        (colorize : List ℚ → PoleFigureConfiguration_t → List Nat → List Nat)
        (r : List (Option PoleFigureImage) × PoleFigureConfiguration_t),
      CubicLowOps.generatePoleFigure eu2om project colorize ⟨[], 1, [], [""], 0, 0, 0⟩ = some r →
        r.1[0]? = some none) ∧
    (CubicLowOps.generatePoleFigure CubicLow.identityOm (fun _ _ grid => grid)
        (fun _ _ image => image) ⟨[], 1, [], [""], 0, 0, 0⟩).map (fun r => r.1)
      = some [none, some ⟨"<011>", [0, 0, 0, 0]⟩, some ⟨"<111>", [0, 0, 0, 0]⟩] := by
  refine ⟨?_, ?_⟩
  · intro eu2om project colorize r hr
    simp only [CubicLowOps.generatePoleFigure, CubicLowOps.poleFigureImages, CubicLow.generate,
      List.length_nil, Nat.zero_div, Nat.sub_zero, List.range'_zero, List.foldlM_nil] at hr
    simp [CubicLowOps.placePoleFigures, store, CubicLowOps.CreateArray_image] at hr
    rw [← hr]
    rfl
  · simp only [CubicLowOps.generatePoleFigure, CubicLowOps.poleFigureImages, CubicLow.generate,
      List.length_nil, Nat.zero_div, Nat.sub_zero, List.range'_zero, List.foldlM_nil]
    simp [CubicLowOps.placePoleFigures, store, CubicLowOps.CreateArray_image]

/-- Claim C20 as amended. For a configuration in which none of the first three entries of
`config.labels` is empty, `generatePoleFigure` returns, and its result has exactly three
entries, each of them an image: when `config.order` has three entries that are a permutation
of `0, 1, 2`, the `<001>`, `<011>` and `<111>` images are at the positions `order[0]`,
`order[1]` and `order[2]`; when `config.order` does not have three entries they are at the
positions `0`, `1`, `2`. -/
theorem CubicLowOps.generatePoleFigure_order (eu2om : List ℚ → List (List ℚ))
    (project : List ℚ → PoleFigureConfiguration_t → List ℚ → List ℚ)
    (colorize : List ℚ → PoleFigureConfiguration_t → List Nat → List Nat)
    (config : PoleFigureConfiguration_t) (hl : "" ∉ config.labels.take 3) :
    ∃ image001 image011 image111 config2,
      CubicLowOps.poleFigureImages eu2om project colorize config
        = some (some image001, some image011, some image111, config2) ∧
      (config.order.length = 3 → config.order.Perm [0, 1, 2] →
        ∃ poleFigures, CubicLowOps.generatePoleFigure eu2om project colorize config
            = some (poleFigures, config2) ∧ poleFigures.length = 3 ∧
          poleFigures[config.order.getD 0 0]? = some (some image001) ∧
          poleFigures[config.order.getD 1 0]? = some (some image011) ∧
          poleFigures[config.order.getD 2 0]? = some (some image111)) ∧
      (config.order.length ≠ 3 →
        CubicLowOps.generatePoleFigure eu2om project colorize config
          = some ([some image001, some image011, some image111], config2)) := by
  obtain ⟨p1, p2, p3, c2, h, ho, h1, h2, h3⟩ :=
    CubicLowOps.poleFigureImages_isSome eu2om project colorize config
  have s1 := h1.mpr (CubicLowOps.label_ne_empty config.labels hl 0 (by decide) "<001>"
    (by decide))
  have s2 := h2.mpr (CubicLowOps.label_ne_empty config.labels hl 1 (by decide) "<011>"
    (by decide))
  have s3 := h3.mpr (CubicLowOps.label_ne_empty config.labels hl 2 (by decide) "<111>"
    (by decide))
  obtain ⟨i1, rfl⟩ := Option.isSome_iff_exists.mp s1
  obtain ⟨i2, rfl⟩ := Option.isSome_iff_exists.mp s2
  obtain ⟨i3, rfl⟩ := Option.isSome_iff_exists.mp s3
  refine ⟨i1, i2, i3, c2, h, ?_, ?_⟩
  · intro hlen hperm
    obtain ⟨pf, hpf, hl3, e1, e2, e3⟩ :=
      CubicLowOps.placePoleFigures_perm config.order hlen hperm (some i1) (some i2) (some i3)
    refine ⟨pf, ?_, hl3, e1, e2, e3⟩
    simp only [CubicLowOps.generatePoleFigure, h, ho, hpf]
  · intro hlen
    simp only [CubicLowOps.generatePoleFigure, h, ho]
    simp [CubicLowOps.placePoleFigures, hlen, store]

/-- Claim C20 as amended, for the default labels and the order `2, 0, 1`, with no
orientations and a `1 x 1` image. -/
theorem CubicLowOps.generatePoleFigure_order_witness :
    ∃ image001 image011 image111 config2,
      CubicLowOps.poleFigureImages CubicLow.identityOm (fun _ _ grid => grid)
          (fun _ _ image => image) ⟨[], 1, [2, 0, 1], [], 0, 0, 0⟩
        = some (some image001, some image011, some image111, config2) ∧
      (([2, 0, 1] : List Nat).length = 3 → ([2, 0, 1] : List Nat).Perm [0, 1, 2] →
        ∃ poleFigures, CubicLowOps.generatePoleFigure CubicLow.identityOm (fun _ _ grid => grid)
            (fun _ _ image => image) ⟨[], 1, [2, 0, 1], [], 0, 0, 0⟩
            = some (poleFigures, config2) ∧ poleFigures.length = 3 ∧
          poleFigures[([2, 0, 1] : List Nat).getD 0 0]? = some (some image001) ∧
          poleFigures[([2, 0, 1] : List Nat).getD 1 0]? = some (some image011) ∧
          poleFigures[([2, 0, 1] : List Nat).getD 2 0]? = some (some image111)) ∧
      (([2, 0, 1] : List Nat).length ≠ 3 →
        CubicLowOps.generatePoleFigure CubicLow.identityOm (fun _ _ grid => grid)
            (fun _ _ image => image) ⟨[], 1, [2, 0, 1], [], 0, 0, 0⟩
          = some ([some image001, some image011, some image111], config2)) :=
  CubicLowOps.generatePoleFigure_order CubicLow.identityOm (fun _ _ grid => grid)
    (fun _ _ image => image) ⟨[], 1, [2, 0, 1], [], 0, 0, 0⟩ (by decide)

/-! ## Schmid factor -/

namespace CubicLowOps

theorem sumSq_nonneg (v : List ℚ) : 0 ≤ sumSq v := by
  unfold sumSq
  have h0 := mul_self_nonneg (v.getD 0 0)
  have h1 := mul_self_nonneg (v.getD 1 0)
  have h2 := mul_self_nonneg (v.getD 2 0)
  linarith

theorem planeMagOf_pos (sqrt : ℚ → ℚ) (hsqrt : ∀ x, 0 < x → 0 < sqrt x) (load v : List ℚ)
    (hl : sumSq load ≠ 0) (hv : sumSq v ≠ 0) : 0 < planeMagOf sqrt load v := by
  unfold planeMagOf
  exact mul_pos (hsqrt _ (lt_of_le_of_ne (sumSq_nonneg v) (Ne.symm hv)))
    (hsqrt _ (lt_of_le_of_ne (sumSq_nonneg load) (Ne.symm hl)))

theorem schmidOf_nonneg (sqrt : ℚ → ℚ) (hsqrt : ∀ x, 0 < x → 0 < sqrt x)
    (load plane direction : List ℚ) (hl : sumSq load ≠ 0) (hp : sumSq plane ≠ 0)
    (hd : sumSq direction ≠ 0) (i : Nat) : 0 ≤ schmidOf sqrt load plane direction i := by
  unfold schmidOf cosPhi cosLambda
  exact mul_nonneg
    (div_nonneg (abs_nonneg _) (le_of_lt (planeMagOf_pos sqrt hsqrt load plane hl hp)))
    (div_nonneg (abs_nonneg _) (le_of_lt (planeMagOf_pos sqrt hsqrt load direction hl hd)))

theorem schmidStep_eq (sqrt acos : ℚ → ℚ) (load plane direction : List ℚ) (st : SchmidResult)
    (i : Nat) :
    schmidStep acos load plane direction (planeMagOf sqrt load plane)
        (planeMagOf sqrt load direction) st i
      = if 0 ≤ symRotate i plane 2 ∧ st.schmidfactor < schmidOf sqrt load plane direction i then
          ⟨schmidOf sqrt load plane direction i,
            acos (cosPhi load plane (planeMagOf sqrt load plane) i),
            acos (cosLambda load direction (planeMagOf sqrt load direction) i), (i : Int)⟩
        else st := by
  unfold schmidStep schmidOf
  by_cases h1 : 0 ≤ symRotate i plane 2
  · by_cases h2 : st.schmidfactor < cosPhi load plane (planeMagOf sqrt load plane) i
        * cosLambda load direction (planeMagOf sqrt load direction) i
    · simp [h1, h2]
    · simp [h1, h2]
  · simp [h1]

theorem schmidFold_inv (sqrt acos : ℚ → ℚ) (load plane direction : List ℚ) (n : Nat) :
    ∀ st, st = (List.range n).foldl
        (schmidStep acos load plane direction (planeMagOf sqrt load plane)
          (planeMagOf sqrt load direction)) ⟨0, 0, 0, 0⟩ →
      0 ≤ st.schmidfactor ∧
      (∀ i, i < n → 0 ≤ symRotate i plane 2 →
        schmidOf sqrt load plane direction i ≤ st.schmidfactor) ∧
      (st.schmidfactor = 0 → st.slipsys = 0) ∧
      (0 < st.schmidfactor → ∃ k : Nat, st.slipsys = (k : Int) ∧ k < n ∧
        0 ≤ symRotate k plane 2 ∧ schmidOf sqrt load plane direction k = st.schmidfactor ∧
        ∀ j, j < k → 0 ≤ symRotate j plane 2 →
          schmidOf sqrt load plane direction j < st.schmidfactor) := by
  induction n with
  | zero =>
    intro st hst
    simp only [List.range_zero, List.foldl_nil] at hst
    subst hst
    refine ⟨le_refl _, ?_, fun _ => rfl, ?_⟩
    · intro i hi
      omega
    · intro h
      exact absurd h (lt_irrefl _)
  | succ n ih =>
    intro st hst
    rw [List.range_succ, List.foldl_append, List.foldl_cons, List.foldl_nil] at hst
    obtain ⟨hnn, hmax, hzero, hpos⟩ := ih _ rfl
    generalize (List.range n).foldl
        (schmidStep acos load plane direction (planeMagOf sqrt load plane)
          (planeMagOf sqrt load direction)) ⟨0, 0, 0, 0⟩ = prev at hst hnn hmax hzero hpos
    rw [schmidStep_eq] at hst
    by_cases hc : 0 ≤ symRotate n plane 2
        ∧ prev.schmidfactor < schmidOf sqrt load plane direction n
    · rw [if_pos hc] at hst
      subst hst
      obtain ⟨hel, hlt⟩ := hc
      refine ⟨le_trans hnn (le_of_lt hlt), ?_, ?_, ?_⟩
      · intro i hi hei
        rcases Nat.lt_succ_iff_lt_or_eq.mp hi with h | h
        · exact le_trans (hmax i h hei) (le_of_lt hlt)
        · subst h
          exact le_refl _
      · intro h
        exact absurd h (ne_of_gt (lt_of_le_of_lt hnn hlt))
      · intro _
        refine ⟨n, rfl, Nat.lt_succ_self n, hel, rfl, ?_⟩
        intro j hj hej
        exact lt_of_le_of_lt (hmax j hj hej) hlt
    · rw [if_neg hc] at hst
      subst hst
      refine ⟨hnn, ?_, hzero, ?_⟩
      · intro i hi hei
        rcases Nat.lt_succ_iff_lt_or_eq.mp hi with h | h
        · exact hmax i h hei
        · subst h
          by_contra hcon
          exact hc ⟨hei, lt_of_not_le hcon⟩
      · intro h
        obtain ⟨k, hk1, hk2, hk3, hk4, hk5⟩ := hpos h
        exact ⟨k, hk1, Nat.lt_succ_of_lt hk2, hk3, hk4, hk5⟩

theorem exists_eligible (plane : List ℚ) : ∃ i, i < 12 ∧ 0 ≤ symRotate i plane 2 := by
  by_cases h : 0 ≤ plane.getD 2 0
  · refine ⟨0, by omega, ?_⟩
    simp only [symRotate, entry, CubicLow.CubicLowMatSym, List.getD_cons_zero,
      List.getD_cons_succ]
    linarith
  · refine ⟨1, by omega, ?_⟩
    simp only [symRotate, entry, CubicLow.CubicLowMatSym, List.getD_cons_zero,
      List.getD_cons_succ]
    linarith [lt_of_not_le h]

end CubicLowOps

/-- The loop of `getSchmidFactorAndSS` in exact arithmetic (every `double` operation without
rounding, overflow or underflow). For non-zero `load`, `plane` and `direction` (and a `sqrt`
that is positive on positive arguments), the `schmidfactor` of the definition
`getSchmidFactorAndSS` is the maximum of the values `|cos(phi_i)| * |cos(lambda_i)|` over the
operators `i` in `0..11` whose rotated plane normal has a z-component `≥ 0`: no such value is
larger and one of them equals it. When it is positive, `slipsys` is the smallest such index
that attains it; when it is `0`, `slipsys` is `0` as well. The compiled code compares rounded
products, which can order two operators otherwise than their exact values do. -/
theorem CubicLowOps.getSchmidFactorAndSS_exact (sqrt acos : ℚ → ℚ)
    (load plane direction : List ℚ) (hsqrt : ∀ x, 0 < x → 0 < sqrt x)
    (hl : CubicLowOps.sumSq load ≠ 0) (hp : CubicLowOps.sumSq plane ≠ 0)
    (hd : CubicLowOps.sumSq direction ≠ 0) :
    (∀ i, i < 12 → 0 ≤ CubicLowOps.symRotate i plane 2 →
      CubicLowOps.schmidOf sqrt load plane direction i
        ≤ (CubicLowOps.getSchmidFactorAndSS sqrt acos load plane direction).schmidfactor) ∧
    (∃ i, i < 12 ∧ 0 ≤ CubicLowOps.symRotate i plane 2 ∧
      CubicLowOps.schmidOf sqrt load plane direction i
        = (CubicLowOps.getSchmidFactorAndSS sqrt acos load plane direction).schmidfactor) ∧
    (0 < (CubicLowOps.getSchmidFactorAndSS sqrt acos load plane direction).schmidfactor →
      ∃ k : Nat,
        (CubicLowOps.getSchmidFactorAndSS sqrt acos load plane direction).slipsys = (k : Int) ∧
        k < 12 ∧ 0 ≤ CubicLowOps.symRotate k plane 2 ∧
        CubicLowOps.schmidOf sqrt load plane direction k
          = (CubicLowOps.getSchmidFactorAndSS sqrt acos load plane direction).schmidfactor ∧
        ∀ j, j < k → 0 ≤ CubicLowOps.symRotate j plane 2 →
          CubicLowOps.schmidOf sqrt load plane direction j
            < (CubicLowOps.getSchmidFactorAndSS sqrt acos load plane direction).schmidfactor) ∧
    ((CubicLowOps.getSchmidFactorAndSS sqrt acos load plane direction).schmidfactor = 0 →
      (CubicLowOps.getSchmidFactorAndSS sqrt acos load plane direction).slipsys = 0) := by
  obtain ⟨hnn, hmax, hzero, hpos⟩ := CubicLowOps.schmidFold_inv sqrt acos load plane direction
    12 (CubicLowOps.getSchmidFactorAndSS sqrt acos load plane direction) rfl
  refine ⟨hmax, ?_, hpos, hzero⟩
  rcases lt_or_eq_of_le hnn with h | h
  · obtain ⟨k, -, hk2, hk3, hk4, -⟩ := hpos h
    exact ⟨k, hk2, hk3, hk4⟩
  · obtain ⟨i, hi, hei⟩ := CubicLowOps.exists_eligible plane
    refine ⟨i, hi, hei, le_antisymm (hmax i hi hei) ?_⟩
    rw [← h]
    exact CubicLowOps.schmidOf_nonneg sqrt hsqrt load plane direction hl hp hd i

/-- The exact-arithmetic statement for `getSchmidFactorAndSS` at a load, a plane normal and a
slip direction of length `1`. -/
theorem CubicLowOps.getSchmidFactorAndSS_exact_example :
    (∀ i, i < 12 → 0 ≤ CubicLowOps.symRotate i CubicLowOps.samplePlane 2 →
      CubicLowOps.schmidOf CubicLowOps.sampleSqrt CubicLowOps.sampleLoad
          CubicLowOps.samplePlane CubicLowOps.sampleDirection i
        ≤ (CubicLowOps.getSchmidFactorAndSS CubicLowOps.sampleSqrt (fun _ => 0)
            CubicLowOps.sampleLoad CubicLowOps.samplePlane
            CubicLowOps.sampleDirection).schmidfactor) ∧
    (∃ i, i < 12 ∧ 0 ≤ CubicLowOps.symRotate i CubicLowOps.samplePlane 2 ∧
      CubicLowOps.schmidOf CubicLowOps.sampleSqrt CubicLowOps.sampleLoad
          CubicLowOps.samplePlane CubicLowOps.sampleDirection i
        = (CubicLowOps.getSchmidFactorAndSS CubicLowOps.sampleSqrt (fun _ => 0)
            CubicLowOps.sampleLoad CubicLowOps.samplePlane
            CubicLowOps.sampleDirection).schmidfactor) :=
  ⟨(CubicLowOps.getSchmidFactorAndSS_exact CubicLowOps.sampleSqrt (fun _ => 0)
      CubicLowOps.sampleLoad CubicLowOps.samplePlane CubicLowOps.sampleDirection
      (fun _ hx => hx) (by norm_num [CubicLowOps.sumSq, CubicLowOps.sampleLoad])
      (by simp [CubicLowOps.sumSq, CubicLowOps.samplePlane])
      (by simp [CubicLowOps.sumSq, CubicLowOps.sampleDirection])).1,
   (CubicLowOps.getSchmidFactorAndSS_exact CubicLowOps.sampleSqrt (fun _ => 0)
      CubicLowOps.sampleLoad CubicLowOps.samplePlane CubicLowOps.sampleDirection
      (fun _ hx => hx) (by norm_num [CubicLowOps.sumSq, CubicLowOps.sampleLoad])
      (by simp [CubicLowOps.sumSq, CubicLowOps.samplePlane])
      (by simp [CubicLowOps.sumSq, CubicLowOps.sampleDirection])).2.1⟩

/-! ## Misorientation of symmetric equivalents -/

theorem foldMin_zero (angle : QuatType → ℚ) (hnn : ∀ q, 0 ≤ angle q) (cands : List QuatType) :
    ∀ best : Option (QuatType × ℚ), (∀ b, best = some b → 0 ≤ b.2) →
      ((∃ b, best = some b ∧ b.2 = 0) ∨ (∃ c, c ∈ cands ∧ angle c = 0)) →
      ∃ c, cands.foldl
        (fun best c =>
          match best with
          | none => some (c, angle c)
          | some b => if angle c < b.2 then some (c, angle c) else some b)
        best = some (c, 0) := by
  induction cands with
  | nil =>
    intro best _ h
    rcases h with ⟨b, hb, hb0⟩ | ⟨c, hc, _⟩
    · refine ⟨b.1, ?_⟩
      rw [List.foldl_nil, hb, ← hb0]
    · cases hc
  | cons c rest ih =>
    intro best hbest h
    rw [List.foldl_cons]
    apply ih
    · intro b hb
      cases best with
      | none =>
        simp only [Option.some.injEq] at hb
        rw [← hb]
        exact hnn c
      | some b0 =>
        dsimp only at hb
        split at hb
        · simp only [Option.some.injEq] at hb
          rw [← hb]
          exact hnn c
        · simp only [Option.some.injEq] at hb
          rw [← hb]
          exact hbest b0 rfl
    · cases best with
      | none =>
        rcases h with ⟨b, hb, _⟩ | ⟨c0, hc0, hc0z⟩
        · cases hb
        · rcases List.mem_cons.mp hc0 with rfl | hmem
          · exact Or.inl ⟨_, rfl, hc0z⟩
          · exact Or.inr ⟨c0, hmem, hc0z⟩
      | some b0 =>
        have hb0 : 0 ≤ b0.2 := hbest b0 rfl
        dsimp only
        rcases h with ⟨b, hb, hbz⟩ | ⟨c0, hc0, hc0z⟩
        · simp only [Option.some.injEq] at hb
          subst hb
          have hn : ¬ angle c < b0.2 := by
            rw [hbz]
            exact not_lt.mpr (hnn c)
          rw [if_neg hn]
          exact Or.inl ⟨_, rfl, hbz⟩
        · rcases List.mem_cons.mp hc0 with rfl | hmem
          · by_cases hlt : angle c0 < b0.2
            · rw [if_pos hlt]
              exact Or.inl ⟨_, rfl, hc0z⟩
            · rw [if_neg hlt]
              refine Or.inl ⟨_, rfl, le_antisymm ?_ hb0⟩
              rw [← hc0z]
              exact not_lt.mp hlt
          · exact Or.inr ⟨c0, hmem, hc0z⟩

theorem quatSym_unit (s : QuatType) (hs : s ∈ CubicLow.QuatSym) :
    s.x * s.x + s.y * s.y + s.z * s.z + s.w * s.w = 1 := by
  simp only [CubicLow.QuatSym, List.mem_cons, List.mem_singleton, List.not_mem_nil,
    or_false] at hs
  rcases hs with rfl | rfl | rfl | rfl | rfl | rfl | rfl | rfl | rfl | rfl | rfl | rfl <;>
    norm_num

theorem mul_conjugate_identity (s q : QuatType)
    (hs : s.x * s.x + s.y * s.y + s.z * s.z + s.w * s.w = 1)
    (hq : q.x * q.x + q.y * q.y + q.z * q.z + q.w * q.w = 1) :
    QuatType.mul (QuatType.mul (QuatType.mul ⟨0, 0, 0, 1⟩ (QuatType.mul s q)) q.conjugate)
      s.conjugate = ⟨0, 0, 0, 1⟩ := by
  simp only [QuatType.mul, QuatType.conjugate, QuatType.mk.injEq]
  refine ⟨by ring, by ring, by ring, ?_⟩
  linear_combination (q.x * q.x + q.y * q.y + q.z * q.z + q.w * q.w) * hs + hq

theorem identity_candidate (q : QuatType)
    (hq : q.x * q.x + q.y * q.y + q.z * q.z + q.w * q.w = 1) (s : QuatType)
    (hs : s ∈ CubicLow.QuatSym) :
    (⟨0, 0, 0, 1⟩ : QuatType) ∈ misorientationCandidates
      (CubicLow.QuatSym.take CubicLow.k_NumSymQuats) q (QuatType.mul s q) := by
  have htake : CubicLow.QuatSym.take CubicLow.k_NumSymQuats = CubicLow.QuatSym := rfl
  rw [htake]
  unfold misorientationCandidates
  rw [List.mem_flatMap]
  refine ⟨⟨0, 0, 0, 1⟩, by simp [CubicLow.QuatSym], ?_⟩
  rw [List.mem_map]
  exact ⟨s, hs, mul_conjugate_identity s q (quatSym_unit s hs) hq⟩

/-- Claim C18. With the angle of a rotation non-negative and `0` for the identity quaternion
`(0, 0, 0, 1)`, for every unit quaternion `q` and every index `i` in `0..11` the
misorientation of `q` and `QuatSym[i] * q` has the angle `0`. -/
theorem CubicLowOps.calculateMisorientation_symmetric_equivalent (angle : QuatType → ℚ)
    (hnn : ∀ c, 0 ≤ angle c) (hid : angle ⟨0, 0, 0, 1⟩ = 0) (q : QuatType)
    (hq : q.x * q.x + q.y * q.y + q.z * q.z + q.w * q.w = 1) (i : Nat) (hi : i < 12) :
    ∃ s, CubicLowOps.getQuatSymOp i = some s ∧
      ∃ c, CubicLowOps.calculateMisorientation angle q (QuatType.mul s q) = some (c, 0) := by
  have hlen : i < CubicLow.QuatSym.length := hi
  refine ⟨CubicLow.QuatSym[i], List.getElem?_eq_getElem hlen, ?_⟩
  unfold CubicLowOps.calculateMisorientation calculateMisorientationInternal
  refine foldMin_zero angle hnn _ none ?_ (Or.inr ⟨⟨0, 0, 0, 1⟩, ?_, hid⟩)
  · intro b hb
    cases hb
  · exact identity_candidate q hq _ (List.getElem_mem hlen)

/-- Claim C18 for the unit quaternion `(3/5, 0, 0, 4/5)` and the operator `QuatSym[4]`. -/
theorem CubicLowOps.calculateMisorientation_symmetric_equivalent_witness :
    ∃ s, CubicLowOps.getQuatSymOp 4 = some s ∧
      ∃ c, CubicLowOps.calculateMisorientation CubicLowOps.sampleAngle CubicLowOps.sampleQuat
        (QuatType.mul s CubicLowOps.sampleQuat) = some (c, 0) :=
  CubicLowOps.calculateMisorientation_symmetric_equivalent CubicLowOps.sampleAngle
    (fun c => by unfold CubicLowOps.sampleAngle; split <;> norm_num)
    (by simp [CubicLowOps.sampleAngle]) CubicLowOps.sampleQuat
    (by norm_num [CubicLowOps.sampleQuat]) 4 (by decide)

/-! ## Constructors and `CreateArray` -/

namespace EbsdDataArray

variable {T : Type}

theorem accumulate_eq_prod (dims : List Nat) : accumulate dims = dims.prod := by
  unfold accumulate
  rw [List.prod_eq_foldl]

theorem resizeAndExtend_of_null [ElementType T] (s : EbsdDataArray T) (hnull : s.m_Array = none)
    (hsize : s.m_Size = 0) {size : Nat} (h0 : size ≠ 0) (hmax : size ≤ maxAllocElements) :
    s.resizeAndExtend size
      = some { s with m_Size := size, m_Array := some (List.replicate size s.m_InitValue),
                      m_OwnsData := true, m_MaxId := size - 1, m_IsAllocated := true } := by
  cases s with
  | mk nm arr sz mx nt nc iv cd al ow =>
  simp only at hnull hsize
  subst hnull hsize
  unfold resizeAndExtend
  have hgt : size > 0 := Nat.pos_of_ne_zero h0
  have hfill : fillLoop iv 0 size (List.replicate size (ElementType.zero : T))
      = some (List.replicate size iv) := by
    rw [fillLoop_eq_some _ _ _ _ (by simp)]
    simp
  simp [h0, newArray, hmax, hgt, szSub_one h0, initializeWithValue, hfill]

theorem resizeAndExtend_same [ElementType T] (s : EbsdDataArray T) {size : Nat}
    (h : size = s.m_Size) : s.resizeAndExtend size = some s := by
  unfold resizeAndExtend
  rw [if_pos h]

/-- The constructor with its products taken as exact (definition `construct`): whenever the
elements can be allocated and the product of `compDims` is below `2 ^ 31`, it completes with
`numTuples` tuples, the product of `compDims` as number of components, the product of the
two as size, and every element equal to `initValue`. -/
theorem construct_exact [ElementType T] (numTuples : Nat) (name : String) (compDims : List Nat)
    (initValue : T) (hcomp : compDims.prod < 2 ^ 31)
    (hmax : numTuples * compDims.prod ≤ maxAllocElements) :
    ∃ s, construct numTuples name compDims initValue = some s ∧
      s.getNumberOfTuples = numTuples ∧
      toInt32 s.getNumberOfComponents = (compDims.prod : Int) ∧
      s.getSize = numTuples * compDims.prod ∧
      (∀ i, i < s.getSize → s.getValue i = some initValue) ∧
      s.getName = name ∧ s.getComponentDimensions = compDims := by
  unfold construct
  simp only [accumulate_eq_prod]
  by_cases h0 : numTuples * compDims.prod = 0
  · rw [resizeAndExtend_same _ (by simp only [constructDefault, h0])]
    refine ⟨_, rfl, rfl, toInt32_of_lt hcomp, ?_, ?_, rfl, rfl⟩
    · simp only [getSize, constructDefault, h0]
    · intro i hi
      simp only [getSize, constructDefault] at hi
      omega
  · rw [resizeAndExtend_of_null _ rfl rfl h0 hmax]
    refine ⟨_, rfl, rfl, toInt32_of_lt hcomp, rfl, ?_, rfl, rfl⟩
    intro i hi
    simp only [getSize] at hi
    simp only [getValue]
    rw [List.getElem?_replicate]
    simp [hi]

theorem foldl_mul_mod (dims : List Nat) :
    ∀ x : Nat, dims.foldl (fun a b => a * b % 2 ^ 64) x % 2 ^ 64 = x * dims.prod % 2 ^ 64 := by
  induction dims with
  | nil => intro x; simp
  | cons d rest ih =>
    intro x
    rw [List.foldl_cons, ih, List.prod_cons, Nat.mod_mul_mod, Nat.mul_assoc]

theorem foldl_mul_mod_lt (dims : List Nat) :
    ∀ x : Nat, x < 2 ^ 64 → dims.foldl (fun a b => a * b % 2 ^ 64) x < 2 ^ 64 := by
  induction dims with
  | nil => intro x hx; exact hx
  | cons d rest ih =>
    intro x _
    rw [List.foldl_cons]
    exact ih _ (Nat.mod_lt _ (by decide))

theorem accumulate_sizet_eq_mod (dims : List Nat) :
    accumulate_sizet dims = dims.prod % 2 ^ 64 := by
  have h1 := foldl_mul_mod dims 1
  have h2 := foldl_mul_mod_lt dims 1 (by decide)
  rw [Nat.mod_eq_of_lt h2, Nat.one_mul] at h1
  exact h1

theorem construct_sizet_eq [ElementType T] (numTuples : Nat) (name : String)
    (compDims : List Nat) (initValue : T) (hcomp : compDims.prod < 2 ^ 64)
    (hsize : numTuples * compDims.prod < 2 ^ 64) :
    construct_sizet numTuples name compDims initValue
      = construct numTuples name compDims initValue := by
  unfold construct_sizet construct
  simp only [accumulate_sizet_eq_mod, accumulate_eq_prod, Nat.mod_eq_of_lt hcomp,
    Nat.mod_eq_of_lt hsize]

/-- Claim C24 fails as stated. With `compDims = {65536, 32768}` and no tuples the constructor
completes and `getNumberOfComponents()`, which casts the `size_t` member to `int32_t`,
returns `-2147483648`, while the product of `compDims` is `2147483648`. With
`numTuples = 2 ^ 63` and `compDims = {2}` the `size_t` product `m_NumTuples * m_NumComponents`
is `0`: the constructor completes with `getNumberOfTuples() = 2 ^ 63` and `getSize() = 0`,
not `2 ^ 64`. -/
theorem construct_components_counterexample :
    (construct_sizet 0 "x" [65536, 32768] (0 : Int)).map
        (fun s => (s.getNumberOfTuples, s.getNumberOfComponents_int32, s.getSize))
      = some (0, -2147483648, 0) ∧
    ((([65536, 32768] : List Nat).prod : Nat) : Int) = 2147483648 ∧
    (construct_sizet (2 ^ 63) "x" [2] (0 : Int)).map
        (fun s => (s.getNumberOfTuples, s.getNumberOfComponents_int32, s.getSize))
      = some (2 ^ 63, 2, 0) ∧
    2 ^ 63 * ([2] : List Nat).prod ≠ 0 := by
  decide

/-- Claim C24 as amended. For `compDims` whose product is below `2 ^ 31` and `numTuples` for
which `numTuples` times that product elements can be allocated, the constructor
`EbsdDataArray(numTuples, name, compDims, initValue)` completes with
`getNumberOfTuples() == numTuples`, `getNumberOfComponents()` the product of `compDims`,
`getSize()` the product of the two, and every element equal to `initValue`. -/
theorem construct_sizet_spec [ElementType T] (numTuples : Nat) (name : String)
    (compDims : List Nat) (initValue : T) (hcomp : compDims.prod < 2 ^ 31)
    (hmax : numTuples * compDims.prod ≤ maxAllocElements) :
    ∃ s, construct_sizet numTuples name compDims initValue = some s ∧
      s.getNumberOfTuples = numTuples ∧
      s.getNumberOfComponents_int32 = (compDims.prod : Int) ∧
      s.getSize = numTuples * compDims.prod ∧
      (∀ i, i < s.getSize → s.getValue i = some initValue) ∧
      s.getName = name ∧ s.getComponentDimensions = compDims := by
  have hlt : maxAllocElements < 2 ^ 64 := by decide
  rw [construct_sizet_eq numTuples name compDims initValue (by omega) (by omega)]
  obtain ⟨s, hs, h1, h2, h3, h4, h5, h6⟩ :=
    construct_exact numTuples name compDims initValue hcomp hmax
  exact ⟨s, hs, h1, h2, h3, h4, h5, h6⟩

/-- Claim C24 as amended, for a `2 x 3` component shape, four tuples and the initial value
`7`. -/
theorem construct_sizet_spec_witness :
    ∃ s : EbsdDataArray Int, construct_sizet 4 "image" [2, 3] 7 = some s ∧
      s.getNumberOfTuples = 4 ∧
      s.getNumberOfComponents_int32 = (([2, 3] : List Nat).prod : Int) ∧
      s.getSize = 4 * ([2, 3] : List Nat).prod ∧
      (∀ i, i < s.getSize → s.getValue i = some 7) ∧
      s.getName = "image" ∧ s.getComponentDimensions = [2, 3] :=
  construct_sizet_spec 4 "image" [2, 3] 7 (by decide) (by decide)

end EbsdDataArray

namespace EbsdDataArray

variable {T : Type}

theorem CreateArray_of_pos [ElementType T] (numTuples : Nat) (compDims : List Nat)
    (name : String) (hname : name ≠ "") (h0 : numTuples * compDims.prod ≠ 0)
    (hmax : numTuples * compDims.prod ≤ maxAllocElements) :
    (CreateArray numTuples compDims name true : Option (Option (EbsdDataArray T)))
      = some (some
          { m_Name := name,
            m_Array := some (List.replicate (numTuples * compDims.prod) ElementType.zero),
            m_Size := numTuples * compDims.prod, m_MaxId := numTuples * compDims.prod - 1,
            m_NumTuples := numTuples, m_NumComponents := compDims.prod,
            m_InitValue := ElementType.zero, m_CompDims := compDims, m_IsAllocated := true,
            m_OwnsData := true }) := by
  unfold CreateArray constructProtected resizeTuples
  simp only [accumulate_eq_prod, if_neg hname, if_true]
  rw [resizeAndExtend_of_null _ rfl rfl h0 hmax]
  simp [allocate, deallocate, constructDefault, h0, newArray, hmax]

theorem CreateArray_of_zero [ElementType T] (numTuples : Nat) (compDims : List Nat)
    (name : String) (hname : name ≠ "") (h0 : numTuples * compDims.prod = 0) :
    (CreateArray numTuples compDims name true : Option (Option (EbsdDataArray T)))
      = some (some
          { m_Name := name, m_Array := none, m_Size := 0, m_MaxId := 0, m_NumTuples := 0,
            m_NumComponents := compDims.prod, m_InitValue := ElementType.zero,
            m_CompDims := compDims, m_IsAllocated := false, m_OwnsData := true }) := by
  unfold CreateArray constructProtected resizeTuples
  simp only [accumulate_eq_prod, if_neg hname, if_true]
  rw [resizeAndExtend_same _ (by simp only [constructDefault, h0])]
  simp [allocate, clear, constructDefault]

/-- Claim C25 fails as stated. For five tuples with the component dimensions `{0}` and a
non-empty name, `CreateArray(5, {0}, "x", true)` returns an array with `0` tuples, not `5`:
the size is `0`, so `allocate()` clears the array. -/
theorem CreateArray_zero_components_counterexample :
    (CreateArray 5 [0] "x" true : Option (Option (EbsdDataArray Int))).map
        (fun p => p.map (fun d => (d.getNumberOfTuples, d.getSize, d.isAllocated)))
      = some (some (0, 0, false)) := by
  decide

/-- Claim C25 as amended. `CreateArray(numTuples, compDims, name, allocate)` returns the
null pointer whenever `name` is empty. For a non-empty name and `allocate == true`,
whenever the elements can be allocated, it returns an array with that name, the given
component dimensions, `numTuples * product(compDims)` elements, all of them zero; the array
has `numTuples` tuples and is allocated when that number of elements is not `0`, and has
`0` tuples and is not allocated when it is `0`. -/
theorem CreateArray_spec [ElementType T] (numTuples : Nat) (compDims : List Nat)
    (name : String) :
    (name = "" → ∀ allocate,
      (CreateArray numTuples compDims name allocate : Option (Option (EbsdDataArray T)))
        = some none) ∧
    (name ≠ "" → numTuples * compDims.prod ≤ maxAllocElements →
      ∃ d : EbsdDataArray T, CreateArray numTuples compDims name true = some (some d) ∧
        d.getName = name ∧ d.getComponentDimensions = compDims ∧
        d.getSize = numTuples * compDims.prod ∧
        (∀ i, i < d.getSize → d.getValue i = some ElementType.zero) ∧
        (numTuples * compDims.prod ≠ 0 →
          d.getNumberOfTuples = numTuples ∧ d.isAllocated = true) ∧
        (numTuples * compDims.prod = 0 →
          d.getNumberOfTuples = 0 ∧ d.isAllocated = false)) := by
  refine ⟨?_, ?_⟩
  · intro hname allocate
    unfold CreateArray
    rw [if_pos hname]
  · intro hname hmax
    by_cases h0 : numTuples * compDims.prod = 0
    · rw [CreateArray_of_zero numTuples compDims name hname h0]
      refine ⟨_, rfl, rfl, rfl, ?_, ?_, ?_, ?_⟩
      · simp only [getSize, h0]
      · intro i hi
        simp only [getSize] at hi
        omega
      · intro h
        exact absurd h0 h
      · intro _
        exact ⟨rfl, rfl⟩
    · rw [CreateArray_of_pos numTuples compDims name hname h0 hmax]
      refine ⟨_, rfl, rfl, rfl, rfl, ?_, ?_, ?_⟩
      · intro i hi
        simp only [getSize] at hi
        simp only [getValue]
        rw [List.getElem?_replicate]
        simp [hi]
      · intro _
        exact ⟨rfl, rfl⟩
      · intro h
        exact absurd h h0

end EbsdDataArray

/-! ## `eraseTuples` with a list that covers every tuple -/

namespace EbsdDataArray

variable {T : Type}

/-- Claim C26 fails as stated. The array `EbsdDataArray<int32_t>(5, "x", {0}, 0)` has five
tuples of zero components, so its size is `0`; `eraseTuples` with five indices returns `0`
but leaves `getNumberOfTuples()` at `5`: `resizeAndExtend(0)` finds the requested size equal
to the current one and does nothing. -/
theorem eraseTuples_all_counterexample :
    ((construct 5 "x" [0] (0 : Int)).bind (fun s => s.eraseTuples [0, 1, 2, 3, 4])).map
        (fun r => (r.1, r.2.getNumberOfTuples, r.2.getSize, r.2.isAllocated))
      = some (0, 5, 0, false) := by
  decide

/-- Claim C26 as amended. If the non-empty list `idxs` has at least as many entries as the
array has tuples, `eraseTuples(idxs)` returns `0`. When the array's size is not `0`
beforehand, the array is cleared: afterwards `getSize() == 0`, `getNumberOfTuples() == 0`,
`isAllocated() == false` and `m_Array` is null. When the size is `0` beforehand, the array
is left as it is, except that the tuple count is set to `0` if `m_Array` is not null. -/
theorem eraseTuples_all [ElementType T] (s : EbsdDataArray T) (idxs : List Nat)
    (hne : idxs ≠ []) (hlen : idxs.length ≥ s.getNumberOfTuples) :
    (s.getSize ≠ 0 →
      ∃ s1, s.eraseTuples idxs = some (0, s1) ∧ s1.getSize = 0 ∧ s1.getNumberOfTuples = 0 ∧
        s1.isAllocated = false ∧ s1.m_Array = none) ∧
    (s.getSize = 0 →
      s.eraseTuples idxs
        = some (0, if s.m_Array.isSome then { s with m_NumTuples := 0 } else s)) := by
  have hemp : idxs.isEmpty = false := by
    cases idxs with
    | nil => exact absurd rfl hne
    | cons a t => rfl
  refine ⟨?_, ?_⟩
  · intro hsize
    have h1 : ¬ (0 * s.m_NumComponents = s.m_Size) := by
      rw [Nat.zero_mul]
      exact fun h => hsize h.symm
    refine ⟨s.clear, ?_, rfl, rfl, rfl, rfl⟩
    unfold eraseTuples resizeTuples resizeAndExtend
    have h2 : ¬ (0 = s.m_Size) := fun h => hsize h.symm
    simp only [hemp, Bool.false_eq_true, if_false, if_pos hlen, if_neg h1, Nat.zero_mul,
      if_true]
    simp [clear, h2]
  · intro hsize
    have h1 : 0 * s.m_NumComponents = s.m_Size := by
      rw [Nat.zero_mul]
      exact hsize.symm
    unfold eraseTuples resizeTuples
    simp only [hemp, Bool.false_eq_true, if_false, if_pos hlen]
    rw [resizeAndExtend_same s h1]
    by_cases hs : s.m_Array.isSome = true <;> simp [hs]

/-- Claim C26 as amended, on the five scalars `100, ..., 104` and five indices. -/
theorem eraseTuples_all_witness :
    (sampleScalars.getSize ≠ 0 →
      ∃ s1, sampleScalars.eraseTuples [0, 1, 2, 3, 4] = some (0, s1) ∧ s1.getSize = 0 ∧
        s1.getNumberOfTuples = 0 ∧ s1.isAllocated = false ∧ s1.m_Array = none) ∧
    (sampleScalars.getSize = 0 →
      sampleScalars.eraseTuples [0, 1, 2, 3, 4]
        = some (0, if sampleScalars.m_Array.isSome then
            { sampleScalars with m_NumTuples := 0 } else sampleScalars)) :=
  eraseTuples_all sampleScalars [0, 1, 2, 3, 4] (by decide) (by decide)

end EbsdDataArray

/-! ## `deepCopy` -/

namespace EbsdDataArray

variable {T : Type}

/-- Claim C23 fails on the code. The array `EbsdDataArray<int32_t>(2, "", 7)` is allocated
and holds `7, 7`, and its name is empty. `deepCopy()` asks `createNewArray` for an array of
that name, gets the null pointer back, and calls `daCopy->getVoidPointer(0)` on it: the call
has no result. The same happens on a default-constructed array after `push_back(9)`. -/
theorem deepCopy_of_unnamed_array :
    (constructScalar 2 "" (7 : Int)).map
        (fun s => (s.isAllocated, s.getNumberOfTuples, s.m_Array, (s.deepCopy false).isNone))
      = some (true, 2, some [7, 7], true) ∧
    (emptyArray.push_back 9).map
        (fun s => (s.isAllocated, s.m_Array, (s.deepCopy false).isNone))
      = some (true, some [9], true) := by
  decide

theorem deepCopy_of_named [ElementType T] (s : EbsdDataArray T) (n c : Nat) (block : List T)
    (hs : Allocated s n c block) (hname : s.m_Name ≠ "") (hdims : s.m_CompDims.prod = c)
    (h0 : n * c ≠ 0) :
    ∃ d, s.deepCopy false = some (some d) ∧ d.getName = s.getName ∧
      d.getNumberOfTuples = s.getNumberOfTuples ∧
      d.getComponentDimensions = s.getComponentDimensions ∧ d.m_Array = some block ∧
      d.getSize = s.getSize ∧ d.isAllocated = true := by
  obtain ⟨ha, harr, hlen, hsize, hmaxid, hnt, hnc, hb⟩ := hs
  subst hdims
  have hm : memcpy (List.replicate (n * s.m_CompDims.prod) (ElementType.zero : T)) 0 block 0
      (n * s.m_CompDims.prod) = some block := by
    rw [memcpy_eq_some _ _ _ _ _ (by simp) (by omega)]
    simp [← hlen]
  unfold deepCopy createNewArray
  simp only [getNumberOfTuples, getComponentDimensions, getName, getNumberOfComponents, hnt,
    hnc, ha, Bool.false_eq_true, if_false]
  rw [CreateArray_of_pos n s.m_CompDims s.m_Name hname h0 hb]
  have hgt : ¬ (0 ≥ n * s.m_CompDims.prod) := by omega
  simp only [Bool.not_false, Bool.and_self, if_true, if_neg hgt, harr, hm]
  exact ⟨_, rfl, rfl, rfl, rfl, rfl, hsize.symm, rfl⟩

end EbsdDataArray

/-! ## `getArray` and `setArray` -/

namespace EbsdDataArray

variable {T : Type}

theorem setArrayLoop_getElem? (l : List T) :
    ∀ (i : Nat) (block : List T), i + l.length ≤ block.length → i + l.length < 2 ^ 31 →
      ∃ out, setArrayLoop l i block = some out ∧ out.length = block.length ∧
        ∀ j, out[j]? = if i ≤ j ∧ j < i + l.length then l[j - i]? else block[j]? := by
  induction l with
  | nil =>
    intro i block _ _
    refine ⟨block, rfl, rfl, ?_⟩
    intro j
    rw [if_neg (by simp)]
  | cons elem rest ih =>
    intro i block h hint
    simp only [List.length_cons] at h hint
    have hi : i < block.length := by omega
    have hov : ¬ (i ≥ 2 ^ 31 - 1) := by omega
    obtain ⟨out, ho, hl, hp⟩ := ih (i + 1) (block.set i elem)
      (by rw [List.length_set]; omega) (by omega)
    refine ⟨out, ?_, by rw [hl, List.length_set], ?_⟩
    · simp only [setArrayLoop, if_neg hov, store, if_pos hi, ho]
    · intro j
      rw [hp j, List.getElem?_set]
      simp only [List.length_cons]
      by_cases hij : i = j
      · subst hij
        rw [if_neg (by omega), if_pos rfl, if_pos hi, if_pos (by omega), Nat.sub_self]
        simp
      · rw [if_neg hij]
        by_cases hr : i + 1 ≤ j ∧ j < i + 1 + rest.length
        · rw [if_pos hr, if_pos (by omega)]
          have e : j - i = (j - (i + 1)) + 1 := by omega
          rw [e, List.getElem?_cons_succ]
        · rw [if_neg hr, if_neg (by omega)]

theorem setArrayLoop_all (l block : List T) (h : l.length = block.length)
    (hint : l.length < 2 ^ 31) : setArrayLoop l 0 block = some l := by
  obtain ⟨out, ho, hl, hp⟩ := setArrayLoop_getElem? l 0 block (by omega) (by omega)
  rw [ho]
  congr 1
  apply List.ext_getElem?
  intro j
  rw [hp j]
  by_cases hj : j < l.length
  · rw [if_pos (by omega), Nat.sub_zero]
  · rw [if_neg (by omega), List.getElem?_eq_none (by omega), List.getElem?_eq_none (by omega)]

/-- Claim C27 fails as stated. The array that `CreateArray(3, {2}, "img", false)` returns has
`getSize() == 6` and no buffer (`m_Array` is the null pointer): for a list of six values
the length test of `setArray` passes and the loop stores through the null pointer, so the
call has no result. -/
theorem setArray_unallocated_counterexample :
    (CreateArray 3 [2] "img" false : Option (Option (EbsdDataArray Int)))
      = some (some unallocatedImage) ∧
    unallocatedImage.getSize = 6 ∧ ([1, 2, 3, 4, 5, 6] : List Int).length = 6 ∧
    unallocatedImage.m_Array = none ∧
    unallocatedImage.setArray [1, 2, 3, 4, 5, 6] = none := by
  decide

/-- Claim C27 as amended. On an array whose block holds its `getSize()` elements, with an
element type of at most eight bytes, for every list `l` of that length with fewer than
`2 ^ 31` entries (the loop counter of `setArray` is an `int`), `setArray(l)` completes and
changes only the elements, and `getArray()` then returns `l`; for a list of any other length
`setArray` leaves the array as it is. -/
theorem setArray_getArray (sizeofT : Nat) (hT : 0 < sizeofT) (hT8 : sizeofT ≤ 8)
    (s : EbsdDataArray T) (block : List T) (harr : s.m_Array = some block)
    (hblock : block.length = s.getSize) (l : List T) :
    (l.length = s.getSize → l.length < 2 ^ 31 →
      s.setArray l = some { s with m_Array := some l } ∧
      getArray sizeofT { s with m_Array := some l } = some l) ∧
    (l.length ≠ s.getSize → s.setArray l = some s) := by
  refine ⟨?_, ?_⟩
  · intro hl hint
    have hne : ¬ (l.length ≠ s.m_Size) := fun h => h hl
    refine ⟨?_, ?_⟩
    · unfold setArray
      simp only [if_neg hne, harr, setArrayLoop_all l block (by rw [hl, hblock]) hint]
    · unfold getArray
      have hsz : s.m_Size < 2 ^ 31 := by
        have : l.length = s.m_Size := hl
        omega
      have hmod : s.m_Size * sizeofT % 2 ^ 64 = s.m_Size * sizeofT := by
        apply Nat.mod_eq_of_lt
        calc s.m_Size * sizeofT ≤ s.m_Size * 8 := Nat.mul_le_mul_left _ hT8
          _ < 2 ^ 64 := by omega
      simp only [hmod, Nat.mul_div_cancel _ hT]
      by_cases hz : s.m_Size = 0
      · have hl0 : l = [] := List.length_eq_zero.mp (by rw [hl]; exact hz)
        simp [hz, hl0]
      · have hle : s.m_Size ≤ l.length := by rw [hl]; exact Nat.le_refl _
        simp only [if_neg hz, if_pos hle]
        rw [List.take_of_length_le (by rw [hl]; exact Nat.le_refl _)]
  · intro hl
    have hl2 : l.length ≠ s.m_Size := hl
    unfold setArray
    rw [if_pos hl2]

/-- Claim C27 as amended, on the three two-component tuples of `sampleArray`, with
`sizeof(T) = 4`: a list of six values is stored and read back, a list of two values changes
nothing. -/
theorem setArray_getArray_witness :
    (sampleArray.m_Array = some [10, 11, 20, 21, 30, 31] ∧
      [10, 11, 20, 21, 30, 31].length = sampleArray.getSize) ∧
    (sampleArray.setArray [1, 2, 3, 4, 5, 6]
        = some { sampleArray with m_Array := some [1, 2, 3, 4, 5, 6] } ∧
      getArray 4 { sampleArray with m_Array := some [1, 2, 3, 4, 5, 6] }
        = some [1, 2, 3, 4, 5, 6]) ∧
    sampleArray.setArray [1, 2] = some sampleArray :=
  ⟨⟨rfl, by decide⟩,
   (setArray_getArray 4 (by decide) (by decide) sampleArray [10, 11, 20, 21, 30, 31] rfl
      (by decide) [1, 2, 3, 4, 5, 6]).1 (by decide) (by decide),
   (setArray_getArray 4 (by decide) (by decide) sampleArray [10, 11, 20, 21, 30, 31] rfl
      (by decide) [1, 2]).2 (by decide)⟩

end EbsdDataArray

/-! ## `byteSwapElements` -/

theorem swap2_bytes (b0 b1 : Nat) (h0 : b0 < 256) (h1 : b1 < 256) :
    EBSDLIB_ENDIAN_INTRINSIC_BYTE_SWAP_2 (b0 + 256 * b1) = b1 + 256 * b0 := by
  unfold EBSDLIB_ENDIAN_INTRINSIC_BYTE_SWAP_2
  omega

theorem swap4_bytes (b0 b1 b2 b3 : Nat) (h0 : b0 < 256) (h1 : b1 < 256) (h2 : b2 < 256)
    (h3 : b3 < 256) :
    EBSDLIB_ENDIAN_INTRINSIC_BYTE_SWAP_4 (b0 + 256 * b1 + 65536 * b2 + 16777216 * b3)
      = b3 + 256 * b2 + 65536 * b1 + 16777216 * b0 := by
  unfold EBSDLIB_ENDIAN_INTRINSIC_BYTE_SWAP_4
  have e0 : (b0 + 256 * b1 + 65536 * b2 + 16777216 * b3) % 256 = b0 := by omega
  have e1 : (b0 + 256 * b1 + 65536 * b2 + 16777216 * b3) / 256 % 256 = b1 := by omega
  have e2 : (b0 + 256 * b1 + 65536 * b2 + 16777216 * b3) / 65536 % 256 = b2 := by omega
  have e3 : (b0 + 256 * b1 + 65536 * b2 + 16777216 * b3) / 16777216 % 256 = b3 := by omega
  rw [e0, e1, e2, e3]
  omega

theorem digits8 (b0 b1 b2 b3 b4 b5 b6 b7 : Nat) (h0 : b0 < 256) (h1 : b1 < 256)
    (h2 : b2 < 256) (h3 : b3 < 256) (h4 : b4 < 256) (h5 : b5 < 256) (h6 : b6 < 256)
    (h7 : b7 < 256) (x : Nat)
    (hx : x = b0 + 256 * b1 + 65536 * b2 + 16777216 * b3 + 4294967296 * b4 + 1099511627776 * b5
          + 281474976710656 * b6 + 72057594037927936 * b7) :
    x % 256 = b0 ∧ x / 256 % 256 = b1 ∧ x / 65536 % 256 = b2 ∧ x / 16777216 % 256 = b3 ∧
    x / 4294967296 % 256 = b4 ∧ x / 1099511627776 % 256 = b5 ∧
    x / 281474976710656 % 256 = b6 ∧ x / 72057594037927936 % 256 = b7 := by
  refine ⟨?_, ?_, ?_, ?_, ?_, ?_, ?_, ?_⟩ <;> omega

theorem swap8_bytes (b0 b1 b2 b3 b4 b5 b6 b7 : Nat) (h0 : b0 < 256) (h1 : b1 < 256)
    (h2 : b2 < 256) (h3 : b3 < 256) (h4 : b4 < 256) (h5 : b5 < 256) (h6 : b6 < 256)
    (h7 : b7 < 256) :
    EBSDLIB_ENDIAN_INTRINSIC_BYTE_SWAP_8
        (b0 + 256 * b1 + 65536 * b2 + 16777216 * b3 + 4294967296 * b4 + 1099511627776 * b5
          + 281474976710656 * b6 + 72057594037927936 * b7)
      = b7 + 256 * b6 + 65536 * b5 + 16777216 * b4 + 4294967296 * b3 + 1099511627776 * b2
          + 281474976710656 * b1 + 72057594037927936 * b0 := by
  obtain ⟨e0, e1, e2, e3, e4, e5, e6, e7⟩ :=
    digits8 b0 b1 b2 b3 b4 b5 b6 b7 h0 h1 h2 h3 h4 h5 h6 h7 _ rfl
  unfold EBSDLIB_ENDIAN_INTRINSIC_BYTE_SWAP_8
  rw [e0, e1, e2, e3, e4, e5, e6, e7]
  omega

theorem bytesOf_two (x : Nat) : bytesOf 2 x = [x % 256, x / 256 % 256] := by
  simp [bytesOf, List.range_succ]

theorem bytesOf_four (x : Nat) :
    bytesOf 4 x = [x % 256, x / 256 % 256, x / 65536 % 256, x / 16777216 % 256] := by
  simp [bytesOf, List.range_succ]

theorem bytesOf_eight (x : Nat) :
    bytesOf 8 x = [x % 256, x / 256 % 256, x / 65536 % 256, x / 16777216 % 256,
      x / 4294967296 % 256, x / 1099511627776 % 256, x / 281474976710656 % 256,
      x / 72057594037927936 % 256] := by
  simp [bytesOf, List.range_succ]

theorem swapOf_two (b0 b1 : Nat) (h0 : b0 < 256) (h1 : b1 < 256) :
    bytesOf 2 (b0 + 256 * b1) = [b0, b1] ∧ swapOf 2 (b0 + 256 * b1) = b1 + 256 * b0 := by
  refine ⟨?_, ?_⟩
  · rw [bytesOf_two]
    simp only [List.cons.injEq, and_true]
    constructor <;> omega
  · simp only [swapOf, if_true]
    exact swap2_bytes b0 b1 h0 h1

theorem swapOf_four (b0 b1 b2 b3 : Nat) (h0 : b0 < 256) (h1 : b1 < 256) (h2 : b2 < 256)
    (h3 : b3 < 256) :
    bytesOf 4 (b0 + 256 * b1 + 65536 * b2 + 16777216 * b3) = [b0, b1, b2, b3] ∧
    swapOf 4 (b0 + 256 * b1 + 65536 * b2 + 16777216 * b3)
      = b3 + 256 * b2 + 65536 * b1 + 16777216 * b0 := by
  refine ⟨?_, ?_⟩
  · rw [bytesOf_four]
    simp only [List.cons.injEq, and_true]
    refine ⟨?_, ?_, ?_, ?_⟩ <;> omega
  · have e : ¬ (4 = 2) := by decide
    simp only [swapOf, if_neg e, if_true]
    exact swap4_bytes b0 b1 b2 b3 h0 h1 h2 h3

theorem swapOf_eight (b0 b1 b2 b3 b4 b5 b6 b7 : Nat) (h0 : b0 < 256) (h1 : b1 < 256)
    (h2 : b2 < 256) (h3 : b3 < 256) (h4 : b4 < 256) (h5 : b5 < 256) (h6 : b6 < 256)
    (h7 : b7 < 256) :
    bytesOf 8 (b0 + 256 * b1 + 65536 * b2 + 16777216 * b3 + 4294967296 * b4
        + 1099511627776 * b5 + 281474976710656 * b6 + 72057594037927936 * b7)
      = [b0, b1, b2, b3, b4, b5, b6, b7] ∧
    swapOf 8 (b0 + 256 * b1 + 65536 * b2 + 16777216 * b3 + 4294967296 * b4
        + 1099511627776 * b5 + 281474976710656 * b6 + 72057594037927936 * b7)
      = b7 + 256 * b6 + 65536 * b5 + 16777216 * b4 + 4294967296 * b3 + 1099511627776 * b2
          + 281474976710656 * b1 + 72057594037927936 * b0 := by
  refine ⟨?_, ?_⟩
  · obtain ⟨e0, e1, e2, e3, e4, e5, e6, e7⟩ :=
      digits8 b0 b1 b2 b3 b4 b5 b6 b7 h0 h1 h2 h3 h4 h5 h6 h7 _ rfl
    rw [bytesOf_eight, e0, e1, e2, e3, e4, e5, e6, e7]
  · have e2 : ¬ (8 = 2) := by decide
    have e4 : ¬ (8 = 4) := by decide
    simp only [swapOf, if_neg e2, if_neg e4, if_true]
    exact swap8_bytes b0 b1 b2 b3 b4 b5 b6 b7 h0 h1 h2 h3 h4 h5 h6 h7

theorem swapOf_spec (w : Nat) (hw : w = 2 ∨ w = 4 ∨ w = 8) (x : Nat) (hx : x < 256 ^ w) :
    bytesOf w (swapOf w x) = (bytesOf w x).reverse ∧ swapOf w (swapOf w x) = x
      ∧ swapOf w x < 256 ^ w := by
  rcases hw with rfl | rfl | rfl
  · have hx2 : x < 65536 := by simpa using hx
    obtain ⟨b0, b1, h0, h1, rfl⟩ : ∃ b0 b1, b0 < 256 ∧ b1 < 256 ∧ x = b0 + 256 * b1 :=
      ⟨x % 256, x / 256 % 256, Nat.mod_lt _ (by norm_num), Nat.mod_lt _ (by norm_num),
        by omega⟩
    obtain ⟨hb, hs⟩ := swapOf_two b0 b1 h0 h1
    obtain ⟨hb1, hs1⟩ := swapOf_two b1 b0 h1 h0
    rw [hs, hb1, hs1, hb]
    refine ⟨rfl, rfl, ?_⟩
    norm_num
    omega
  · have hx2 : x < 4294967296 := by simpa using hx
    obtain ⟨b0, b1, b2, b3, h0, h1, h2, h3, rfl⟩ : ∃ b0 b1 b2 b3, b0 < 256 ∧ b1 < 256 ∧
        b2 < 256 ∧ b3 < 256 ∧ x = b0 + 256 * b1 + 65536 * b2 + 16777216 * b3 :=
      ⟨x % 256, x / 256 % 256, x / 65536 % 256, x / 16777216 % 256,
        Nat.mod_lt _ (by norm_num), Nat.mod_lt _ (by norm_num), Nat.mod_lt _ (by norm_num),
        Nat.mod_lt _ (by norm_num), by omega⟩
    obtain ⟨hb, hs⟩ := swapOf_four b0 b1 b2 b3 h0 h1 h2 h3
    obtain ⟨hb1, hs1⟩ := swapOf_four b3 b2 b1 b0 h3 h2 h1 h0
    rw [hs, hb1, hs1, hb]
    refine ⟨rfl, rfl, ?_⟩
    norm_num
    omega
  · have hx2 : x < 18446744073709551616 := by simpa using hx
    obtain ⟨b0, b1, b2, b3, b4, b5, b6, b7, h0, h1, h2, h3, h4, h5, h6, h7, rfl⟩ :
        ∃ b0 b1 b2 b3 b4 b5 b6 b7, b0 < 256 ∧ b1 < 256 ∧ b2 < 256 ∧ b3 < 256 ∧ b4 < 256 ∧
          b5 < 256 ∧ b6 < 256 ∧ b7 < 256 ∧
          x = b0 + 256 * b1 + 65536 * b2 + 16777216 * b3 + 4294967296 * b4
            + 1099511627776 * b5 + 281474976710656 * b6 + 72057594037927936 * b7 :=
      ⟨x % 256, x / 256 % 256, x / 65536 % 256, x / 16777216 % 256, x / 4294967296 % 256,
        x / 1099511627776 % 256, x / 281474976710656 % 256, x / 72057594037927936 % 256,
        Nat.mod_lt _ (by norm_num), Nat.mod_lt _ (by norm_num), Nat.mod_lt _ (by norm_num),
        Nat.mod_lt _ (by norm_num), Nat.mod_lt _ (by norm_num), Nat.mod_lt _ (by norm_num),
        Nat.mod_lt _ (by norm_num), Nat.mod_lt _ (by norm_num), by omega⟩
    obtain ⟨hb, hs⟩ := swapOf_eight b0 b1 b2 b3 b4 b5 b6 b7 h0 h1 h2 h3 h4 h5 h6 h7
    obtain ⟨hb1, hs1⟩ := swapOf_eight b7 b6 b5 b4 b3 b2 b1 b0 h7 h6 h5 h4 h3 h2 h1 h0
    rw [hs, hb1, hs1, hb]
    refine ⟨rfl, rfl, ?_⟩
    norm_num
    omega

namespace EbsdDataArray

theorem byteSwapLoop_step (w : Nat) (hw : w = 2 ∨ w = 4 ∨ w = 8) (i count : Nat)
    (block : List Nat) (hi : i < block.length) :
    byteSwapLoop w i (count + 1) block
      = byteSwapLoop w (i + 1) count (block.set i (swapOf w block[i])) := by
  have hget : block[i]? = some block[i] := List.getElem?_eq_getElem hi
  rcases hw with rfl | rfl | rfl
  · simp [byteSwapLoop, hget, store, hi, swapOf]
  · simp [byteSwapLoop, hget, store, hi, swapOf]
  · simp [byteSwapLoop, hget, store, hi, swapOf]

theorem byteSwapLoop_getElem? (w : Nat) (hw : w = 2 ∨ w = 4 ∨ w = 8) (count : Nat) :
    ∀ (i : Nat) (block : List Nat), i + count ≤ block.length →
      ∃ out, byteSwapLoop w i count block = some out ∧ out.length = block.length ∧
        ∀ j, out[j]? = if i ≤ j ∧ j < i + count then (block[j]?).map (swapOf w)
          else block[j]? := by
  induction count with
  | zero =>
    intro i block _
    refine ⟨block, rfl, rfl, ?_⟩
    intro j
    rw [if_neg (by omega)]
  | succ count ih =>
    intro i block h
    have hi : i < block.length := by omega
    rw [byteSwapLoop_step w hw i count block hi]
    obtain ⟨out, ho, hl, hp⟩ := ih (i + 1) (block.set i (swapOf w block[i]))
      (by rw [List.length_set]; omega)
    refine ⟨out, ho, by rw [hl, List.length_set], ?_⟩
    intro j
    rw [hp j, List.getElem?_set]
    by_cases hij : i = j
    · subst hij
      rw [if_neg (by omega), if_pos rfl, if_pos hi, if_pos (by omega),
        List.getElem?_eq_getElem hi]
      rfl
    · rw [if_neg hij]
      by_cases hr : i + 1 ≤ j ∧ j < i + 1 + count
      · rw [if_pos hr, if_pos (by omega)]
      · rw [if_neg hr, if_neg (by omega)]

theorem byteSwapLoop_all (w : Nat) (hw : w = 2 ∨ w = 4 ∨ w = 8) (block : List Nat) :
    byteSwapLoop w 0 block.length block = some (block.map (swapOf w)) := by
  obtain ⟨out, ho, hl, hp⟩ := byteSwapLoop_getElem? w hw block.length 0 block (by omega)
  rw [ho]
  congr 1
  apply List.ext_getElem?
  intro j
  rw [hp j, List.getElem?_map]
  by_cases hj : j < block.length
  · rw [if_pos (by omega)]
  · rw [if_neg (by omega), List.getElem?_eq_none (by omega)]
    rfl

theorem byteSwapLoop_other (w : Nat) (hw : ¬ (w = 2 ∨ w = 4 ∨ w = 8)) (count : Nat) :
    ∀ (i : Nat) (block : List Nat), byteSwapLoop w i count block = some block := by
  have h2 : ¬ w = 2 := fun h => hw (Or.inl h)
  have h4 : ¬ w = 4 := fun h => hw (Or.inr (Or.inl h))
  have h8 : ¬ w = 8 := fun h => hw (Or.inr (Or.inr h))
  induction count with
  | zero => intro i block; rfl
  | succ count ih =>
    intro i block
    simp only [byteSwapLoop, if_neg h2, if_neg h4, if_neg h8]
    exact ih (i + 1) block

/-- Claim C22. On an array whose block holds its `m_Size` elements, each given by a pattern
of `sizeofT` bytes: for `sizeofT` equal to 2, 4 or 8, `byteSwapElements` completes, changes
only the elements, puts the bytes of every element into the opposite order, and a second
call gives back the array as it was; for every other `sizeofT` (1 in particular) the array
is left as it is. -/
theorem byteSwapElements_spec (sizeofT : Nat) (s : EbsdDataArray Nat) (block : List Nat)
    (harr : s.m_Array = some block) (hlen : block.length = s.m_Size)
    (hrep : ∀ v, v ∈ block → v < 256 ^ sizeofT) :
    (sizeofT = 2 ∨ sizeofT = 4 ∨ sizeofT = 8 →
      ∃ block1, byteSwapElements sizeofT s = some { s with m_Array := some block1 } ∧
        block1.length = block.length ∧
        (∀ (i v : Nat), block[i]? = some v →
          ∃ v1, block1[i]? = some v1 ∧ bytesOf sizeofT v1 = (bytesOf sizeofT v).reverse) ∧
        byteSwapElements sizeofT { s with m_Array := some block1 } = some s) ∧
    (¬ (sizeofT = 2 ∨ sizeofT = 4 ∨ sizeofT = 8) → byteSwapElements sizeofT s = some s) := by
  have hself : ({ s with m_Array := some block } : EbsdDataArray Nat) = s := by
    cases s
    simp only at harr
    subst harr
    rfl
  refine ⟨?_, ?_⟩
  · intro hw
    refine ⟨block.map (swapOf sizeofT), ?_, by rw [List.length_map], ?_, ?_⟩
    · unfold byteSwapElements
      simp only [harr, ← hlen, byteSwapLoop_all sizeofT hw block]
    · intro i v hv
      refine ⟨swapOf sizeofT v, ?_, (swapOf_spec sizeofT hw v
        (hrep v (List.mem_iff_getElem?.mpr ⟨i, hv⟩))).1⟩
      rw [List.getElem?_map, hv]
      rfl
    · unfold byteSwapElements
      have e := byteSwapLoop_all sizeofT hw (block.map (swapOf sizeofT))
      rw [List.length_map, hlen] at e
      have hinv : (block.map (swapOf sizeofT)).map (swapOf sizeofT) = block := by
        rw [List.map_map]
        conv_rhs => rw [← List.map_id block]
        apply List.map_congr_left
        intro v hv
        exact (swapOf_spec sizeofT hw v (hrep v hv)).2.1
      simp only [e, hinv]
      exact congrArg some hself
  · intro hw
    unfold byteSwapElements
    simp only [harr, byteSwapLoop_other sizeofT hw]
    exact congrArg some hself

end EbsdDataArray

namespace EbsdDataArray

/-- Claim C22 on the `uint32_t` array `0x11223344, 0x000000FF`, which the call turns into
`0x44332211, 0xFF000000`. -/
theorem byteSwapElements_spec_witness :
    (byteSwapElements 4 sampleWords).map (fun s => s.m_Array)
      = some (some [1144201745, 4278190080]) ∧
    ((4 = 2 ∨ 4 = 4 ∨ 4 = 8 →
      ∃ block1, byteSwapElements 4 sampleWords
          = some { sampleWords with m_Array := some block1 } ∧
        block1.length = [287454020, 255].length ∧
        (∀ (i v : Nat), [287454020, 255][i]? = some v →
          ∃ v1, block1[i]? = some v1 ∧ bytesOf 4 v1 = (bytesOf 4 v).reverse) ∧
        byteSwapElements 4 { sampleWords with m_Array := some block1 } = some sampleWords) ∧
    (¬ (4 = 2 ∨ 4 = 4 ∨ 4 = 8) → byteSwapElements 4 sampleWords = some sampleWords)) :=
  ⟨by decide, byteSwapElements_spec 4 sampleWords [287454020, 255] rfl rfl (by decide)⟩

end EbsdDataArray

/-! ## `eraseTuples` and the tuple count; `copyTuple` on an empty array -/

namespace EbsdDataArray

/-- Claim C29 fails on the code. Erasing the tuples `1` and `3` of the five scalars
`100, ..., 104` succeeds (code `0`) and leaves the three elements `100, 102, 104`, with
`getSize() = 3`; `getNumberOfTuples()` still returns `5`, not `5 - 2`, because `eraseTuples`
never assigns `m_NumTuples` on this path. -/
theorem eraseTuples_tuple_count_stale :
    (sampleScalars.eraseTuples [1, 3]).map
        (fun r => (r.1, r.2.getNumberOfTuples, r.2.getSize, r.2.m_Array))
      = some (0, 5, 3, some [100, 102, 104]) := by
  decide

/-- Claim C30 fails on the code. On an empty one-component array (default-constructed, or
cleared) `m_MaxId` is `0`, so the bound `(m_MaxId + 1) / m_NumComponents` of `copyTuple` is
`1`: position `0` passes the test although the array has no tuple, and the `memcpy` runs on
the null `m_Array`. The call has no result; it does not return `-1`. Position `1` is
refused. -/
theorem copyTuple_on_empty_array :
    emptyArray.getNumberOfTuples = 0 ∧ emptyArray.copyTuple 0 0 = none ∧
    sampleScalars.clear.getNumberOfTuples = 0 ∧ sampleScalars.clear.copyTuple 0 0 = none ∧
    emptyArray.copyTuple 1 0 = some (-1, emptyArray) := by
  decide

end EbsdDataArray

/-! ## Python binding: `Quaternion(list, order)` -/

theorem pyCastItem_ne_runtime_error {Obj : Type} (cast : Obj → Option ℚ) (list : List Obj)
    (k : Nat) (msg : String) :
    pyCastItem cast list k ≠ Except.error (PyError.runtime_error msg) := by
  unfold pyCastItem
  intro h
  split at h
  · cases h
  · split at h <;> cases h

/-- Claim C28. The constructor `Quaternion(list, order)` of the Python binding ends with the
error "Size must be 4" exactly when the list does not have four entries; for a list
`[a, b, c, d]` of convertible entries the tag `ScalarVector` gives `w = a, x = b, y = c,
z = d` and the tag `VectorScalar` gives `x = a, y = b, z = c, w = d`. -/
theorem bindQuaternion_init_spec {Obj : Type} (cast : Obj → Option ℚ) (list : List Obj)
    (order : QuatOrder) :
    (bindQuaternion_init cast list order
        = Except.error (PyError.runtime_error "Size must be 4") ↔ list.length ≠ 4) ∧
    (∀ (a b c d : Obj) (va vb vc vd : ℚ), list = [a, b, c, d] → cast a = some va →
      cast b = some vb → cast c = some vc → cast d = some vd →
      bindQuaternion_init cast list QuatOrder.ScalarVector
          = Except.ok { w := va, x := vb, y := vc, z := vd } ∧
      bindQuaternion_init cast list QuatOrder.VectorScalar
          = Except.ok { x := va, y := vb, z := vc, w := vd }) := by
  refine ⟨⟨?_, ?_⟩, ?_⟩
  · intro h hlen
    unfold bindQuaternion_init at h
    rw [if_neg (by simpa using hlen)] at h
    cases order <;> dsimp only at h <;>
      (repeat' split at h) <;>
      first
        | (cases h; done)
        | (cases h; rename_i heq; exact pyCastItem_ne_runtime_error cast list _ _ heq)
  · intro hlen
    unfold bindQuaternion_init
    rw [if_pos hlen]
  · intro a b c d va vb vc vd hl ha hb hc hd
    subst hl
    simp [bindQuaternion_init, pyCastItem, ha, hb, hc, hd]

namespace EbsdDataArray

variable {T : Type}

theorem copyTuple_of_allocated (s : EbsdDataArray T) (n c : Nat) (block : List T)
    (hs : Allocated s n c block) (hc : 0 < c) (hn : 0 < n) (currentPos newPos : Nat) :
    (currentPos ≥ n ∨ newPos ≥ n → s.copyTuple currentPos newPos = some (-1, s)) ∧
    (currentPos < n → newPos < n →
      ∃ block1, s.copyTuple currentPos newPos = some (0, { s with m_Array := some block1 }) ∧
        block1.length = block.length ∧
        ∀ j, block1[j]? = if newPos * c ≤ j ∧ j < newPos * c + c then
          block[currentPos * c + (j - newPos * c)]? else block[j]?) := by
  obtain ⟨ha, harr, hlen, hsize, hmaxid, hnt, hnc, hb⟩ := hs
  cases s with
  | mk nm arr sz mx nt nc iv cd al ow =>
  simp only at ha harr hsize hmaxid hnt hnc
  subst harr hsize ha hmaxid hnt hnc
  have hpos : 0 < nt * nc := Nat.mul_pos hn hc
  have hmax : (nt * nc - 1 + 1) / nc = nt := by
    rw [Nat.sub_add_cancel hpos, Nat.mul_div_cancel _ hc]
  have hc0 : ¬ (nc = 0) := by omega
  refine ⟨?_, ?_⟩
  · intro h
    unfold copyTuple
    simp only [if_neg hc0, hmax, if_pos h]
  · intro h1 h2
    have hg : ¬ (currentPos ≥ nt ∨ newPos ≥ nt) := by omega
    have b1 : newPos * nc + nc ≤ block.length := by
      rw [hlen]
      calc newPos * nc + nc = (newPos + 1) * nc := by ring
        _ ≤ nt * nc := Nat.mul_le_mul_right nc (by omega)
    have b2 : currentPos * nc + nc ≤ block.length := by
      rw [hlen]
      calc currentPos * nc + nc = (currentPos + 1) * nc := by ring
        _ ≤ nt * nc := Nat.mul_le_mul_right nc (by omega)
    obtain ⟨out, ho⟩ :
        ∃ out, memcpy block (newPos * nc) block (currentPos * nc) nc = some out :=
      ⟨_, memcpy_eq_some _ _ _ _ _ b1 b2⟩
    refine ⟨out, ?_, memcpy_length ho, fun j => memcpy_getElem? ho j⟩
    unfold copyTuple
    simp only [if_neg hc0, hmax, if_neg hg, ho]

end EbsdDataArray

/-! ## Inverse pole figure colours -/

namespace CubicLowOps

theorem bound_lt_one (v : ℚ) (h : v < 1) : EbsdLibMath.bound v (-1) 1 < 1 := by
  unfold EbsdLibMath.bound
  split
  · norm_num
  · split
    · rename_i h2
      exact absurd h (not_lt.mpr (le_of_lt h2))
    · exact h

theorem ninetyDegrees_in_degrees : ninetyDegrees * k_180OverPi ≤ 90 := by
  unfold ninetyDegrees k_180OverPi
  norm_num

theorem unit_product_bounds (a t : ℚ) (ha0 : 0 ≤ a) (ha1 : a ≤ 1) (ht0 : 0 ≤ t) (ht1 : t ≤ 1) :
    0 ≤ a * t ∧ a * t ≤ 1 := by
  refine ⟨mul_nonneg ha0 ht0, ?_⟩
  calc a * t ≤ 1 * 1 := mul_le_mul ha1 ht1 ht0 (by norm_num)
    _ = 1 := by norm_num

end CubicLowOps

/-- Claim C21. With a `sqrt` that maps `[0, 1]` into `[0, 1]` and stays below `1` on
`[0, 1/2]`, and an `acos` that is positive below `1`: whenever `inUnitTriangle(eta, chi)`
holds for the pair used for colouring, the three values of `_rgb` before the square roots
lie in `[0, 1]`, and the three values handed to the packer (after the square root and the
multiplication by `255`) lie in `[0, 255]`. -/
theorem CubicLowOps.generateIPFColor_channels_bounds (tanf sqrt acos : ℚ → ℚ) (eta chi : ℚ)
    (hsqrt : ∀ y, 0 ≤ y → y ≤ 1 → 0 ≤ sqrt y ∧ sqrt y ≤ 1)
    (hhalf : ∀ y, 0 ≤ y → y ≤ 1 / 2 → sqrt y < 1)
    (hacos : ∀ x, x < 1 → 0 < acos x)
    (h : CubicLowOps.inUnitTriangle tanf sqrt acos eta chi = true) :
    ((0 ≤ (CubicLowOps.generateIPFColor_channels tanf sqrt acos eta chi).1
        ∧ (CubicLowOps.generateIPFColor_channels tanf sqrt acos eta chi).1 ≤ 1)
      ∧ (0 ≤ (CubicLowOps.generateIPFColor_channels tanf sqrt acos eta chi).2.1
        ∧ (CubicLowOps.generateIPFColor_channels tanf sqrt acos eta chi).2.1 ≤ 1)
      ∧ (0 ≤ (CubicLowOps.generateIPFColor_channels tanf sqrt acos eta chi).2.2
        ∧ (CubicLowOps.generateIPFColor_channels tanf sqrt acos eta chi).2.2 ≤ 1)) ∧
    ((0 ≤ (CubicLowOps.generateIPFColor_scaled tanf sqrt acos eta chi).1
        ∧ (CubicLowOps.generateIPFColor_scaled tanf sqrt acos eta chi).1 ≤ 255)
      ∧ (0 ≤ (CubicLowOps.generateIPFColor_scaled tanf sqrt acos eta chi).2.1
        ∧ (CubicLowOps.generateIPFColor_scaled tanf sqrt acos eta chi).2.1 ≤ 255)
      ∧ (0 ≤ (CubicLowOps.generateIPFColor_scaled tanf sqrt acos eta chi).2.2
        ∧ (CubicLowOps.generateIPFColor_scaled tanf sqrt acos eta chi).2.2 ≤ 255)) := by
  have hroot : ∀ t : ℚ, sqrt (1 / (2 + t * t)) < 1 := by
    intro t
    have ht : (0 : ℚ) ≤ t * t := mul_self_nonneg t
    have hpos : (0 : ℚ) < 2 + t * t := by linarith
    exact hhalf _ (le_of_lt (one_div_pos.mpr hpos))
      (one_div_le_one_div_of_le (by norm_num) (by linarith))
  have hraw : (if eta * k_180OverPi > 45 then
        sqrt (1 / (2 + tanf (1 / 2 * k_Pi - eta) * tanf (1 / 2 * k_Pi - eta)))
      else sqrt (1 / (2 + tanf eta * tanf eta))) < 1 := by
    split
    · exact hroot _
    · exact hroot _
  have hcm := hacos _ (CubicLowOps.bound_lt_one _ hraw)
  unfold CubicLowOps.inUnitTriangle at h
  simp only [Bool.not_eq_true', Bool.or_eq_false_iff, decide_eq_false_iff_not, not_lt] at h
  obtain ⟨⟨⟨heta0, heta1⟩, hchi0⟩, hchi1⟩ := h
  have hk : (0 : ℚ) < k_180OverPi := by unfold k_180OverPi; norm_num
  have hdeg0 : 0 ≤ eta * k_180OverPi := mul_nonneg heta0 (le_of_lt hk)
  have hdeg1 : eta * k_180OverPi ≤ 90 :=
    le_trans (mul_le_mul_of_nonneg_right heta1 (le_of_lt hk))
      CubicLowOps.ninetyDegrees_in_degrees
  have he0 : 0 ≤ |eta * k_180OverPi - 0| / (90 - 0) := by
    rw [sub_zero, sub_zero, abs_of_nonneg hdeg0]
    exact div_nonneg hdeg0 (by norm_num)
  have he1 : |eta * k_180OverPi - 0| / (90 - 0) ≤ 1 := by
    rw [sub_zero, sub_zero, abs_of_nonneg hdeg0]
    exact (div_le_one (by norm_num)).mpr hdeg1
  have key : ∀ cm : ℚ, 0 < cm → chi ≤ cm →
      (0 ≤ 1 - chi / cm ∧ 1 - chi / cm ≤ 1)
      ∧ (0 ≤ (1 - |eta * k_180OverPi - 0| / (90 - 0)) * (chi / cm)
        ∧ (1 - |eta * k_180OverPi - 0| / (90 - 0)) * (chi / cm) ≤ 1)
      ∧ (0 ≤ |eta * k_180OverPi - 0| / (90 - 0) * (chi / cm)
        ∧ |eta * k_180OverPi - 0| / (90 - 0) * (chi / cm) ≤ 1) := by
    intro cm hcm0 hle
    have ht0 : 0 ≤ chi / cm := div_nonneg hchi0 (le_of_lt hcm0)
    have ht1 : chi / cm ≤ 1 := (div_le_one hcm0).mpr hle
    exact ⟨⟨by linarith, by linarith⟩,
      CubicLowOps.unit_product_bounds _ _ (by linarith) (by linarith) ht0 ht1,
      CubicLowOps.unit_product_bounds _ _ he0 he1 ht0 ht1⟩
  have hc : ((0 ≤ (CubicLowOps.generateIPFColor_channels tanf sqrt acos eta chi).1
        ∧ (CubicLowOps.generateIPFColor_channels tanf sqrt acos eta chi).1 ≤ 1)
      ∧ (0 ≤ (CubicLowOps.generateIPFColor_channels tanf sqrt acos eta chi).2.1
        ∧ (CubicLowOps.generateIPFColor_channels tanf sqrt acos eta chi).2.1 ≤ 1)
      ∧ (0 ≤ (CubicLowOps.generateIPFColor_channels tanf sqrt acos eta chi).2.2
        ∧ (CubicLowOps.generateIPFColor_channels tanf sqrt acos eta chi).2.2 ≤ 1)) := by
    unfold CubicLowOps.generateIPFColor_channels
    exact key _ hcm hchi1
  refine ⟨hc, ?_⟩
  obtain ⟨⟨h1a, h1b⟩, ⟨h2a, h2b⟩, ⟨h3a, h3b⟩⟩ := hc
  unfold CubicLowOps.generateIPFColor_scaled
  dsimp only
  have s1 := hsqrt _ h1a h1b
  have s2 := hsqrt _ h2a h2b
  have s3 := hsqrt _ h3a h3b
  refine ⟨⟨?_, ?_⟩, ⟨?_, ?_⟩, ⟨?_, ?_⟩⟩ <;> linarith [s1.1, s1.2, s2.1, s2.2, s3.1, s3.2]

/-- Claim C21 at `eta = 1/2`, `chi = 1/4` with stand-ins for the library functions. -/
theorem CubicLowOps.generateIPFColor_channels_bounds_witness :
    CubicLowOps.inUnitTriangle CubicLowOps.sampleTanf CubicLowOps.sampleSqrt
        CubicLowOps.sampleAcos (1 / 2) (1 / 4) = true ∧
    ((0 ≤ (CubicLowOps.generateIPFColor_channels CubicLowOps.sampleTanf CubicLowOps.sampleSqrt
          CubicLowOps.sampleAcos (1 / 2) (1 / 4)).1
        ∧ (CubicLowOps.generateIPFColor_channels CubicLowOps.sampleTanf CubicLowOps.sampleSqrt
          CubicLowOps.sampleAcos (1 / 2) (1 / 4)).1 ≤ 1)
      ∧ (0 ≤ (CubicLowOps.generateIPFColor_channels CubicLowOps.sampleTanf
          CubicLowOps.sampleSqrt CubicLowOps.sampleAcos (1 / 2) (1 / 4)).2.1
        ∧ (CubicLowOps.generateIPFColor_channels CubicLowOps.sampleTanf CubicLowOps.sampleSqrt
          CubicLowOps.sampleAcos (1 / 2) (1 / 4)).2.1 ≤ 1)
      ∧ (0 ≤ (CubicLowOps.generateIPFColor_channels CubicLowOps.sampleTanf
          CubicLowOps.sampleSqrt CubicLowOps.sampleAcos (1 / 2) (1 / 4)).2.2
        ∧ (CubicLowOps.generateIPFColor_channels CubicLowOps.sampleTanf CubicLowOps.sampleSqrt
          CubicLowOps.sampleAcos (1 / 2) (1 / 4)).2.2 ≤ 1)) :=
  ⟨by norm_num [CubicLowOps.inUnitTriangle, EbsdLibMath.bound, CubicLowOps.sampleTanf,
      CubicLowOps.sampleSqrt, CubicLowOps.sampleAcos, k_180OverPi, k_Pi, ninetyDegrees],
   (CubicLowOps.generateIPFColor_channels_bounds CubicLowOps.sampleTanf CubicLowOps.sampleSqrt
      CubicLowOps.sampleAcos (1 / 2) (1 / 4)
      (fun _ h0 h1 => ⟨h0, h1⟩)
      (fun y _ h1 => lt_of_le_of_lt h1 (by norm_num))
      (fun x hx => by unfold CubicLowOps.sampleAcos; linarith)
      (by norm_num [CubicLowOps.inUnitTriangle, EbsdLibMath.bound, CubicLowOps.sampleTanf,
        CubicLowOps.sampleSqrt, CubicLowOps.sampleAcos, k_180OverPi, k_Pi,
        ninetyDegrees])).1⟩

/-! ## `H5CtfReader::readFile`: the returned code -/

namespace H5CtfReader

/-- Claim C32 fails on the code. With a non-empty path, a file and a group that open and
closes that succeed, `readFile` returns `0` although `readHeader` returned `-1` and `readData`
returned `-1` (no cells: `TotalDataRows = 0`): the results of `readHeader` and `readData`
are assigned to `err` and overwritten, and what is returned is the result of
`QH5Utilities::closeFile`. This holds for every library and every reader: once the file and
the group are open, the result of `readFile` is that of `closeFile`. For an empty path, a
file that does not open or a group that does not open the result is `-1`. The sibling
`readHeaderOnly` does return the result of `readHeader`. -/
theorem readFile_ignores_read_errors :
    (readData healthyLibrary (fun r _ => (0, r)) sampleReader 2).1 = -1 ∧
    (readFile healthyLibrary (fun r _ => (-1, r)) (fun r _ => (0, r)) sampleReader).1 = 0 ∧
    (readHeaderOnly healthyLibrary (fun r _ => (-1, r)) sampleReader).1 = -1 ∧
    (∀ (lib : H5Library) (readHeader readArrays : H5CtfReader → Int → Int × H5CtfReader)
        (r : H5CtfReader),
      (r.m_HDF5Path = "" → (readFile lib readHeader readArrays r).1 = -1) ∧
      (r.m_HDF5Path ≠ "" → lib.openFile r.fileName < 0 →
        (readFile lib readHeader readArrays r).1 = -1) ∧
      (r.m_HDF5Path ≠ "" → 0 ≤ lib.openFile r.fileName →
        lib.H5Gopen (lib.openFile r.fileName) r.m_HDF5Path < 0 →
        (readFile lib readHeader readArrays r).1 = -1) ∧
      (r.m_HDF5Path ≠ "" → 0 ≤ lib.openFile r.fileName →
        0 ≤ lib.H5Gopen (lib.openFile r.fileName) r.m_HDF5Path →
        (readFile lib readHeader readArrays r).1 = lib.closeFile (lib.openFile r.fileName))) := by
  refine ⟨by decide, by decide, by decide, ?_⟩
  intro lib readHeader readArrays r
  refine ⟨?_, ?_, ?_, ?_⟩
  · intro h
    simp [readFile, h]
  · intro h h1
    simp [readFile, h, h1]
  · intro h h1 h2
    simp [readFile, h, not_lt.mpr h1, h2]
  · intro h h1 h2
    simp [readFile, h, not_lt.mpr h1, not_lt.mpr h2]

end H5CtfReader

/-! ## `copyFromArray`: the tests in `size_t` arithmetic -/

namespace EbsdDataArray

variable {T : Type}

theorem toSizeT_toInt32 {n : Nat} (h : n < 2 ^ 31) : toSizeT (toInt32 n) = n := by
  rw [toInt32_of_lt h]
  unfold toSizeT
  have : ((n : Int) % 2 ^ 64) = (n : Int) := Int.emod_eq_of_lt (by omega) (by omega)
  rw [this]
  simp

theorem copyFromArray_guards (s source s1 : EbsdDataArray T) (destTupleOffset srcTupleOffset
    totalSrcTuples : Nat) (b : Bool)
    (h : s.copyFromArray destTupleOffset source srcTupleOffset totalSrcTuples = some (b, s1)) :
    (b = true →
      srcTupleOffset + totalSrcTuples ≤ source.getNumberOfTuples ∧
      (destTupleOffset + totalSrcTuples) * s.getNumberOfComponents ≤ s.getSize) ∧
    (b = false → s1 = s) := by
  unfold copyFromArray at h
  repeat' split at h
  all_goals try dsimp only at h
  all_goals try split at h
  all_goals first
    | (cases h; done)
    | (cases h; exact ⟨fun hc => absurd hc (by decide), fun _ => rfl⟩)
    | (cases h
       refine ⟨fun _ => ?_, fun hc => absurd hc (by decide)⟩
       rename_i hc hs hd _ _ _ _
       have hc2 : source.getNumberOfComponents = s.getNumberOfComponents := not_not.mp hc
       rw [hc2] at hd
       refine ⟨not_lt.mp hs, ?_⟩
       rw [Nat.add_mul, Nat.add_comm]
       exact not_lt.mp hd)

theorem copyFromArray_sizet_eq (sizeofT : Nat) (hT : 0 < sizeofT) (s source : EbsdDataArray T)
    (destTupleOffset srcTupleOffset totalSrcTuples : Nat) (hc : s.m_NumComponents < 2 ^ 31)
    (hcs : source.m_NumComponents < 2 ^ 31)
    (h1 : srcTupleOffset + totalSrcTuples < 2 ^ 64)
    (h2 : totalSrcTuples * source.m_NumComponents + destTupleOffset * s.m_NumComponents < 2 ^ 64)
    (h3 : srcTupleOffset * source.m_NumComponents < 2 ^ 64)
    (h4 : totalSrcTuples * source.m_NumComponents * sizeofT < 2 ^ 64) :
    copyFromArray_sizet sizeofT s destTupleOffset source srcTupleOffset totalSrcTuples
      = s.copyFromArray destTupleOffset source srcTupleOffset totalSrcTuples := by
  have e1 : (srcTupleOffset + totalSrcTuples) % 2 ^ 64 = srcTupleOffset + totalSrcTuples :=
    Nat.mod_eq_of_lt h1
  have e2 : totalSrcTuples * source.m_NumComponents % 2 ^ 64
      = totalSrcTuples * source.m_NumComponents := Nat.mod_eq_of_lt (by omega)
  have e3 : destTupleOffset * s.m_NumComponents % 2 ^ 64 = destTupleOffset * s.m_NumComponents :=
    Nat.mod_eq_of_lt (by omega)
  have e4 : (totalSrcTuples * source.m_NumComponents + destTupleOffset * s.m_NumComponents)
      % 2 ^ 64 = totalSrcTuples * source.m_NumComponents + destTupleOffset * s.m_NumComponents :=
    Nat.mod_eq_of_lt h2
  have e5 : srcTupleOffset * source.m_NumComponents % 2 ^ 64
      = srcTupleOffset * source.m_NumComponents := Nat.mod_eq_of_lt h3
  have e6 : totalSrcTuples * source.m_NumComponents * sizeofT % 2 ^ 64 / sizeofT
      = totalSrcTuples * source.m_NumComponents := by
    rw [Nat.mod_eq_of_lt h4, Nat.mul_div_cancel _ hT]
  have e7 : (toInt32 source.m_NumComponents ≠ toInt32 s.m_NumComponents)
      ↔ (source.m_NumComponents ≠ s.m_NumComponents) := by
    rw [toInt32_of_lt hc, toInt32_of_lt hcs]
    exact not_congr Nat.cast_inj
  unfold copyFromArray_sizet copyFromArray
  simp only [toSizeT_toInt32 hc, toSizeT_toInt32 hcs, e1, e2, e3, e4, e5, e6, e7,
    getNumberOfComponents]

/-- Claim C31 fails on the code. The sums and products of the tests of `copyFromArray` are
`size_t` values and wrap around `2 ^ 64`. (a) On two arrays of three two-component tuples,
`copyFromArray(0, source, 2^63, 2^63)` returns `true` (it copies nothing) although
`srcTupleOffset + totalSrcTuples = 2^64` exceeds the three tuples of the source. (b) On two
arrays of ten scalars, `copyFromArray(1, source, 1, 2^64 - 1)` passes every test (both sums
wrap to `0`) and then asks `memcpy` for `2^62 - 1` elements, far outside both buffers: the
call has no result. In exact arithmetic both calls are refused with `false`. -/
theorem copyFromArray_tests_wrap :
    (copyFromArray_sizet 4 sampleArray 0 sampleArray (2 ^ 63) (2 ^ 63)
        = some (true, sampleArray) ∧
      ¬ (2 ^ 63 + 2 ^ 63 ≤ sampleArray.getNumberOfTuples)) ∧
    (copyFromArray_sizet 4 tenTuples 1 tenSource 1 (2 ^ 64 - 1) = none ∧
      ¬ ((1 + (2 ^ 64 - 1)) * tenTuples.getNumberOfComponents ≤ tenTuples.getSize)) ∧
    sampleArray.copyFromArray 0 sampleArray (2 ^ 63) (2 ^ 63) = some (false, sampleArray) ∧
    tenTuples.copyFromArray 1 tenSource 1 (2 ^ 64 - 1) = some (false, tenTuples) := by
  decide

theorem copyFromArray_sizet_below_wrap (sizeofT : Nat) (hT : 0 < sizeofT)
    (d src d' : EbsdDataArray T) (destTupleOffset srcTupleOffset totalSrcTuples : Nat)
    (hc : d.m_NumComponents < 2 ^ 31) (hcs : src.m_NumComponents < 2 ^ 31)
    (h1 : srcTupleOffset + totalSrcTuples < 2 ^ 64)
    (h2 : totalSrcTuples * src.m_NumComponents + destTupleOffset * d.m_NumComponents < 2 ^ 64)
    (h3 : srcTupleOffset * src.m_NumComponents < 2 ^ 64)
    (h4 : totalSrcTuples * src.m_NumComponents * sizeofT < 2 ^ 64)
    (h : copyFromArray_sizet sizeofT d destTupleOffset src srcTupleOffset totalSrcTuples
      = some (true, d')) :
    (∀ k, k < totalSrcTuples → ∀ j, j < d.getNumberOfComponents →
      ∃ v, d'.getValue ((destTupleOffset + k) * d.getNumberOfComponents + j) = some v ∧
        src.getValue ((srcTupleOffset + k) * d.getNumberOfComponents + j) = some v) ∧
    (∀ i, (i < destTupleOffset * d.getNumberOfComponents ∨
        (destTupleOffset + totalSrcTuples) * d.getNumberOfComponents ≤ i) →
      d'.getValue i = d.getValue i) := by
  rw [copyFromArray_sizet_eq sizeofT hT d src destTupleOffset srcTupleOffset totalSrcTuples
    hc hcs h1 h2 h3 h4] at h
  exact copyFromArray_exact d src d' destTupleOffset srcTupleOffset totalSrcTuples h

/-- Claim C5 fails on the code. On two different arrays of three two-component tuples,
`copyFromArray(0, source, 2 ^ 63, 2 ^ 63)` returns `true`: the sum
`srcTupleOffset + totalSrcTuples` and the product `totalSrcTuples * 2` of its two tests are
`0` in `size_t`. It copies `0` bytes, so the destination is as before, while the claim asks
for every `k < 2 ^ 63` that tuple `k` of the destination equal tuple `2 ^ 63 + k` of the
source: the source has three tuples and no element at that place, and tuple `0` of the
destination still starts with `10`. -/
theorem copyFromArray_true_without_copy :
    copyFromArray_sizet 4 sampleArray 0 sampleSource (2 ^ 63) (2 ^ 63)
      = some (true, sampleArray) ∧
    sampleSource.getNumberOfTuples = 3 ∧
    sampleSource.getValue ((2 ^ 63 + 0) * 2 + 0) = none ∧
    sampleArray.getValue ((0 + 0) * 2 + 0) = some 10 ∧
    ¬ (∀ k, k < 2 ^ 63 → ∀ j, j < sampleArray.getNumberOfComponents →
        ∃ v, sampleArray.getValue ((0 + k) * sampleArray.getNumberOfComponents + j) = some v ∧
          sampleSource.getValue ((2 ^ 63 + k) * sampleArray.getNumberOfComponents + j)
            = some v) := by
  refine ⟨by decide, by decide, by decide, by decide, ?_⟩
  intro h
  obtain ⟨v, -, hv⟩ := h 0 (by decide) 0 (by decide)
  have hnone : sampleSource.getValue ((2 ^ 63 + 0) * sampleArray.getNumberOfComponents + 0)
      = none := by decide
  rw [hnone] at hv
  cases hv

end EbsdDataArray

/-! ## `getMDFFZRod`: the reassembled axis and angle -/

/-- Claim C35. For every axis-angle `(n1, n2, n3, w)`, ties among `|n1|`, `|n2|`, `|n3|`
included, the axis that `getMDFFZRod` reassembles is a permutation of `(|n1|, |n2|, |n3|)`
and the reassembled angle is `w`; with two or all three values equal, e.g. for
`(1, -1, 1/2, w)` and `(-1, 1, 1, w)`, the result is `(1, 1, 1/2, w)` and `(1, 1, 1, w)`. -/
theorem CubicLowOps.getMDFFZRod_axis_permutation (n1 n2 n3 w : ℚ) :
    ([(CubicLowOps.getMDFFZRod_axisAngle (n1, n2, n3, w)).1,
        (CubicLowOps.getMDFFZRod_axisAngle (n1, n2, n3, w)).2.1,
        (CubicLowOps.getMDFFZRod_axisAngle (n1, n2, n3, w)).2.2.1].Perm [|n1|, |n2|, |n3|] ∧
      (CubicLowOps.getMDFFZRod_axisAngle (n1, n2, n3, w)).2.2.2 = w) ∧
    CubicLowOps.getMDFFZRod_axisAngle (1, -1, 1 / 2, w) = (1, 1, 1 / 2, w) ∧
    CubicLowOps.getMDFFZRod_axisAngle (-1, 1, 1, w) = (1, 1, 1, w) := by
  refine ⟨?_, ?_, ?_⟩
  · unfold CubicLowOps.getMDFFZRod_axisAngle
    simp only
    by_cases h12 : |n1| > |n2|
    · by_cases h13 : |n1| > |n3|
      · by_cases h23 : |n2| > |n3|
        · simp only [h12, h13, h23, if_true]
          exact ⟨List.Perm.refl _, trivial⟩
        · simp only [h12, h13, h23, if_true, if_false]
          exact ⟨(List.Perm.swap _ _ _).cons _, trivial⟩
      · simp only [h12, h13, if_true, if_false]
        refine ⟨?_, trivial⟩
        exact (List.perm_append_comm : ([|n3|] ++ [|n1|, |n2|]).Perm ([|n1|, |n2|] ++ [|n3|]))
    · by_cases h23 : |n2| > |n3|
      · by_cases h13 : |n1| > |n3|
        · simp only [h12, h13, h23, if_true, if_false]
          exact ⟨List.Perm.swap _ _ _, trivial⟩
        · simp only [h12, h13, h23, if_true, if_false]
          refine ⟨?_, trivial⟩
          exact (List.perm_append_comm :
            ([|n2|, |n3|] ++ [|n1|]).Perm ([|n1|] ++ [|n2|, |n3|]))
      · simp only [h12, h23, if_false]
        exact ⟨List.reverse_perm [|n1|, |n2|, |n3|], trivial⟩
  · simp [CubicLowOps.getMDFFZRod_axisAngle]
    norm_num [abs_of_pos]
  · simp [CubicLowOps.getMDFFZRod_axisAngle]

/-! ## The matrix table as a group -/

/-- Claim C33. The table `CubicLowMatSym` has 12 entries, pairwise distinct; every entry `M`
is a proper rotation (`M · Mᵀ = I` and `det M = 1`); the first entry is the identity; the
product of any two entries and the transpose of any entry are entries of the table again. -/
theorem CubicLow.matSym_rotation_group :
    CubicLow.CubicLowMatSym.length = 12 ∧ CubicLow.CubicLowMatSym.Nodup ∧
    (∀ M, M ∈ CubicLow.CubicLowMatSym →
      matMul M (matTranspose M) = matIdentity ∧ matDet M = 1) ∧
    CubicLow.CubicLowMatSym[0]? = some matIdentity ∧
    (∀ A, A ∈ CubicLow.CubicLowMatSym → ∀ B, B ∈ CubicLow.CubicLowMatSym →
      matMul A B ∈ CubicLow.CubicLowMatSym) ∧
    (∀ A, A ∈ CubicLow.CubicLowMatSym → matTranspose A ∈ CubicLow.CubicLowMatSym) := by
  refine ⟨rfl, ?_, ?_, ?_, ?_, ?_⟩
  · decide!
  · decide!
  · decide!
  · decide!
  · decide!

/-! ## The quaternion table and the matrix table hold the same rotations -/

/-- Claim C34. Every entry of `QuatSym` has unit norm and its rotation matrix is an entry of
`CubicLowMatSym`, and every entry of `CubicLowMatSym` is the rotation matrix of an entry of
`QuatSym`; both tables have 12 entries, and the same holds when the transposed matrix (the
other rotation convention) is taken. -/
theorem CubicLow.quatSym_matSym_same_rotations :
    (CubicLow.QuatSym.length = 12 ∧ CubicLow.CubicLowMatSym.length = 12) ∧
    (∀ q, q ∈ CubicLow.QuatSym → q.x * q.x + q.y * q.y + q.z * q.z + q.w * q.w = 1 ∧
      qu2om q ∈ CubicLow.CubicLowMatSym ∧ Transpose3x3 (qu2om q) ∈ CubicLow.CubicLowMatSym) ∧
    (∀ M, M ∈ CubicLow.CubicLowMatSym →
      (∃ q, q ∈ CubicLow.QuatSym ∧ qu2om q = M) ∧
      (∃ q, q ∈ CubicLow.QuatSym ∧ Transpose3x3 (qu2om q) = M)) := by
  refine ⟨⟨rfl, rfl⟩, ?_, ?_⟩
  · decide!
  · decide!

/-! ## Sphere coordinates: antipodal pairs -/

namespace CubicLow

theorem pairAt_of_same {a b : List ℚ} {off : Nat}
    (h : ∀ j, off ≤ j → j < off + 6 → b[j]? = a[j]?) (ha : PairAt a off) : PairAt b off := by
  intro k hk
  obtain ⟨v, h1, h2⟩ := ha k hk
  refine ⟨v, ?_, ?_⟩
  · rw [h (off + k) (by omega) (by omega)]
    exact h1
  · rw [h (off + 3 + k) (by omega) (by omega)]
    exact h2

theorem triple_getElem? (x0 x1 x2 : ℚ) (k : Nat) (hk : k < 3) :
    [x0, x1, x2][k]? = some ([x0, x1, x2].getD k 0) := by
  interval_cases k <;> rfl

theorem writeDirection_pair (g : List (List ℚ)) (d out : List ℚ) (off : Nat)
    (h : off + 6 ≤ out.length) :
    ∃ out1, writeDirection g d out off = some out1 ∧ PairAt out1 off := by
  obtain ⟨a, ha⟩ : ∃ a, memcpy out off
      [entry g 0 0 * d.getD 0 0 + entry g 0 1 * d.getD 1 0 + entry g 0 2 * d.getD 2 0,
       entry g 1 0 * d.getD 0 0 + entry g 1 1 * d.getD 1 0 + entry g 1 2 * d.getD 2 0,
       entry g 2 0 * d.getD 0 0 + entry g 2 1 * d.getD 1 0 + entry g 2 2 * d.getD 2 0] 0 3
      = some a := ⟨_, memcpy_eq_some _ _ _ _ _ (by omega) (by simp)⟩
  have hla := memcpy_length ha
  obtain ⟨b, hb⟩ : ∃ b, memcpy a (off + 3) a off 3 = some b :=
    ⟨_, memcpy_eq_some _ _ _ _ _ (by omega) (by omega)⟩
  have hlb := memcpy_length hb
  obtain ⟨r, hc⟩ : ∃ r, memcpy b (off + 3)
      [b.getD (off + 3) 0 * (-1), b.getD (off + 3 + 1) 0 * (-1), b.getD (off + 3 + 2) 0 * (-1)]
      0 3 = some r := ⟨_, memcpy_eq_some _ _ _ _ _ (by omega) (by simp)⟩
  refine ⟨r, ?_, ?_⟩
  · have h3 : off + 3 + 3 ≤ b.length := by omega
    simp only [writeDirection, Multiply3x3with3x1, Copy3x1, Multiply3x1withConstant, ha, hb,
      if_pos h3, hc]
  · intro k hk
    -- the value written first
    have ea : a[off + k]? = some ([entry g 0 0 * d.getD 0 0 + entry g 0 1 * d.getD 1 0
        + entry g 0 2 * d.getD 2 0,
      entry g 1 0 * d.getD 0 0 + entry g 1 1 * d.getD 1 0 + entry g 1 2 * d.getD 2 0,
      entry g 2 0 * d.getD 0 0 + entry g 2 1 * d.getD 1 0 + entry g 2 2 * d.getD 2 0].getD k 0) := by
      rw [EbsdDataArray.memcpy_getElem? ha (off + k), if_pos (by omega)]
      have e : 0 + (off + k - off) = k := by omega
      rw [e]
      exact triple_getElem? _ _ _ k hk
    have eb1 : b[off + k]? = a[off + k]? := by
      rw [EbsdDataArray.memcpy_getElem? hb (off + k), if_neg (by omega)]
    have eb2 : b[off + 3 + k]? = a[off + k]? := by
      rw [EbsdDataArray.memcpy_getElem? hb (off + 3 + k), if_pos (by omega)]
      have e : off + (off + 3 + k - (off + 3)) = off + k := by omega
      rw [e]
    have ec1 : r[off + k]? = b[off + k]? := by
      rw [EbsdDataArray.memcpy_getElem? hc (off + k), if_neg (by omega)]
    have ec2 : r[off + 3 + k]? = some (b.getD (off + 3 + k) 0 * (-1)) := by
      rw [EbsdDataArray.memcpy_getElem? hc (off + 3 + k), if_pos (by omega)]
      have e : 0 + (off + 3 + k - (off + 3)) = k := by omega
      rw [e, triple_getElem? _ _ _ k hk]
      interval_cases k <;> rfl
    refine ⟨_, by rw [ec1, eb1, ea], ?_⟩
    rw [ec2, List.getD_eq_getElem?_getD, eb2, ea]
    simp

end CubicLow

namespace CubicLow

theorem writeFamily_pairs (g : List (List ℚ)) (dirs : List (List ℚ)) :
    ∀ (out : List ℚ) (base : Nat), base + 6 * dirs.length ≤ out.length →
    ∃ out1, writeFamily g dirs out base = some out1 ∧
      ∀ j, j < dirs.length → PairAt out1 (base + 6 * j) := by
  induction dirs with
  | nil =>
    intro out base _
    exact ⟨out, rfl, fun j hj => absurd hj (by simp)⟩
  | cons d rest ih =>
    intro out base h
    simp only [List.length_cons] at h ⊢
    obtain ⟨a, ha, hpa⟩ := writeDirection_pair g d out base (by omega)
    obtain ⟨a2, ha2, hla, -⟩ := writeDirection_frame g d out base (by omega)
    have ea : a2 = a := Option.some.inj (ha2.symm.trans ha)
    subst ea
    obtain ⟨b, hb, hpb⟩ := ih a2 (base + 6) (by omega)
    obtain ⟨b2, hb2, -, hfb⟩ := writeFamily_frame g rest a2 (base + 6) (by omega)
    have eb : b2 = b := Option.some.inj (hb2.symm.trans hb)
    subst eb
    refine ⟨b2, ?_, ?_⟩
    · simp only [writeFamily, ha, hb]
    · intro j hj
      cases j with
      | zero =>
        exact pairAt_of_same (fun i _ hi2 => hfb i (Or.inl (by omega))) hpa
      | succ j =>
        have e : base + 6 * (j + 1) = base + 6 + 6 * j := by omega
        rw [e]
        exact hpb j (by omega)

theorem generateOne_pairs (eu2om : List ℚ → List (List ℚ)) (eulers : List ℚ)
    (out : SphereCoords) (i : Nat) (he : 3 * (i + 1) ≤ eulers.length)
    (h1 : 18 * (i + 1) ≤ out.xyz001.length) (h2 : 36 * (i + 1) ≤ out.xyz011.length)
    (h3 : 24 * (i + 1) ≤ out.xyz111.length) :
    ∃ out1, generateOne eu2om eulers out i = some out1 ∧ PairsOf out1 i := by
  have i0 : i * 3 < eulers.length := by omega
  have i1 : i * 3 + 1 < eulers.length := by omega
  have i2 : i * 3 + 2 < eulers.length := by omega
  obtain ⟨a, ha, hpa⟩ := writeFamily_pairs
    (Transpose3x3 (eu2om [eulers[i * 3], eulers[i * 3 + 1], eulers[i * 3 + 2]]))
    directions001 out.xyz001 (i * 18) (by rw [directions001_length]; omega)
  obtain ⟨b, hb, hpb⟩ := writeFamily_pairs
    (Transpose3x3 (eu2om [eulers[i * 3], eulers[i * 3 + 1], eulers[i * 3 + 2]]))
    directions011 out.xyz011 (i * 36) (by rw [directions011_length]; omega)
  obtain ⟨r, hr, hpr⟩ := writeFamily_pairs
    (Transpose3x3 (eu2om [eulers[i * 3], eulers[i * 3 + 1], eulers[i * 3 + 2]]))
    directions111 out.xyz111 (i * 24) (by rw [directions111_length]; omega)
  refine ⟨⟨a, b, r⟩, ?_, ?_, ?_, ?_⟩
  · simp only [generateOne, List.getElem?_eq_getElem i0, List.getElem?_eq_getElem i1,
      List.getElem?_eq_getElem i2, ha, hb, hr]
  · intro j hj
    exact hpa j (by rw [directions001_length]; exact hj)
  · intro j hj
    exact hpb j (by rw [directions011_length]; exact hj)
  · intro j hj
    exact hpr j (by rw [directions111_length]; exact hj)

theorem pairsOf_of_sameOutside {a b : SphereCoords} {i start stop : Nat}
    (h : SameOutside a b start stop) (hi : i < start ∨ stop ≤ i) (ha : PairsOf a i) :
    PairsOf b i := by
  obtain ⟨-, f1, f2, f3⟩ := h
  obtain ⟨p1, p2, p3⟩ := ha
  refine ⟨fun j hj => ?_, fun j hj => ?_, fun j hj => ?_⟩
  · exact pairAt_of_same (fun q hq1 hq2 => f1 q (by omega)) (p1 j hj)
  · exact pairAt_of_same (fun q hq1 hq2 => f2 q (by omega)) (p2 j hj)
  · exact pairAt_of_same (fun q hq1 hq2 => f3 q (by omega)) (p3 j hj)

theorem generate_pairs (eu2om : List ℚ → List (List ℚ)) (eulers : List ℚ) :
    ∀ (m start : Nat) (out : SphereCoords), 3 * (start + m) ≤ eulers.length →
      18 * (start + m) ≤ out.xyz001.length → 36 * (start + m) ≤ out.xyz011.length →
      24 * (start + m) ≤ out.xyz111.length →
      ∃ out1, generate eu2om eulers out start (start + m) = some out1
        ∧ ∀ i, start ≤ i → i < start + m → PairsOf out1 i := by
  intro m
  induction m with
  | zero =>
    intro start out _ _ _ _
    refine ⟨out, ?_, fun i h1 h2 => absurd h2 (by omega)⟩
    simp [generate]
  | succ m ih =>
    intro start out he h1 h2 h3
    obtain ⟨a, ha, hpa⟩ :=
      generateOne_pairs eu2om eulers out start (by omega) (by omega) (by omega) (by omega)
    obtain ⟨a2, ha2, ⟨hla1, hla2, hla3⟩, -⟩ :=
      generateOne_frame eu2om eulers out start (by omega) (by omega) (by omega) (by omega)
    have ea : a2 = a := Option.some.inj (ha2.symm.trans ha)
    subst ea
    obtain ⟨b, hb, hpb⟩ := ih (start + 1) a2 (by omega) (by omega) (by omega) (by omega)
    obtain ⟨b2, hb2, hsb⟩ :=
      generate_frame eu2om eulers m (start + 1) a2 (by omega) (by omega) (by omega) (by omega)
    have eb : b2 = b := Option.some.inj (hb2.symm.trans hb)
    subst eb
    refine ⟨b2, ?_, ?_⟩
    · have e1 : start + (m + 1) - start = m + 1 := by omega
      have e2 : start + 1 + m - (start + 1) = m := by omega
      unfold generate at hb ⊢
      rw [e1, List.range'_succ, List.foldlM_cons, ha]
      rw [e2] at hb
      exact hb
    · intro i hi1 hi2
      by_cases hi : i = start
      · subst hi
        exact pairsOf_of_sameOutside hsb (Or.inl (by omega)) hpa
      · exact hpb i (by omega) (by omega)

theorem take3_drop {block : List ℚ} {off : Nat} {v0 v1 v2 : ℚ} (h0 : block[off]? = some v0)
    (h1 : block[off + 1]? = some v1) (h2 : block[off + 2]? = some v2) :
    (block.drop off).take 3 = [v0, v1, v2] := by
  apply List.ext_getElem?
  intro n
  rw [List.getElem?_take]
  by_cases hn : n < 3
  · rw [if_pos hn, List.getElem?_drop]
    interval_cases n
    · simpa using h0
    · simpa using h1
    · simpa using h2
  · rw [if_neg hn]
    have : [v0, v1, v2].length ≤ n := by simp; omega
    rw [List.getElem?_eq_none this]

theorem spherePoint_of_pairAt {block : List ℚ} {stride i j : Nat}
    (h : PairAt block (i * stride + 6 * j)) :
    (spherePoint block stride i (2 * j)).length = 3 ∧
    spherePoint block stride i (2 * j + 1)
      = (spherePoint block stride i (2 * j)).map (fun v => -v) := by
  obtain ⟨v0, a0, b0⟩ := h 0 (by omega)
  obtain ⟨v1, a1, b1⟩ := h 1 (by omega)
  obtain ⟨v2, a2, b2⟩ := h 2 (by omega)
  have e1 : i * stride + 3 * (2 * j) = i * stride + 6 * j := by omega
  have e2 : i * stride + 3 * (2 * j + 1) = i * stride + 6 * j + 3 := by omega
  rw [Nat.add_zero] at a0 b0
  unfold spherePoint
  rw [e1, e2, take3_drop a0 a1 a2, take3_drop b0 b1 b2]
  simp

end CubicLow

/-- Claim C36. With `n` orientations (`3 n` Euler angles) and output arrays of `n * 6`, `n * 12`
and `n * 8` three-component tuples, `generate(start, end)` for `start ≤ end ≤ n` completes, and
in the slice of every orientation `i` of `[start, end)` the points come in antipodal pairs:
for every even point index `2 j` of the slice (`j < 3` in `xyz001`, `j < 6` in `xyz011`,
`j < 4` in `xyz111`) point `2 j` has three coordinates and point `2 j + 1` is its
componentwise negation. -/
theorem CubicLow.generate_antipodal_pairs (eu2om : List ℚ → List (List ℚ)) (eulers : List ℚ)
    (out : CubicLow.SphereCoords) (n start stop : Nat) (he : eulers.length = n * 3)
    (h1 : out.xyz001.length = n * CubicLow.symSize0 * 3)
    (h2 : out.xyz011.length = n * CubicLow.symSize1 * 3)
    (h3 : out.xyz111.length = n * CubicLow.symSize2 * 3)
    (hs : start ≤ stop) (hn : stop ≤ n) :
    ∃ out1, CubicLow.generate eu2om eulers out start stop = some out1 ∧
      ∀ i, start ≤ i → i < stop →
        (∀ j, j < 3 → (CubicLow.spherePoint out1.xyz001 18 i (2 * j)).length = 3 ∧
          CubicLow.spherePoint out1.xyz001 18 i (2 * j + 1)
            = (CubicLow.spherePoint out1.xyz001 18 i (2 * j)).map (fun v => -v)) ∧
        (∀ j, j < 6 → (CubicLow.spherePoint out1.xyz011 36 i (2 * j)).length = 3 ∧
          CubicLow.spherePoint out1.xyz011 36 i (2 * j + 1)
            = (CubicLow.spherePoint out1.xyz011 36 i (2 * j)).map (fun v => -v)) ∧
        (∀ j, j < 4 → (CubicLow.spherePoint out1.xyz111 24 i (2 * j)).length = 3 ∧
          CubicLow.spherePoint out1.xyz111 24 i (2 * j + 1)
            = (CubicLow.spherePoint out1.xyz111 24 i (2 * j)).map (fun v => -v)) := by
  have e0 : CubicLow.symSize0 = 6 := rfl
  have e1 : CubicLow.symSize1 = 12 := rfl
  have e2 : CubicLow.symSize2 = 8 := rfl
  rw [e0] at h1
  rw [e1] at h2
  rw [e2] at h3
  obtain ⟨m, rfl⟩ := Nat.exists_eq_add_of_le hs
  obtain ⟨a, ha, hpa⟩ := CubicLow.generate_pairs eu2om eulers m start out (by omega) (by omega)
    (by omega) (by omega)
  refine ⟨a, ha, ?_⟩
  intro i hi1 hi2
  obtain ⟨p1, p2, p3⟩ := hpa i hi1 hi2
  exact ⟨fun j hj => CubicLow.spherePoint_of_pairAt (p1 j hj),
    fun j hj => CubicLow.spherePoint_of_pairAt (p2 j hj),
    fun j hj => CubicLow.spherePoint_of_pairAt (p3 j hj)⟩

/-- Claim C36 for two orientations, both generated by one call for `[0, 2)`. -/
theorem CubicLow.generate_antipodal_pairs_witness :
    ∃ out1, CubicLow.generate CubicLow.identityOm [0, 0, 0, 1, 0, 0] CubicLow.twoOrientations
        0 2 = some out1 ∧
      ∀ i, 0 ≤ i → i < 2 →
        (∀ j, j < 3 → (CubicLow.spherePoint out1.xyz001 18 i (2 * j)).length = 3 ∧
          CubicLow.spherePoint out1.xyz001 18 i (2 * j + 1)
            = (CubicLow.spherePoint out1.xyz001 18 i (2 * j)).map (fun v => -v)) ∧
        (∀ j, j < 6 → (CubicLow.spherePoint out1.xyz011 36 i (2 * j)).length = 3 ∧
          CubicLow.spherePoint out1.xyz011 36 i (2 * j + 1)
            = (CubicLow.spherePoint out1.xyz011 36 i (2 * j)).map (fun v => -v)) ∧
        (∀ j, j < 4 → (CubicLow.spherePoint out1.xyz111 24 i (2 * j)).length = 3 ∧
          CubicLow.spherePoint out1.xyz111 24 i (2 * j + 1)
            = (CubicLow.spherePoint out1.xyz111 24 i (2 * j)).map (fun v => -v)) :=
  CubicLow.generate_antipodal_pairs CubicLow.identityOm [0, 0, 0, 1, 0, 0]
    CubicLow.twoOrientations 2 0 2 (by decide) (by decide) (by decide) (by decide) (by decide)
    (by decide)

end EbsdLib
